import Mathlib

/-!
Inventarios: the inventory ledger (products.js, movements.js, storage.js, utils.js).

A shallow embedding of the product registry and the movement ledger of
`sistema-inventarios/js`, with the properties of its specification.

Modelling conventions.

* The persisted collections (`inventory_products`, `inventory_movements`,
  `inventory_current_user`) are the fields of `Store`; every function that reads or
  writes `localStorage` takes the store and returns the new one. Storage is taken to be
  reliable and the JSON round trip to be the identity. For the aggregation functions the
  calls on `localStorage` themselves are embedded, as a `Script` of reads and writes.
* JavaScript numbers are rationals; `NaN` is `none` in `jsNumber`, and the infinities
  are not modelled. Persisted numbers are never `NaN`. Comparisons, negation and
  `Math.abs` are exact. In the first sections a sum, a quotient or a product is the exact
  one. The section on double precision defines `roundDouble`, the rounding of IEEE 754
  doubles, and the registration and the stock status with every such result rounded;
  the properties in which rounding shows, conservation over several calls and the
  threshold of 150 %, are stated on these.
* The stores on which the properties are stated are those the operations write:
  `Reachable` and `reachable_sound` give the facts used as hypotheses (stocks at least
  zero, generated ids, the two movement types).
* `Number(s)` and the number-to-text conversion of template literals belong to the
  engine, not to the repository: they are the two fields of `Host`, and every theorem
  holds for every host.
* `generateId()` and `new Date()` are the fields of `Fresh`, supplied per call.
  Timestamps are instants (milliseconds), the ISO text being a bijective rendering.
* The local time zone of `Date` is a `Calendar`: the local day number of an instant, the
  instant at which a local day starts (`setHours(0, 0, 0, 0)`) and the text `formatDate`
  prints. A read-only function that consults the clock takes the instant `now`.
* A field that may be absent from an object literal is an `Option` (`none` is
  `undefined`). Text fields (ids, code, name, category, type, reason, notes) hold text,
  as the forms submit them and as the JSDoc of `isEmpty` declares; numeric fields hold
  any `JSVal`, as the JSDoc of `isPositiveNumber` declares.
* Where the code reads a field that its own validation has already shown to be a
  non-blank text or a number, the model reads it with `Option.getD ""` or
  `storedNumber`; the lemmas `isEmpty_false_some` and `storedNumber_of_jsNumber` show
  that the default is never used.
* `log` only writes to the console and is left out; `showToast` is recorded in the
  outcome of `registerMovement`.
* A `TypeError` raised by the code is the outcome `Outcome.threw`.
-/

namespace Inventarios

/-! ## Values -/

/-- The JSON-compatible primitive values a form field or object property can hold. -/
inductive JSVal where
  | undefined
  | null
  | bool (b : Bool)
  | num (q : ℚ)
  | nan
  | str (s : String)
  deriving DecidableEq

/-- The engine conversions used by the code: `Number(s)` on text (`none` is `NaN`), the
text of a number inside a template literal, `String.prototype.toLowerCase` and
`String.prototype.normalize('NFD')`. -/
structure Host where
  stringToNumber : String → Option ℚ
  numberToString : ℚ → String
  toLowerCase : String → String
  normalizeNFD : String → String

/-- The values of `generateId()` and of the clock reads of one call. -/
structure Fresh where
  id : String
  now : Int
  later : Int

/-- The conversion `Number(value)`; `none` is `NaN`. -/
def jsNumber (h : Host) : JSVal → Option ℚ
  | .undefined => none
  | .null => some 0
  | .bool b => some (if b then 1 else 0)
  | .num q => some q
  | .nan => none
  | .str s => h.stringToNumber s

/-- The global `isNaN(value)`. -/
def isNaN (h : Host) (value : JSVal) : Bool :=
  (jsNumber h value).isNone

/-- The test `Number(value) > bound`, false when the left side is `NaN`. -/
def numberGt (h : Host) (value : JSVal) (bound : ℚ) : Bool :=
  match jsNumber h value with
  | some q => decide (q > bound)
  | none => false

/-- The test `Number(value) < bound`, false when the left side is `NaN`. -/
def numberLt (h : Host) (value : JSVal) (bound : ℚ) : Bool :=
  match jsNumber h value with
  | some q => decide (q < bound)
  | none => false

/-- The number `Number(value)` at a place where the preceding validation has excluded `NaN`
(`storedNumber_of_jsNumber`); the persisted collections hold no `NaN`. -/
def storedNumber (h : Host) (value : JSVal) : ℚ :=
  (jsNumber h value).getD 0

/-- The code points removed by `String.prototype.trim` (WhiteSpace and LineTerminator). -/
def isTrimmed (c : Char) : Bool :=
  let n := c.toNat
  n == 0x09 || n == 0x0A || n == 0x0B || n == 0x0C || n == 0x0D || n == 0x20 ||
  n == 0xA0 || n == 0x1680 || (0x2000 ≤ n && n ≤ 0x200A) || n == 0x2028 ||
  n == 0x2029 || n == 0x202F || n == 0x205F || n == 0x3000 || n == 0xFEFF

/-- The characters of `str.trim()`. -/
def trim (str : String) : List Char :=
  ((str.data.dropWhile isTrimmed).reverse.dropWhile isTrimmed).reverse

/-- Truthiness of an optional text: `undefined` and `""` are falsy. -/
def truthy (str : Option String) : Bool :=
  match str with
  | none => false
  | some s => s != ""

/-- Function `isEmpty(str)` of utils.js: `!str || str.trim().length === 0`. -/
def isEmpty (str : Option String) : Bool :=
  match str with
  | none => true
  | some s => !truthy (some s) || (trim s).length == 0

/-- Function `isPositiveNumber(value)` of utils.js: `!isNaN(value) && Number(value) > 0`. -/
def isPositiveNumber (h : Host) (value : JSVal) : Bool :=
  !isNaN h value && numberGt h value 0

/-- The expression `a || ''` on an optional text. -/
def orEmpty (a : Option String) : String :=
  if truthy a then a.getD "" else ""

/-! ## Data model -/

/-- A persisted product. -/
structure Product where
  id : String
  code : String
  name : String
  description : String
  category : String
  price : ℚ
  stock : ℚ
  minStock : ℚ
  createdAt : Int
  updatedAt : Int
  deriving DecidableEq

/-- A persisted movement. -/
structure Movement where
  id : String
  productId : String
  productCode : String
  productName : String
  type : String
  quantity : ℚ
  reason : String
  notes : String
  previousStock : ℚ
  newStock : ℚ
  userId : String
  userName : String
  createdAt : Int
  deriving DecidableEq

/-- The session user as read by `getCurrentUser`. -/
structure User where
  id : String
  username : String
  fullName : Option String
  role : String
  deriving DecidableEq

/-- The persisted state. -/
structure Store where
  products : List Product
  movements : List Movement
  currentUser : Option User
  deriving DecidableEq

/-- The object handed to `createProduct` and `editProduct`. -/
structure ProductData where
  code : Option String
  name : Option String
  description : Option String
  category : Option String
  price : JSVal
  stock : JSVal
  minStock : JSVal

/-- The object handed to `registerMovement`. -/
structure MovementData where
  productId : Option String
  type : Option String
  quantity : JSVal
  reason : Option String
  notes : Option String

/-- The object literal handed to `addProduct`. -/
structure NewProduct where
  code : String
  name : String
  description : String
  category : String
  price : ℚ
  stock : ℚ
  minStock : ℚ

/-- The object literal handed to `updateProduct`: each property may be absent. -/
structure ProductPatch where
  code : Option String := none
  name : Option String := none
  description : Option String := none
  category : Option String := none
  price : Option ℚ := none
  stock : Option ℚ := none
  minStock : Option ℚ := none

/-- The object literal handed to `addMovement`. -/
structure NewMovement where
  productId : String
  productCode : String
  productName : String
  type : String
  quantity : ℚ
  reason : String
  notes : String
  previousStock : ℚ
  newStock : ℚ
  userId : String
  userName : String

/-- The shape `{ valid, errors }`. -/
structure Validation where
  valid : Bool
  errors : List String
  deriving DecidableEq

/-- The shape `{ success, product, message }`. -/
structure ProductResult where
  success : Bool
  product : Option Product
  message : String
  deriving DecidableEq

/-- The shape `{ success, message }` of `removeProduct`. -/
structure RemoveResult where
  success : Bool
  message : String
  deriving DecidableEq

/-- The shape `{ success, movement, message }`. -/
structure MovementResult where
  success : Bool
  movement : Option Movement
  message : String
  deriving DecidableEq

/-- One call of `showToast(message, type)`. -/
structure Toast where
  message : String
  type : String
  deriving DecidableEq

/-- How a call of `registerMovement` ends: it returns a result (having possibly shown a
toast), or a `TypeError` is raised; either way `store` is the persisted state left. -/
inductive Outcome where
  | returned (store : Store) (result : MovementResult) (toast : Option Toast)
  | threw (store : Store)
  deriving DecidableEq

/-- The persisted state an outcome leaves. -/
def Outcome.store : Outcome → Store
  | .returned s _ _ => s
  | .threw s => s

/-- The returned result, `none` when the call raised. -/
def Outcome.result? : Outcome → Option MovementResult
  | .returned _ r _ => some r
  | .threw _ => none

/-- The toast shown, if any. -/
def Outcome.toast? : Outcome → Option Toast
  | .returned _ _ t => t
  | .threw _ => none

/-- The expression `errors.join(', ')`. -/
def joinErrors (errors : List String) : String :=
  ", ".intercalate errors

/-! ## storage.js -/

/-- Function `getProductById(id)`: the first product whose `id` is strictly equal to the
argument (which may be `undefined`). -/
def getProductById (s : Store) (id : Option String) : Option Product :=
  s.products.find? (fun p => some p.id == id)

/-- The object `{...old, ...updatedData, updatedAt}` built by `updateProduct`. -/
def ProductPatch.apply (updatedData : ProductPatch) (old : Product) (now : Int) : Product :=
  { id := old.id
    code := updatedData.code.getD old.code
    name := updatedData.name.getD old.name
    description := updatedData.description.getD old.description
    category := updatedData.category.getD old.category
    price := updatedData.price.getD old.price
    stock := updatedData.stock.getD old.stock
    minStock := updatedData.minStock.getD old.minStock
    createdAt := old.createdAt
    updatedAt := now }

/-- Function `addProduct(product)`. -/
def addProduct (f : Fresh) (s : Store) (product : NewProduct) : Store × Product :=
  let newProduct : Product :=
    { id := f.id
      code := product.code
      name := product.name
      description := product.description
      category := product.category
      price := product.price
      stock := product.stock
      minStock := product.minStock
      createdAt := f.now
      updatedAt := f.later }
  ({ s with products := s.products ++ [newProduct] }, newProduct)

/-- Function `updateProduct(id, updatedData)`; `none` is the returned `null`. -/
def updateProduct (now : Int) (s : Store) (id : String) (updatedData : ProductPatch) :
    Store × Option Product :=
  match s.products.findIdx? (fun p => p.id == id) with
  | none => (s, none)
  | some index =>
    match s.products[index]? with
    | none => (s, none)
    | some old =>
      let updated := updatedData.apply old now
      ({ s with products := s.products.set index updated }, some updated)

/-- Function `deleteProduct(id)`. -/
def deleteProduct (s : Store) (id : String) : Store × Bool :=
  let filtered := s.products.filter (fun p => p.id != id)
  if filtered.length == s.products.length then (s, false)
  else ({ s with products := filtered }, true)

/-- Function `updateProductStock(productId, quantity)`. -/
def updateProductStock (now : Int) (s : Store) (productId : String) (quantity : ℚ) :
    Store × Option Product :=
  match getProductById s (some productId) with
  | none => (s, none)
  | some product => updateProduct now s productId { stock := some (product.stock + quantity) }

/-- Function `addMovement(movement)`. -/
def addMovement (f : Fresh) (s : Store) (movement : NewMovement) : Store × Movement :=
  let newMovement : Movement :=
    { id := f.id
      productId := movement.productId
      productCode := movement.productCode
      productName := movement.productName
      type := movement.type
      quantity := movement.quantity
      reason := movement.reason
      notes := movement.notes
      previousStock := movement.previousStock
      newStock := movement.newStock
      userId := movement.userId
      userName := movement.userName
      createdAt := f.now }
  ({ s with movements := s.movements ++ [newMovement] }, newMovement)

/-- Function `getMovementsByProduct(productId)`. -/
def getMovementsByProduct (s : Store) (productId : String) : List Movement :=
  s.movements.filter (fun m => m.productId == productId)

/-- Function `getCurrentUser()`. -/
def getCurrentUser (s : Store) : Option User :=
  s.currentUser

/-! ## movements.js -/

/-- Constant `MOVEMENT_TYPES.ENTRADA`. -/
def ENTRADA : String := "entrada"

/-- Constant `MOVEMENT_TYPES.SALIDA`. -/
def SALIDA : String := "salida"

/-- The array `Object.values(MOVEMENT_TYPES)`. -/
def MOVEMENT_TYPES : List String := [ENTRADA, SALIDA]

/-- The error text pushed for an exit larger than the stock. -/
def insufficientStock (h : Host) (stock : ℚ) : String :=
  "Stock insuficiente. Disponible: " ++ h.numberToString stock ++ " unidades"

/-- Function `validateMovementData(movementData)`. -/
def validateMovementData (h : Host) (s : Store) (movementData : MovementData) : Validation :=
  let errors : List String := []
  -- Validar producto
  let errors := errors ++
    (if !truthy movementData.productId then ["Debe seleccionar un producto"]
     else
       match getProductById s movementData.productId with
       | none => ["El producto seleccionado no existe"]
       | some _ => [])
  -- Validar tipo
  let errors := errors ++
    (if !truthy movementData.type ||
        !(match movementData.type with
          | some t => MOVEMENT_TYPES.contains t
          | none => false)
     then ["Tipo de movimiento inválido"] else [])
  -- Validar cantidad
  let errors := errors ++
    (if !isPositiveNumber h movementData.quantity
     then ["La cantidad debe ser un número positivo"] else [])
  -- Validar razón
  let errors := errors ++
    (if isEmpty movementData.reason then ["Debe especificar una razón"] else [])
  -- Validar stock suficiente para salidas
  let errors := errors ++
    (if movementData.type == some SALIDA then
       match getProductById s movementData.productId with
       | some product =>
         if numberGt h movementData.quantity product.stock
         then [insufficientStock h product.stock] else []
       | none => []
     else [])
  { valid := errors.length == 0, errors := errors }

/-- Function `registerMovement(movementData)`. -/
def registerMovement (h : Host) (f : Fresh) (s : Store) (movementData : MovementData) :
    Outcome :=
  -- Validar datos
  let validation := validateMovementData h s movementData
  if !validation.valid then
    .returned s { success := false, movement := none, message := joinErrors validation.errors }
      none
  else
    -- Obtener producto
    match getProductById s movementData.productId with
    | none =>
      .returned s { success := false, movement := none, message := "Producto no encontrado" }
        none
    | some product =>
      -- Calcular nuevo stock
      let quantity := storedNumber h movementData.quantity
      let stockChange := if movementData.type == some ENTRADA then quantity else -quantity
      let previousStock := product.stock
      let newStock := previousStock + stockChange
      -- Validar que no resulte en stock negativo
      if newStock < 0 then
        .returned s
          { success := false, movement := none,
            message := "La operación resultaría en stock negativo" } none
      else
        -- Obtener usuario actual
        match getCurrentUser s with
        | none => .threw s
        | some currentUser =>
          -- Crear movimiento
          let (s₁, movement) := addMovement f s
            { productId := product.id
              productCode := product.code
              productName := product.name
              type := movementData.type.getD ""
              quantity := stockChange
              reason := movementData.reason.getD ""
              notes := orEmpty movementData.notes
              previousStock := previousStock
              newStock := newStock
              userId := currentUser.id
              userName := if truthy currentUser.fullName then currentUser.fullName.getD ""
                          else currentUser.username }
          -- Actualizar stock del producto
          let (s₂, _) := updateProductStock f.later s₁ product.id stockChange
          -- Verificar si quedó en stock bajo
          let toast :=
            if newStock ≤ product.minStock && movementData.type == some SALIDA then
              some
                { message := "Alerta: " ++ product.name ++ " ahora tiene stock bajo (" ++
                    h.numberToString newStock ++ " unidades)"
                  type := "warning" }
            else none
          .returned s₂
            { success := true
              movement := some movement
              message := (if movementData.type == some ENTRADA then "Entrada" else "Salida") ++
                " registrada exitosamente" }
            toast

/-- Function `registerEntry(movementData)`. -/
def registerEntry (h : Host) (f : Fresh) (s : Store) (movementData : MovementData) : Outcome :=
  registerMovement h f s { movementData with type := some ENTRADA }

/-- Function `registerExit(movementData)`. -/
def registerExit (h : Host) (f : Fresh) (s : Store) (movementData : MovementData) : Outcome :=
  registerMovement h f s { movementData with type := some SALIDA }

/-! ## products.js -/

/-- Function `validateProductData(productData)`. -/
def validateProductData (h : Host) (productData : ProductData) : Validation :=
  let errors : List String := []
  -- Validar código
  let errors := errors ++
    (if isEmpty productData.code then ["El código es requerido"] else [])
  -- Validar nombre
  let errors := errors ++
    (if isEmpty productData.name then ["El nombre es requerido"] else [])
  -- Validar categoría
  let errors := errors ++
    (if isEmpty productData.category then ["La categoría es requerida"] else [])
  -- Validar precio
  let errors := errors ++
    (if !isPositiveNumber h productData.price
     then ["El precio debe ser un número positivo"] else [])
  -- Validar stock
  let errors := errors ++
    (if isNaN h productData.stock || numberLt h productData.stock 0
     then ["El stock debe ser un número mayor o igual a cero"] else [])
  -- Validar stock mínimo
  let errors := errors ++
    (if !isPositiveNumber h productData.minStock
     then ["El stock mínimo debe ser un número positivo"] else [])
  { valid := errors.length == 0, errors := errors }

/-- Function `productCodeExists(code, excludeId = null)`; `none` is the default `null`,
which no product id equals. -/
def productCodeExists (s : Store) (code : Option String) (excludeId : Option String) : Bool :=
  s.products.any (fun p => some p.code == code && some p.id != excludeId)

/-- Function `createProduct(productData)`. -/
def createProduct (h : Host) (f : Fresh) (s : Store) (productData : ProductData) :
    Store × ProductResult :=
  -- Validar datos
  let validation := validateProductData h productData
  if !validation.valid then
    (s, { success := false, product := none, message := joinErrors validation.errors })
  -- Verificar código único
  else if productCodeExists s productData.code none then
    (s, { success := false, product := none,
          message := "Ya existe un producto con ese código" })
  else
    -- Crear producto
    let (s₁, product) := addProduct f s
      { code := productData.code.getD ""
        name := productData.name.getD ""
        description := orEmpty productData.description
        category := productData.category.getD ""
        price := storedNumber h productData.price
        stock := storedNumber h productData.stock
        minStock := storedNumber h productData.minStock }
    (s₁, { success := true, product := some product,
           message := "Producto creado exitosamente" })

/-- Function `editProduct(id, productData)`. -/
def editProduct (h : Host) (f : Fresh) (s : Store) (id : String) (productData : ProductData) :
    Store × ProductResult :=
  -- Verificar que el producto existe
  match getProductById s (some id) with
  | none => (s, { success := false, product := none, message := "Producto no encontrado" })
  | some _ =>
    -- Validar datos
    let validation := validateProductData h productData
    if !validation.valid then
      (s, { success := false, product := none, message := joinErrors validation.errors })
    -- Verificar código único (excluyendo el producto actual)
    else if productCodeExists s productData.code (some id) then
      (s, { success := false, product := none,
            message := "Ya existe otro producto con ese código" })
    else
      -- Actualizar producto (mantener stock, ya que se actualiza via movimientos)
      let (s₁, product) := updateProduct f.now s id
        { code := some (productData.code.getD "")
          name := some (productData.name.getD "")
          description := some (orEmpty productData.description)
          category := some (productData.category.getD "")
          price := some (storedNumber h productData.price)
          minStock := some (storedNumber h productData.minStock) }
      (s₁, { success := true, product := product,
             message := "Producto actualizado exitosamente" })

/-- Function `removeProduct(id)`. -/
def removeProduct (s : Store) (id : String) : Store × RemoveResult :=
  -- Verificar que el producto existe
  match getProductById s (some id) with
  | none => (s, { success := false, message := "Producto no encontrado" })
  | some _ =>
    -- Verificar si tiene movimientos: only a console note, the deletion goes on
    -- Eliminar producto
    let (s₁, deleted) := deleteProduct s id
    if deleted then (s₁, { success := true, message := "Producto eliminado exitosamente" })
    else (s₁, { success := false, message := "Error al eliminar el producto" })

/-! ## Sequences of ledger calls -/

/-- The store left by a sequence of `registerMovement` calls, each with its own fresh
values, a call that raised leaving the store it had reached; every sum is the exact one,
and `IEEE.registerAll` is the sequence with the sums as the engine keeps them. -/
def registerAll (h : Host) (s : Store) : List (Fresh × MovementData) → Store
  | [] => s
  | (f, movementData) :: rest => registerAll h (registerMovement h f s movementData).store rest

/-! ## Queries of utils.js, products.js and movements.js -/

/-- The local time zone as `Date` exposes it: `dayOf t` is the local calendar day of the
instant `t` (counted from a fixed day), `startOfDay d` the instant at which local day `d`
starts, `formatDate t` the text `formatDate(t, false)` of utils.js, `parse text` the
instant of `new Date(text)` (`none` for an invalid date) and `endOfDay t` the instant
`setHours(23, 59, 59, 999)` moves `t` to. -/
structure Calendar where
  dayOf : Int → Int
  startOfDay : Int → Int
  formatDate : Int → String
  parse : String → Option Int
  endOfDay : Int → Int

/-- The shape `{ text, class, badge }` of `getStockStatus`. -/
structure StockStatus where
  text : String
  className : String
  badge : String
  deriving DecidableEq

/-- Function `getStockStatus(stock, minStock)` of utils.js with the exact quotient and
product, for `minStock` other than zero; `IEEE.getStockStatus` is the function with the
results as the engine keeps them and with the infinity or `NaN` of `minStock = 0`. -/
def getStockStatus (stock minStock : ℚ) : StockStatus :=
  let percentage := (stock / minStock) * 100
  if stock = 0 then
    { text := "Sin Stock", className := "danger", badge := "badge-stock-bajo" }
  else if stock ≤ minStock then
    { text := "Stock Bajo", className := "warning", badge := "badge-stock-bajo" }
  else if percentage ≤ 150 then
    { text := "Stock Normal", className := "success", badge := "badge-stock-normal" }
  else
    { text := "Stock Alto", className := "info", badge := "badge-stock-alto" }

/-- The combining marks `U+0300` to `U+036F` removed by `normalizeText`. -/
def isCombiningMark (c : Char) : Bool :=
  0x0300 ≤ c.toNat && c.toNat ≤ 0x036F

/-- Function `normalizeText(text)` of utils.js. -/
def normalizeText (h : Host) (text : String) : String :=
  String.mk ((h.normalizeNFD (h.toLowerCase text)).data.filter (fun c => !isCombiningMark c))

/-- The test `text.includes(search)`. -/
def includes (text search : String) : Bool :=
  text.data.tails.any (fun t => search.data.isPrefixOf t)

/-- Function `filterByText(items, searchText, fields)` of utils.js, the fields being
given by their accessors; every field searched by the callers holds text. -/
def filterByText {α : Type} (h : Host) (items : List α) (searchText : Option String)
    (fields : List (α → String)) : List α :=
  if !truthy searchText then items
  else
    let normalized := normalizeText h (searchText.getD "")
    items.filter (fun item =>
      fields.any (fun field =>
        let value := field item
        if !truthy (some value) then false
        else includes (normalizeText h value) normalized))

/-- Function `filterProductsByStockLevel(level)` of products.js. -/
def filterProductsByStockLevel (s : Store) (level : String) : List Product :=
  let products := s.products
  if level = "bajo" then
    products.filter (fun p => p.stock ≤ p.minStock)
  else if level = "normal" then
    products.filter (fun p =>
      let percentage := (p.stock / p.minStock) * 100
      p.stock > p.minStock && percentage ≤ 150)
  else if level = "alto" then
    products.filter (fun p =>
      let percentage := (p.stock / p.minStock) * 100
      percentage > 150)
  else products

/-- The object handed to `applyProductFilters`. -/
structure ProductFilters where
  search : Option String := none
  category : Option String := none
  stockLevel : Option String := none

/-- Function `applyProductFilters(filters)` of products.js. -/
def applyProductFilters (h : Host) (s : Store) (filters : ProductFilters) : List Product :=
  let products := s.products
  -- Filtrar por búsqueda de texto
  let products :=
    if truthy filters.search then
      filterByText h products filters.search
        [fun p => p.code, fun p => p.name, fun p => p.description, fun p => p.category]
    else products
  -- Filtrar por categoría
  let products :=
    if truthy filters.category then
      products.filter (fun p => some p.category == filters.category)
    else products
  -- Filtrar por nivel de stock
  let products :=
    if truthy filters.stockLevel then
      let level := filters.stockLevel
      products.filter (fun p =>
        let status := getStockStatus p.stock p.minStock
        if level == some "bajo" then p.stock ≤ p.minStock
        else if level == some "normal" then status.badge == "badge-stock-normal"
        else if level == some "alto" then status.badge == "badge-stock-alto"
        else true)
    else products
  products

/-- The shape `{ canMove, message }`. -/
structure CanMove where
  canMove : Bool
  message : String
  deriving DecidableEq

/-- Function `canPerformMovement(productId, type, quantity)` of movements.js. -/
def canPerformMovement (h : Host) (s : Store) (productId : Option String)
    (type : Option String) (quantity : JSVal) : CanMove :=
  match getProductById s productId with
  | none => { canMove := false, message := "Producto no encontrado" }
  | some product =>
    if type == some SALIDA && numberGt h quantity product.stock then
      { canMove := false, message := insufficientStock h product.stock }
    else { canMove := true, message := "OK" }

/-- One element of the array returned by `getMovementsByDay`. -/
structure DayBucket where
  date : String
  entradas : Nat
  salidas : Nat
  total : Nat
  deriving DecidableEq

/-- Function `getMovementsByDay(days)` of movements.js, every `new Date()` of the call
reading the same instant `now`: the loop runs `i` from `days - 1` down to `0`; `date` is
the start of the local day `i` days before today and `nextDay` the start of the following
local day. -/
def getMovementsByDay (cal : Calendar) (now : Int) (s : Store) (days : Nat) : List DayBucket :=
  let movements := s.movements
  (List.range days).reverse.map (fun (i : Nat) =>
    let date := cal.startOfDay (cal.dayOf now - (i : Int))
    let nextDay := cal.startOfDay (cal.dayOf now - (i : Int) + 1)
    let dayMovements := movements.filter (fun m =>
      let movDate := m.createdAt
      decide (movDate ≥ date) && decide (movDate < nextDay))
    let entradas := (dayMovements.filter (fun m => m.type == ENTRADA)).length
    let salidas := (dayMovements.filter (fun m => m.type == SALIDA)).length
    { date := cal.formatDate date
      entradas := entradas
      salidas := salidas
      total := dayMovements.length })

/-! ## Aggregations of storage.js, products.js and movements.js -/

/-- The method `Array.prototype.sort(compare)`, which is stable: for the comparators of
this code (a difference of two numbers) the result is the stable sort that keeps `a`
before `b` unless `compare(a, b) > 0`. -/
def jsSort {α : Type} (compare : α → α → ℚ) (items : List α) : List α :=
  items.insertionSort (fun a b => compare a b ≤ 0)

/-- The test that a property key is an array index: the decimal text of a whole number
below `2^32 - 1`. -/
def isArrayIndex (key : String) : Bool :=
  match key.toNat? with
  | some n => toString n == key && decide (n < 4294967295)
  | none => false

/-- The entries of an object in the order of `Object.entries` and `Object.values`: the
array-index keys in ascending numeric order, then the other keys in the order in which
they were created; `inserted` lists the properties in creation order. -/
def ownEntries {β : Type} (inserted : List (String × β)) : List (String × β) :=
  (inserted.filter (fun e => isArrayIndex e.1)).insertionSort
      (fun a b => a.1.toNat?.getD 0 ≤ b.1.toNat?.getD 0) ++
    inserted.filter (fun e => !isArrayIndex e.1)

/-- The names of the properties that an object literal `{}` inherits from
`Object.prototype`. -/
def inheritedKeys : List String :=
  ["constructor", "hasOwnProperty", "isPrototypeOf", "propertyIsEnumerable",
   "toLocaleString", "toString", "valueOf", "__proto__", "__defineGetter__",
   "__defineSetter__", "__lookupGetter__", "__lookupSetter__"]

/-- Whether `obj[key]` of an object literal without own properties is an inherited
value; each of these values is a function or an object, so `!obj[key]` is false. -/
def isInherited (key : String) : Bool :=
  inheritedKeys.contains key

/-- The statement pair `if (!obj[key]) obj[key] = init; obj[key] = f(obj[key])` on an
object given by its own properties in creation order, for a key that names no inherited
property; the values held are objects, or numbers for which a falsy value is the initial
one. -/
def objectUpdate {β : Type} (obj : List (String × β)) (key : String) (init : β) (f : β → β) :
    List (String × β) :=
  match obj with
  | [] => [(key, f init)]
  | (k, v) :: rest =>
    if k = key then (k, f v) :: rest else (k, v) :: objectUpdate rest key init f

/-- The shape returned by `getInventoryStats`. -/
structure InventoryStats where
  totalProducts : Nat
  totalStock : ℚ
  totalValue : ℚ
  lowStockProducts : Nat
  outOfStockProducts : Nat
  movementsToday : Nat
  totalMovements : Nat
  deriving DecidableEq

/-- Function `getInventoryStats()` of storage.js at the instant `now`. -/
def getInventoryStats (cal : Calendar) (now : Int) (s : Store) : InventoryStats :=
  let products := s.products
  let movements := s.movements
  let today := cal.startOfDay (cal.dayOf now)
  { totalProducts := products.length
    totalStock := products.foldl (fun sum p => sum + p.stock) 0
    totalValue := products.foldl (fun sum p => sum + p.stock * p.price) 0
    lowStockProducts := (products.filter (fun p => p.stock ≤ p.minStock)).length
    outOfStockProducts := (products.filter (fun p => p.stock == 0)).length
    movementsToday := (movements.filter (fun m =>
      let movDate := cal.startOfDay (cal.dayOf m.createdAt)
      movDate == today)).length
    totalMovements := movements.length }

/-- Function `getLowStockProducts()` of storage.js. -/
def getLowStockProducts (s : Store) : List Product :=
  let products := s.products
  jsSort (fun a b => a.stock - b.stock) (products.filter (fun p => p.stock ≤ p.minStock))

/-- An element of the array returned by `getTopMovedProducts`: the object
`{ ...product, totalMovements }`. -/
structure TopMoved where
  product : Product
  totalMovements : ℚ
  deriving DecidableEq

/-- The object `productMovements` built by `getTopMovedProducts`, as its own numeric
properties in creation order. Under a product id that names an inherited property the
test `!productMovements[id]` fails and `+=` appends digits to the text of the inherited
function (or assigns to `__proto__`), so no number is held under that id; such a
movement adds nothing here, and the statements on this function are for stores without
such ids. -/
def productMovements (s : Store) : List (String × ℚ) :=
  s.movements.foldl
    (fun obj m =>
      if isInherited m.productId then obj
      else objectUpdate obj m.productId 0 (fun total => total + |m.quantity|)) []

/-- Function `getTopMovedProducts(limit)` of storage.js. -/
def getTopMovedProducts (s : Store) (limit : Nat) : List TopMoved :=
  let products := s.products
  (jsSort (fun a b => b.totalMovements - a.totalMovements)
    ((ownEntries (productMovements s)).filterMap (fun entry =>
      match products.find? (fun p => p.id == entry.1) with
      | some product => some { product := product, totalMovements := entry.2 }
      | none => none))).take limit

/-- An element of the array returned by `getUserActivity`. -/
structure UserActivity where
  userId : String
  userName : String
  totalMovements : Nat
  entradas : Nat
  salidas : Nat
  deriving DecidableEq

/-- The object `users` built by `getUserActivity`, as its own properties in creation
order. Under a user id that names an inherited property the test `!users[id]` fails and
the three increments act on the inherited function or object, so `users` gets no own
property for that movement. -/
def userTallies (s : Store) : List (String × UserActivity) :=
  s.movements.foldl
    (fun obj m =>
      if isInherited m.userId then obj
      else
        objectUpdate obj m.userId
          { userId := m.userId, userName := m.userName, totalMovements := 0, entradas := 0,
            salidas := 0 }
          (fun u =>
            if m.type == ENTRADA then
              { u with totalMovements := u.totalMovements + 1, entradas := u.entradas + 1 }
            else
              { u with totalMovements := u.totalMovements + 1, salidas := u.salidas + 1 })) []

/-- Function `getUserActivity()` of movements.js. -/
def getUserActivity (s : Store) : List UserActivity :=
  jsSort (fun a b => (b.totalMovements : ℚ) - (a.totalMovements : ℚ))
    ((ownEntries (userTallies s)).map (fun entry => entry.2))

/-- The comparator `new Date(b.createdAt) - new Date(a.createdAt)`. -/
def byDateDescending (a b : Movement) : ℚ :=
  ((b.createdAt - a.createdAt : Int) : ℚ)

/-- Function `getRecentMovements(limit)` of movements.js. -/
def getRecentMovements (s : Store) (limit : Nat) : List Movement :=
  let movements := s.movements
  (jsSort byDateDescending movements).take limit

/-- The object handed to `getFilteredMovements`. -/
structure MovementFilters where
  type : Option String := none
  productId : Option String := none
  dateFrom : Option String := none
  dateTo : Option String := none
  search : Option String := none
  userId : Option String := none

/-- Function `getFilteredMovements(filters)` of movements.js. -/
def getFilteredMovements (h : Host) (cal : Calendar) (s : Store) (filters : MovementFilters) :
    List Movement :=
  let movements := s.movements
  -- Filtrar por tipo
  let movements :=
    if truthy filters.type then movements.filter (fun m => some m.type == filters.type)
    else movements
  -- Filtrar por producto
  let movements :=
    if truthy filters.productId then
      movements.filter (fun m => some m.productId == filters.productId)
    else movements
  -- Filtrar por rango de fechas
  let movements :=
    if truthy filters.dateFrom || truthy filters.dateTo then
      let fromDate :=
        if truthy filters.dateFrom then cal.parse (filters.dateFrom.getD "")
        else cal.parse "1900-01-01"
      let toDate :=
        (if truthy filters.dateTo then cal.parse (filters.dateTo.getD "")
         else cal.parse "2100-12-31").map cal.endOfDay
      movements.filter (fun m =>
        let movDate := m.createdAt
        match fromDate, toDate with
        | some fromDate, some toDate => decide (movDate ≥ fromDate) && decide (movDate ≤ toDate)
        | _, _ => false)
    else movements
  -- Filtrar por búsqueda de texto
  let movements :=
    if truthy filters.search then
      filterByText h movements filters.search
        [fun m => m.productCode, fun m => m.productName, fun m => m.reason,
         fun m => m.notes, fun m => m.userName]
    else movements
  -- Filtrar por usuario
  let movements :=
    if truthy filters.userId then movements.filter (fun m => some m.userId == filters.userId)
    else movements
  -- Ordenar por fecha descendente (más reciente primero)
  jsSort byDateDescending movements

/-- The shape returned by `getProductStatistics`. -/
structure ProductStatistics where
  product : Product
  totalEntradas : ℚ
  totalSalidas : ℚ
  totalMovements : Nat
  stockValue : ℚ
  status : StockStatus
  needsRestock : Bool
  deriving DecidableEq

/-- Function `getProductStatistics(productId)` of products.js; `none` is `null`. -/
def getProductStatistics (s : Store) (productId : String) : Option ProductStatistics :=
  match getProductById s (some productId) with
  | none => none
  | some product =>
    let movements := getMovementsByProduct s productId
    let totalEntradas :=
      (movements.filter (fun m => m.type == "entrada")).foldl (fun sum m => sum + m.quantity) 0
    let totalSalidas :=
      (movements.filter (fun m => m.type == "salida")).foldl
        (fun sum m => sum + |m.quantity|) 0
    let stockValue := product.stock * product.price
    let status := getStockStatus product.stock product.minStock
    some
      { product := product
        totalEntradas := totalEntradas
        totalSalidas := totalSalidas
        totalMovements := movements.length
        stockValue := stockValue
        status := status
        needsRestock := decide (product.stock ≤ product.minStock) }

/-! ## The storage calls of the aggregation functions

The collections live in `localStorage` as JSON texts. A function body is embedded as the
sequence of its calls on `localStorage`, the reads handing the text read to the rest of
the body, so that a body which writes and a body which only reads are different
scripts. -/

/-- The items of `localStorage`, each key with its text. -/
structure LocalStorage where
  items : List (String × String)
  deriving DecidableEq

/-- The call `localStorage.getItem(key)`; `none` is `null`. -/
def LocalStorage.getItem (ls : LocalStorage) (key : String) : Option String :=
  (ls.items.find? (fun item => item.1 == key)).map (fun item => item.2)

/-- The call `localStorage.setItem(key, text)`. -/
def LocalStorage.setItem (ls : LocalStorage) (key text : String) : LocalStorage :=
  { items := (key, text) :: ls.items.filter (fun item => item.1 != key) }

/-- The functions `JSON.parse` and `JSON.stringify` on the texts of the two collections;
`none` is a text that does not parse (the `catch` of `getFromStorage` returns `null`) or
that parses to `null`. -/
structure Json where
  parseProducts : String → Option (List Product)
  parseMovements : String → Option (List Movement)
  stringifyMovements : List Movement → String

/-- A function body as the sequence of its calls on `localStorage`: it returns a value,
or reads an item and goes on with what it read, or writes an item and goes on. -/
inductive Script (α : Type) where
  | done (value : α)
  | getItem (key : String) (next : Option String → Script α)
  | setItem (key : String) (text : String) (next : Script α)

/-- The value a script returns and the storage it leaves. -/
def Script.run {α : Type} : Script α → LocalStorage → α × LocalStorage
  | .done value, ls => (value, ls)
  | .getItem key next, ls => (next (ls.getItem key)).run ls
  | .setItem key text next, ls => next.run (ls.setItem key text)

/-- One body followed by another that uses its value. -/
def Script.bind {α β : Type} : Script α → (α → Script β) → Script β
  | .done value, f => f value
  | .getItem key next, f => .getItem key (fun data => (next data).bind f)
  | .setItem key text next, f => .setItem key text (next.bind f)

instance : Monad Script where
  pure := Script.done
  bind := Script.bind

/-- A script that writes no item. -/
def Script.ReadOnly {α : Type} : Script α → Prop
  | .done _ => True
  | .getItem _ next => ∀ data, (next data).ReadOnly
  | .setItem _ _ _ => False

/-- Function `getFromStorage(key)` of storage.js: `data ? JSON.parse(data) : null`. -/
def Script.getFromStorage {α : Type} (parse : String → Option α) (key : String) :
    Script (Option α) :=
  .getItem key (fun data =>
    .done (if truthy data then parse (data.getD "") else none))

/-- Function `saveToStorage(key, data)` of storage.js, `text` being
`JSON.stringify(data)`. -/
def Script.saveToStorage (key text : String) : Script Bool :=
  .setItem key text (.done true)

/-- Function `getProducts()` of storage.js: `getFromStorage(STORAGE_KEYS.PRODUCTS) || []`. -/
def Script.getProducts (j : Json) : Script (List Product) := do
  let stored ← Script.getFromStorage j.parseProducts "inventory_products"
  return stored.getD []

/-- Function `getMovements()` of storage.js:
`getFromStorage(STORAGE_KEYS.MOVEMENTS) || []`. -/
def Script.getMovements (j : Json) : Script (List Movement) := do
  let stored ← Script.getFromStorage j.parseMovements "inventory_movements"
  return stored.getD []

/-- Function `saveMovements(movements)` of storage.js. -/
def Script.saveMovements (j : Json) (movements : List Movement) : Script Bool :=
  Script.saveToStorage "inventory_movements" (j.stringifyMovements movements)

/-- The arrays that a body has parsed, as the store on which the rest of the body is
computed; no aggregation function reads the current user. -/
def parsed (products : List Product) (movements : List Movement) : Store :=
  { products := products, movements := movements, currentUser := none }

/-- Function `getInventoryStats()` of storage.js: it calls `getProducts()`, then
`getMovements()`, and computes on the two arrays parsed. -/
def Script.getInventoryStats (j : Json) (cal : Calendar) (now : Int) :
    Script InventoryStats := do
  let products ← Script.getProducts j
  let movements ← Script.getMovements j
  return Inventarios.getInventoryStats cal now (parsed products movements)

/-- Function `getLowStockProducts()` of storage.js: it calls `getProducts()`; `filter`
makes a new array, which `sort` reorders. -/
def Script.getLowStockProducts (j : Json) : Script (List Product) := do
  let products ← Script.getProducts j
  return Inventarios.getLowStockProducts (parsed products [])

/-- Function `getTopMovedProducts(limit)` of storage.js: it calls `getMovements()`, then
`getProducts()`. -/
def Script.getTopMovedProducts (j : Json) (limit : Nat) : Script (List TopMoved) := do
  let movements ← Script.getMovements j
  let products ← Script.getProducts j
  return Inventarios.getTopMovedProducts (parsed products movements) limit

/-- Function `getUserActivity()` of movements.js: it calls `getMovements()`. -/
def Script.getUserActivity (j : Json) : Script (List UserActivity) := do
  let movements ← Script.getMovements j
  return Inventarios.getUserActivity (parsed [] movements)

/-- Function `getMovementsByDay(days)` of movements.js: it calls `getMovements()`. -/
def Script.getMovementsByDay (j : Json) (cal : Calendar) (now : Int) (days : Nat) :
    Script (List DayBucket) := do
  let movements ← Script.getMovements j
  return Inventarios.getMovementsByDay cal now (parsed [] movements) days

/-- Function `getProductStatistics(productId)` of products.js: `getProductById` calls
`getProducts()`, and, for a product found, `getMovementsByProduct` calls
`getMovements()`. -/
def Script.getProductStatistics (j : Json) (productId : String) :
    Script (Option ProductStatistics) := do
  let products ← Script.getProducts j
  match Inventarios.getProductById (parsed products []) (some productId) with
  | none => return none
  | some _ =>
    let movements ← Script.getMovements j
    return Inventarios.getProductStatistics (parsed products movements) productId

/-- Function `getRecentMovements(limit)` of movements.js: it calls `getMovements()` and
sorts, in place, the array this call has parsed. -/
def Script.getRecentMovements (j : Json) (limit : Nat) : Script (List Movement) := do
  let movements ← Script.getMovements j
  return Inventarios.getRecentMovements (parsed [] movements) limit

/-- Function `getFilteredMovements(filters)` of movements.js: it calls `getMovements()`
and sorts, in place, the array this call has parsed or one of its filtered copies. -/
def Script.getFilteredMovements (j : Json) (h : Host) (cal : Calendar)
    (filters : MovementFilters) : Script (List Movement) := do
  let movements ← Script.getMovements j
  return Inventarios.getFilteredMovements h cal (parsed [] movements) filters

/-- A call of one of the aggregation functions, with its arguments. -/
inductive Aggregation where
  | inventoryStats
  | lowStockProducts
  | topMovedProducts (limit : Nat)
  | userActivity
  | movementsByDay (days : Nat)
  | productStatistics (productId : String)
  | recentMovements (limit : Nat)
  | filteredMovements (filters : MovementFilters)

/-- The value returned by a call of an aggregation function. -/
inductive Aggregate where
  | stats (value : InventoryStats)
  | products (value : List Product)
  | ranking (value : List TopMoved)
  | activity (value : List UserActivity)
  | days (value : List DayBucket)
  | statistics (value : Option ProductStatistics)
  | movements (value : List Movement)

/-- The body of an aggregation function at the clock value `now`. -/
def Aggregation.script (j : Json) (h : Host) (cal : Calendar) (now : Int) :
    Aggregation → Script Aggregate
  | .inventoryStats => do return .stats (← Script.getInventoryStats j cal now)
  | .lowStockProducts => do return .products (← Script.getLowStockProducts j)
  | .topMovedProducts limit => do return .ranking (← Script.getTopMovedProducts j limit)
  | .userActivity => do return .activity (← Script.getUserActivity j)
  | .movementsByDay days => do return .days (← Script.getMovementsByDay j cal now days)
  | .productStatistics productId =>
    do return .statistics (← Script.getProductStatistics j productId)
  | .recentMovements limit => do return .movements (← Script.getRecentMovements j limit)
  | .filteredMovements filters =>
    do return .movements (← Script.getFilteredMovements j h cal filters)

/-- A call of an aggregation function on a storage: the value returned and the storage
left. -/
def Aggregation.call (j : Json) (h : Host) (cal : Calendar) (now : Int) (a : Aggregation)
    (ls : LocalStorage) : Aggregate × LocalStorage :=
  (a.script j h cal now).run ls

/-- The store that the functions of the sections above compute on: the two collections
as `getProducts()` and `getMovements()` parse them from the storage. -/
def LocalStorage.store (j : Json) (ls : LocalStorage) : Store :=
  parsed ((Script.getProducts j).run ls).1 ((Script.getMovements j).run ls).1

/-- The value of an aggregation function on a store, by the definitions of the sections
above. -/
def Aggregation.value (h : Host) (cal : Calendar) (now : Int) : Aggregation → Store → Aggregate
  | .inventoryStats, s => .stats (getInventoryStats cal now s)
  | .lowStockProducts, s => .products (getLowStockProducts s)
  | .topMovedProducts limit, s => .ranking (getTopMovedProducts s limit)
  | .userActivity, s => .activity (getUserActivity s)
  | .movementsByDay days, s => .days (getMovementsByDay cal now s days)
  | .productStatistics productId, s => .statistics (getProductStatistics s productId)
  | .recentMovements limit, s => .movements (getRecentMovements s limit)
  | .filteredMovements filters, s => .movements (getFilteredMovements h cal s filters)

/-! ## Auxiliary definitions used in the statements -/

/-- The signed change `stockChange` of a request of magnitude `q`. -/
def signedQuantity (movementData : MovementData) (q : ℚ) : ℚ :=
  if movementData.type == some ENTRADA then q else -q

/-- The object literal `registerMovement` hands to `addMovement` for product `product`,
magnitude `q` and session user `currentUser`. -/
def newMovementOf (movementData : MovementData) (product : Product) (q : ℚ)
    (currentUser : User) : NewMovement :=
  { productId := product.id
    productCode := product.code
    productName := product.name
    type := movementData.type.getD ""
    quantity := signedQuantity movementData q
    reason := movementData.reason.getD ""
    notes := orEmpty movementData.notes
    previousStock := product.stock
    newStock := product.stock + signedQuantity movementData q
    userId := currentUser.id
    userName := if truthy currentUser.fullName then currentUser.fullName.getD ""
                else currentUser.username }

/-- The record equations of the specification: `newStock = previousStock + quantity`
and `newStock ≥ 0`. -/
def Movement.Consistent (m : Movement) : Prop :=
  m.newStock = m.previousStock + m.quantity ∧ 0 ≤ m.newStock

/-- The outcomes, in order, of a sequence of `registerMovement` calls. -/
def registerTrace (h : Host) (s : Store) : List (Fresh × MovementData) → List Outcome
  | [] => []
  | (f, movementData) :: rest =>
    registerMovement h f s movementData ::
      registerTrace h (registerMovement h f s movementData).store rest

/-- The movement a call has appended: the one it returns with `success`, none when it
was rejected or raised. -/
def Outcome.appended (o : Outcome) : List Movement :=
  match o.result? with
  | some r => if r.success then r.movement.toList else []
  | none => []

/-! ## Double precision

The engine keeps every number as an IEEE 754 double. The comparisons, the negation and
`Math.abs` of the functions above are exact on doubles; a sum, a quotient and a product
are the double nearest to the exact result. The definitions of this section take that
rounding as the parameter `fl`; `roundDouble` is the rounding of the engine. -/

/-- The number `log2Floor n` for `n ≤ fuel`. -/
def log2Aux : Nat → Nat → Nat
  | 0, _ => 0
  | fuel + 1, n => if n < 2 then 0 else log2Aux fuel (n / 2) + 1

/-- The greatest `e` with `2 ^ e ≤ n`, for `n` above zero. -/
def log2Floor (n : Nat) : Nat :=
  log2Aux n n

/-- The numerator and the denominator of `(n / d) / 2 ^ k`. -/
def scaleBy (n d : Nat) (k : Int) : Nat × Nat :=
  if 0 ≤ k then (n, d * 2 ^ k.toNat) else (n * 2 ^ (-k).toNat, d)

/-- The exponent `e` with `2 ^ e ≤ n / d < 2 ^ (e + 1)`, for `n` and `d` above zero. -/
def binaryExponent (n d : Nat) : Int :=
  let e : Int := (log2Floor n : Int) - (log2Floor d : Int)
  if (scaleBy n d e).1 < (scaleBy n d e).2 then e - 1 else e

/-- The whole number nearest to `n / d`, the even one of two that are equally near. -/
def roundHalfEven (n d : Nat) : Nat :=
  let q := n / d
  let r := n % d
  if 2 * r < d then q else if d < 2 * r then q + 1 else if q % 2 = 0 then q else q + 1

/-- The exponent of the spacing of the doubles around `x`: 53 significant bits, and the
spacing `2 ^ (-1074)` of the subnormal numbers below `2 ^ (-1022)`. -/
def quantum (x : ℚ) : Int :=
  max (binaryExponent x.num.natAbs x.den) (-1022) - 52

/-- The double nearest to `x`, the one with the even significand of two that are equally
near (round to nearest, ties to even). A result beyond the largest double, for which the
engine keeps an infinity, is outside the number model. -/
def roundDouble (x : ℚ) : ℚ :=
  if x = 0 then 0
  else
    let k := quantum x
    let r := roundHalfEven (scaleBy x.num.natAbs x.den k).1 (scaleBy x.num.natAbs x.den k).2
    let magnitude : ℚ :=
      if 0 ≤ k then ((r * 2 ^ k.toNat : Nat) : ℚ) else (r : ℚ) / ((2 ^ (-k).toNat : Nat) : ℚ)
    if x < 0 then -magnitude else magnitude

/-- Function `updateProductStock(productId, quantity)` of storage.js, the sum
`product.stock + quantity` kept as the engine keeps it. -/
def IEEE.updateProductStock (fl : ℚ → ℚ) (now : Int) (s : Store) (productId : String)
    (quantity : ℚ) : Store × Option Product :=
  match getProductById s (some productId) with
  | none => (s, none)
  | some product =>
    updateProduct now s productId { stock := some (fl (product.stock + quantity)) }

/-- Function `registerMovement(movementData)` of movements.js, the sum
`previousStock + stockChange` kept as the engine keeps it. -/
def IEEE.registerMovement (fl : ℚ → ℚ) (h : Host) (f : Fresh) (s : Store)
    (movementData : MovementData) : Outcome :=
  -- Validar datos
  let validation := validateMovementData h s movementData
  if !validation.valid then
    .returned s { success := false, movement := none, message := joinErrors validation.errors }
      none
  else
    -- Obtener producto
    match getProductById s movementData.productId with
    | none =>
      .returned s { success := false, movement := none, message := "Producto no encontrado" }
        none
    | some product =>
      -- Calcular nuevo stock
      let quantity := storedNumber h movementData.quantity
      let stockChange := if movementData.type == some ENTRADA then quantity else -quantity
      let previousStock := product.stock
      let newStock := fl (previousStock + stockChange)
      -- Validar que no resulte en stock negativo
      if newStock < 0 then
        .returned s
          { success := false, movement := none,
            message := "La operación resultaría en stock negativo" } none
      else
        -- Obtener usuario actual
        match getCurrentUser s with
        | none => .threw s
        | some currentUser =>
          -- Crear movimiento
          let (s₁, movement) := addMovement f s
            { productId := product.id
              productCode := product.code
              productName := product.name
              type := movementData.type.getD ""
              quantity := stockChange
              reason := movementData.reason.getD ""
              notes := orEmpty movementData.notes
              previousStock := previousStock
              newStock := newStock
              userId := currentUser.id
              userName := if truthy currentUser.fullName then currentUser.fullName.getD ""
                          else currentUser.username }
          -- Actualizar stock del producto
          let (s₂, _) := IEEE.updateProductStock fl f.later s₁ product.id stockChange
          -- Verificar si quedó en stock bajo
          let toast :=
            if newStock ≤ product.minStock && movementData.type == some SALIDA then
              some
                { message := "Alerta: " ++ product.name ++ " ahora tiene stock bajo (" ++
                    h.numberToString newStock ++ " unidades)"
                  type := "warning" }
            else none
          .returned s₂
            { success := true
              movement := some movement
              message := (if movementData.type == some ENTRADA then "Entrada" else "Salida") ++
                " registrada exitosamente" }
            toast

/-- The store left by a sequence of `registerMovement` calls in the arithmetic of the
engine. -/
def IEEE.registerAll (fl : ℚ → ℚ) (h : Host) (s : Store) : List (Fresh × MovementData) → Store
  | [] => s
  | (f, movementData) :: rest =>
    IEEE.registerAll fl h (IEEE.registerMovement fl h f s movementData).store rest

/-- The outcomes, in order, of a sequence of `registerMovement` calls in the arithmetic of
the engine. -/
def IEEE.registerTrace (fl : ℚ → ℚ) (h : Host) (s : Store) :
    List (Fresh × MovementData) → List Outcome
  | [] => []
  | (f, movementData) :: rest =>
    IEEE.registerMovement fl h f s movementData ::
      IEEE.registerTrace fl h (IEEE.registerMovement fl h f s movementData).store rest

/-- Every sum `previousStock + stockChange` that a sequence of calls forms is a number the
engine keeps as it is. -/
def IEEE.Exact (fl : ℚ → ℚ) (h : Host) : Store → List (Fresh × MovementData) → Prop
  | _, [] => True
  | s, (f, movementData) :: rest =>
    (∀ p, getProductById s movementData.productId = some p →
      fl (p.stock + signedQuantity movementData (storedNumber h movementData.quantity)) =
        p.stock + signedQuantity movementData (storedNumber h movementData.quantity)) ∧
    IEEE.Exact fl h (IEEE.registerMovement fl h f s movementData).store rest

/-- The computed `percentage`, `(stock / minStock) * 100` with the quotient and the
product each kept as the engine keeps them, for `minStock` other than zero. -/
def IEEE.percentage (fl : ℚ → ℚ) (stock minStock : ℚ) : ℚ :=
  fl (fl (stock / minStock) * 100)

/-- Function `getStockStatus(stock, minStock)` of utils.js in the arithmetic of the
engine. For `minStock = 0` the quotient is an infinity of the sign of `stock`, or `NaN`
for `stock = 0`, so `percentage <= 150` holds for a stock below zero only. -/
def IEEE.getStockStatus (fl : ℚ → ℚ) (stock minStock : ℚ) : StockStatus :=
  let atMost150 : Bool :=
    if minStock = 0 then decide (stock < 0)
    else decide (IEEE.percentage fl stock minStock ≤ 150)
  if stock = 0 then
    { text := "Sin Stock", className := "danger", badge := "badge-stock-bajo" }
  else if stock ≤ minStock then
    { text := "Stock Bajo", className := "warning", badge := "badge-stock-bajo" }
  else if atMost150 then
    { text := "Stock Normal", className := "success", badge := "badge-stock-normal" }
  else
    { text := "Stock Alto", className := "info", badge := "badge-stock-alto" }

/-- The number written by decimal digits; `none` when a character is no digit. -/
def readDigits (digits : List Char) : Option Nat :=
  digits.foldl
    (fun value c =>
      match value with
      | some n => if c.isDigit then some (10 * n + (c.toNat - 48)) else none
      | none => none)
    (some 0)

/-- The value of a decimal literal: an optional sign, digits, and an optional point
followed by digits, at least one digit in all. -/
def readDecimal (text : List Char) : Option ℚ :=
  let negative := text.head? == some '-'
  let body := if text.head? == some '-' || text.head? == some '+' then text.drop 1 else text
  let whole := body.takeWhile (fun c => c != '.')
  let fraction := (body.dropWhile (fun c => c != '.')).drop 1
  if whole.isEmpty && fraction.isEmpty then none
  else
    match readDigits whole, readDigits fraction with
    | some w, some f =>
      let value : ℚ := (w : ℚ) + (f : ℚ) / ((10 ^ fraction.length : Nat) : ℚ)
      some (if negative then -value else value)
    | _, _ => none

/-- The conversion `Number(text)` on the decimal literals without exponent: the text is
trimmed, the empty text is 0, and a literal is the double nearest to its value. -/
def readNumber (text : String) : Option ℚ :=
  if (trim text).isEmpty then some 0 else (readDecimal (trim text)).map roundDouble

/-- The least `n` from the given one on with `a / b < 10 ^ n`, within `fuel` steps. -/
def decimalExponentUp : Nat → Nat → Nat → Nat → Nat
  | 0, _, _, n => n
  | fuel + 1, a, b, n => if a < b * 10 ^ n then n else decimalExponentUp fuel a b (n + 1)

/-- The least `m` from the given one on with `10 ^ (-m - 1) ≤ a / b`, within `fuel`
steps. -/
def decimalExponentDown : Nat → Nat → Nat → Nat → Nat
  | 0, _, _, m => m
  | fuel + 1, a, b, m => if b ≤ a * 10 ^ (m + 1) then m else decimalExponentDown fuel a b (m + 1)

/-- The exponent `n` with `10 ^ (n - 1) ≤ a / b < 10 ^ n`, for `a` and `b` above zero. -/
def decimalExponent (a b : Nat) : Int :=
  if b ≤ a then (decimalExponentUp 400 a b 1 : Int)
  else -(decimalExponentDown 400 a b 0 : Int)

/-- The numerator and the denominator of `(a / b) * 10 ^ e`. -/
def scaleByTen (a b : Nat) (e : Int) : Nat × Nat :=
  if 0 ≤ e then (a * 10 ^ e.toNat, b) else (a, b * 10 ^ (-e).toNat)

/-- The number `s * 10 ^ e`. -/
def timesTen (s : Nat) (e : Int) : ℚ :=
  if 0 ≤ e then ((s * 10 ^ e.toNat : Nat) : ℚ) else (s : ℚ) / ((10 ^ (-e).toNat : Nat) : ℚ)

/-- The `k` digits `s` for which `s * 10 ^ (n - k)` is read back as the double of `a / b`:
of the two whole numbers around `(a / b) * 10 ^ (k - n)` the one that is read back, the
nearer one if both are, the even one if both are equally near. -/
def digitsOfLength (a b : Nat) (n : Int) (k : Nat) : Option Nat :=
  let target := roundDouble ((a : ℚ) / (b : ℚ))
  let scaled := scaleByTen a b ((k : Int) - n)
  let lo := scaled.1 / scaled.2
  let hi := lo + 1
  let r := scaled.1 % scaled.2
  let okLo := decide (roundDouble (timesTen lo (n - (k : Int))) = target) && decide (0 < lo)
  let okHi := decide (roundDouble (timesTen hi (n - (k : Int))) = target)
  if okLo && okHi then
    if 2 * r < scaled.2 then some lo
    else if scaled.2 < 2 * r then some hi
    else if lo % 2 = 0 then some lo else some hi
  else if okLo then some lo
  else if okHi then some hi
  else none

/-- The least number of digits, from `k` on and at most `k + fuel`, with which the double
of `a / b` is read back, and these digits. -/
def shortestDigits : Nat → Nat → Nat → Int → Nat → Nat × Nat
  | 0, a, b, n, k => (k, (scaleByTen a b ((k : Int) - n)).1 / (scaleByTen a b ((k : Int) - n)).2)
  | fuel + 1, a, b, n, k =>
    match digitsOfLength a b n k with
    | some s => (k, s)
    | none => shortestDigits fuel a b n (k + 1)

/-- The text of `Number::toString` for digits `s` of length `k` and exponent `n`. -/
def layout (s k : Nat) (n : Int) : String :=
  let digits := (toString s).data
  if (k : Int) ≤ n && n ≤ 21 then
    String.mk (digits ++ List.replicate (n - (k : Int)).toNat '0')
  else if 0 < n && n ≤ 21 then
    String.mk (digits.take n.toNat ++ ['.'] ++ digits.drop n.toNat)
  else if -6 < n && n ≤ 0 then
    String.mk (['0', '.'] ++ List.replicate (-n).toNat '0' ++ digits)
  else
    let exponent := (if 0 ≤ n - 1 then "+" else "-") ++ toString (n - 1).natAbs
    if k = 1 then String.mk digits ++ "e" ++ exponent
    else String.mk (digits.take 1 ++ ['.'] ++ digits.drop 1) ++ "e" ++ exponent

/-- The conversion of a number to text in a template literal (`Number::toString`): the
shortest decimal that is read back as the same double. -/
def printNumber (x : ℚ) : String :=
  if x = 0 then "0"
  else
    let a := x.num.natAbs
    let b := x.den
    let n := decimalExponent a b
    let (k, s) := shortestDigits 17 a b n 1
    -- a carry into a further digit
    let (s, n) := if s = 10 ^ k then (10 ^ (k - 1), n + 1) else (s, n)
    (if x < 0 then "-" else "") ++ layout s k n

/-- A host for concrete evaluations. `Number` reads the decimal literals without
exponent; the notations with an exponent or in base 16, 8 or 2 and `Infinity`, which the
engine reads as numbers, are `NaN` here. A number is printed as the shortest decimal that
is read back as the same double. Lower case is that of the letters `A` to `Z`, and the
decomposition leaves the text as it is. -/
def decimalHost : Host where
  stringToNumber := readNumber
  numberToString := printNumber
  toLowerCase := fun t => String.mk (t.data.map Char.toLower)
  normalizeNFD := fun t => t

/-! ## The stores that the operations write -/

/-- What holds of every store written by the operations: no stock is below zero; the
product ids are generated ids, that is, non-empty texts that name no inherited property,
and pairwise distinct; every movement has one of the two types and carries the id of a
product and of a user. -/
structure Store.Sound (s : Store) : Prop where
  stocks : ∀ p ∈ s.products, 0 ≤ p.stock
  ids : ∀ p ∈ s.products, p.id ≠ "" ∧ isInherited p.id = false
  distinct : (s.products.map (fun p => p.id)).Nodup
  types : ∀ m ∈ s.movements, m.type = ENTRADA ∨ m.type = SALIDA
  productIds : ∀ m ∈ s.movements, isInherited m.productId = false
  userIds : ∀ m ∈ s.movements, isInherited m.userId = false
  user : ∀ u, s.currentUser = some u → isInherited u.id = false

/-- The stores that the application reaches. It starts from the store seeded by
`initializeStorage`: example products with generated ids and stocks of 15, 50, 8, 100 and
3, and no movement. A session starts for a stored user, whose id is `1` or `2`, or ends.
A product is created under an id that `generateId()` returns: non-empty, naming no
inherited property, and carried by no stored product. Products are edited and removed,
and movements registered. -/
inductive Reachable (h : Host) : Store → Prop
  | seeded (s : Store) : s.Sound → s.movements = [] → Reachable h s
  | session (s : Store) (user : Option User) :
      Reachable h s → (∀ u, user = some u → isInherited u.id = false) →
      Reachable h { s with currentUser := user }
  | create (s : Store) (f : Fresh) (productData : ProductData) :
      Reachable h s → f.id ≠ "" → isInherited f.id = false →
      (∀ p ∈ s.products, p.id ≠ f.id) → Reachable h (createProduct h f s productData).1
  | edit (s : Store) (f : Fresh) (id : String) (productData : ProductData) :
      Reachable h s → Reachable h (editProduct h f s id productData).1
  | remove (s : Store) (id : String) : Reachable h s → Reachable h (removeProduct s id).1
  | register (s : Store) (f : Fresh) (movementData : MovementData) :
      Reachable h s → Reachable h (registerMovement h f s movementData).store

/-! ## Concrete data for the scenarios -/

/-- A product with stock 5 and minimum stock 10. -/
def widget : Product :=
  { id := "p1", code := "PROD-010", name := "Widget", description := "", category := "Otros",
    price := 1000, stock := 5, minStock := 10, createdAt := 0, updatedAt := 0 }

/-- The seeded administrator. -/
def admin : User :=
  { id := "1", username := "admin", fullName := some "Administrador del Sistema",
    role := "admin" }

/-- A store holding the widget, no movement, and the administrator logged in. -/
def shop : Store :=
  { products := [widget], movements := [], currentUser := some admin }

/-- Fresh values for one call. -/
def tick : Fresh := { id := "m1", now := 100, later := 101 }

/-- Fresh values for a following call. -/
def tock : Fresh := { id := "m2", now := 200, later := 201 }

/-- An entry of 20 units of the widget. -/
def entry20 : MovementData :=
  { productId := some "p1", type := some "entrada", quantity := .num 20,
    reason := some "Compra", notes := none }

/-- An exit of 10 units of the widget. -/
def exit10 : MovementData :=
  { productId := some "p1", type := some "salida", quantity := .num 10,
    reason := some "Venta", notes := none }

/-- An exit of 3 units of the widget. -/
def exit3 : MovementData :=
  { productId := some "p1", type := some "salida", quantity := .num 3,
    reason := some "Venta", notes := none }

/-- The product data of scenario A, as the form submits it. -/
def gadgetData : ProductData :=
  { code := some "PROD-020", name := some "Gadget", description := none,
    category := some "Otros", price := .str "1000", stock := .str "5", minStock := .str "5" }

/-- The widget booked with a negative stock of -10. -/
def overdrawn : Product := { widget with stock := -10 }

/-- A store whose only product has a negative stock. -/
def overdrawnShop : Store :=
  { products := [overdrawn], movements := [], currentUser := some admin }

/-- An entry of 5 units of the widget. -/
def entry5 : MovementData :=
  { productId := some "p1", type := some "entrada", quantity := .num 5,
    reason := some "Compra", notes := none }

/-- The widget stored under the empty id. -/
def anonymous : Product := { widget with id := "" }

/-- A store whose only product has the empty id. -/
def anonymousShop : Store :=
  { products := [anonymous], movements := [], currentUser := some admin }

/-- An entry of 5 units of the product with the empty id. -/
def entryAnonymous : MovementData :=
  { productId := some "", type := some "entrada", quantity := .num 5,
    reason := some "Compra", notes := none }

/-- The result returned for the entry of 20 units on the scenario store. -/
def entry20Result : MovementResult :=
  { success := true
    movement := some
      { id := "m1", productId := "p1", productCode := "PROD-010", productName := "Widget",
        type := "entrada", quantity := 20, reason := "Compra", notes := "",
        previousStock := 5, newStock := 25, userId := "1",
        userName := "Administrador del Sistema", createdAt := 100 }
    message := "Entrada registrada exitosamente" }

/-- The object literal `editProduct` hands to `updateProduct`. -/
def editPatch (h : Host) (productData : ProductData) : ProductPatch :=
  { code := some (productData.code.getD "")
    name := some (productData.name.getD "")
    description := some (orEmpty productData.description)
    category := some (productData.category.getD "")
    price := some (storedNumber h productData.price)
    minStock := some (storedNumber h productData.minStock) }

/-- New data for the widget: another name and price, a stock of 999 that must be ignored. -/
def widgetEdit : ProductData :=
  { code := some "PROD-010", name := some "Widget XL", description := some "Grande",
    category := some "Otros", price := .str "1500", stock := .num 999, minStock := .num 8 }

/-- A movement recorded for the widget. -/
def widgetMovement : Movement :=
  { id := "m0", productId := "p1", productCode := "PROD-010", productName := "Widget",
    type := "entrada", quantity := 5, reason := "Stock inicial", notes := "",
    previousStock := 0, newStock := 5, userId := "1",
    userName := "Administrador del Sistema", createdAt := 50 }

/-- The scenario store with one movement referring to the widget. -/
def shopWithHistory : Store :=
  { products := [widget], movements := [widgetMovement], currentUser := some admin }

/-- A text is blank when it is absent or nothing is left of it after trimming. -/
def isBlank (a : Option String) : Bool :=
  match a with
  | none => true
  | some t => (trim t).isEmpty

/-- A value is a number satisfying `c` when `Number` of it is not `NaN` and satisfies `c`. -/
def numberHolds (h : Host) (v : JSVal) (c : ℚ → Bool) : Bool :=
  match jsNumber h v with
  | some q => c q
  | none => false

/-- The six conditions of the specification on product data, each as the pair of
"violated" and the message shown for it, in the order code, name, category, price, stock,
minimum stock. -/
def productViolations (h : Host) (productData : ProductData) : List (Bool × String) :=
  [ (isBlank productData.code, "El código es requerido"),
    (isBlank productData.name, "El nombre es requerido"),
    (isBlank productData.category, "La categoría es requerida"),
    (!numberHolds h productData.price (fun q => decide (q > 0)),
      "El precio debe ser un número positivo"),
    (!numberHolds h productData.stock (fun q => decide (q ≥ 0)),
      "El stock debe ser un número mayor o igual a cero"),
    (!numberHolds h productData.minStock (fun q => decide (q > 0)),
      "El stock mínimo debe ser un número positivo") ]

/-- Product data with a blank code, a price of zero and no minimum stock. -/
def faultyData : ProductData :=
  { code := some "  ", name := some "Gadget", description := none, category := some "Otros",
    price := .num 0, stock := .num 5, minStock := .undefined }

/-- The conditions of the specification on a movement request, each as the pair of
"violated" and the message shown for it, in the order of the checks: a product id is
given, a product of that id exists, the type is one of the two kinds, the quantity is a
number above zero, the reason is non-blank, and an exit does not exceed the stock. -/
def movementViolations (h : Host) (s : Store) (movementData : MovementData) :
    List (Bool × String) :=
  [ (!truthy movementData.productId, "Debe seleccionar un producto"),
    (truthy movementData.productId && (getProductById s movementData.productId).isNone,
      "El producto seleccionado no existe"),
    (!(movementData.type == some ENTRADA || movementData.type == some SALIDA),
      "Tipo de movimiento inválido"),
    (!numberHolds h movementData.quantity (fun q => decide (q > 0)),
      "La cantidad debe ser un número positivo"),
    (isBlank movementData.reason, "Debe especificar una razón"),
    (match getProductById s movementData.productId with
      | some product =>
        (movementData.type == some SALIDA &&
          numberHolds h movementData.quantity (fun q => decide (q > product.stock)),
         insufficientStock h product.stock)
      | none => (false, "")) ]

/-- A request to enter -10 units of the widget. -/
def entryMinus10 : MovementData :=
  { productId := some "p1", type := some "entrada", quantity := .num (-10),
    reason := some "Compra", notes := none }

/-- A request of 1 unit of the widget under a type that is not a movement type. -/
def adjust1 : MovementData :=
  { productId := some "p1", type := some "ajuste", quantity := .num 1,
    reason := some "Ajuste de inventario", notes := none }

/-- The scenario store after logout: no current user. -/
def loggedOutShop : Store :=
  { products := [widget], movements := [], currentUser := none }

/-- The stock level a status text stands for: `bajo` for `Sin Stock` and `Stock Bajo`,
`normal` for `Stock Normal`, `alto` for `Stock Alto`. -/
def stockLevelOf (text : String) : Option String :=
  if text = "Sin Stock" ∨ text = "Stock Bajo" then some "bajo"
  else if text = "Stock Normal" then some "normal"
  else if text = "Stock Alto" then some "alto"
  else none

/-- A product with stock 12 and minimum stock 10. -/
def gizmo : Product :=
  { id := "p2", code := "PROD-011", name := "Gizmo", description := "", category := "Otros",
    price := 500, stock := 12, minStock := 10, createdAt := 0, updatedAt := 0 }

/-- A product with stock 25 and minimum stock 10. -/
def doohickey : Product :=
  { id := "p3", code := "PROD-012", name := "Doohickey", description := "",
    category := "Otros", price := 200, stock := 25, minStock := 10, createdAt := 0,
    updatedAt := 0 }

/-- A store with one product at each stock level. -/
def warehouse : Store :=
  { products := [widget, gizmo, doohickey], movements := [], currentUser := some admin }

/-- The test that a movement was created within local day `day`, from its start to the
start of the next local day, the latter excluded. -/
def createdOn (cal : Calendar) (day : Int) (m : Movement) : Bool :=
  decide (cal.startOfDay day ≤ m.createdAt) && decide (m.createdAt < cal.startOfDay (day + 1))

/-- The calendar of a zone without offset: days of 86400000 milliseconds counted from
the epoch, printed and read by their number. -/
def utc : Calendar :=
  { dayOf := fun t => t / 86400000
    startOfDay := fun d => d * 86400000
    formatDate := fun t => toString (t / 86400000)
    parse := fun text => text.toNat?.map (fun d => (d : Int) * 86400000)
    endOfDay := fun t => t / 86400000 * 86400000 + 86399999 }

/-- Noon of day 10. -/
def noonOfDay10 : Int := 10 * 86400000 + 43200000

/-- A store whose only movement was created five days before `noonOfDay10`. -/
def staleShop : Store :=
  { products := [widget]
    movements := [{ widgetMovement with createdAt := 5 * 86400000 + 43200000 }]
    currentUser := some admin }

/-- The test `Number.isInteger(q)` on an exact number. -/
def isInteger (q : ℚ) : Bool :=
  q.den == 1

/-- Product data with a stock of two and a half. -/
def halfData : ProductData :=
  { code := some "PROD-030", name := some "Cable por metro", description := none,
    category := some "Otros", price := .num 1000, stock := .num (5 / 2), minStock := .num 1 }

/-- An entry of two and a half units of the widget. -/
def entryHalf : MovementData :=
  { productId := some "p1", type := some "entrada", quantity := .num (5 / 2),
    reason := some "Compra", notes := none }

/-- The movement written for the exit of 3 units on the scenario store. -/
def exit3Movement : Movement :=
  { id := "m1", productId := "p1", productCode := "PROD-010", productName := "Widget",
    type := "salida", quantity := -3, reason := "Venta", notes := "",
    previousStock := 5, newStock := 2, userId := "1",
    userName := "Administrador del Sistema", createdAt := 100 }

/-- The result returned for the exit of 3 units on the scenario store. -/
def exit3Result : MovementResult :=
  { success := true, movement := some exit3Movement,
    message := "Salida registrada exitosamente" }

/-- The test that a movement matches every supplied filter among type, product and user;
a filter is supplied when it is a non-empty text. -/
def matchesFilters (filters : MovementFilters) (m : Movement) : Bool :=
  (!truthy filters.type || some m.type == filters.type) &&
  (!truthy filters.productId || some m.productId == filters.productId) &&
  (!truthy filters.userId || some m.userId == filters.userId)

/-- A second movement of the widget, an exit made later by the employee. -/
def laterMovement : Movement :=
  { id := "m9", productId := "p1", productCode := "PROD-010", productName := "Widget",
    type := "salida", quantity := -2, reason := "Venta", notes := "",
    previousStock := 5, newStock := 3, userId := "2", userName := "Usuario Empleado",
    createdAt := 10 * 86400000 + 3600000 }

/-- A store with three products and two movements of the widget, the older one first. -/
def busyShop : Store :=
  { products := [widget, gizmo, doohickey], movements := [widgetMovement, laterMovement],
    currentUser := some admin }

/-- The value `obj[key]` of an object given by its properties in creation order; `none`
is `undefined`. -/
def objectGet {β : Type} (obj : List (String × β)) (key : String) : Option β :=
  match obj with
  | [] => none
  | (k, v) :: rest => if k = key then some v else objectGet rest key

/-- The sum of `|quantity|` over the stored movements of a product id. -/
def movedTotal (s : Store) (productId : String) : ℚ :=
  ((s.movements.filter (fun m => m.productId == productId)).map (fun m => |m.quantity|)).sum

/-- The test that some stored movement refers to the product. -/
def hasMovements (s : Store) (p : Product) : Bool :=
  s.movements.any (fun m => m.productId == p.id)

/-- A movement of 1 unit of the gizmo. -/
def gizmoMovement : Movement :=
  { id := "m5", productId := "p2", productCode := "PROD-011", productName := "Gizmo",
    type := "entrada", quantity := 1, reason := "Compra", notes := "",
    previousStock := 11, newStock := 12, userId := "1",
    userName := "Administrador del Sistema", createdAt := 60 }

/-- The store with three products, the widget having moved 7 units, the gizmo 1 and a
removed product 4. -/
def rankedShop : Store :=
  { products := [widget, gizmo, doohickey]
    movements :=
      [gizmoMovement, widgetMovement, laterMovement,
       { widgetMovement with id := "m7", productId := "gone", quantity := -4 }]
    currentUser := some admin }

/-- A widget of which `2 ^ 53` units are in stock. -/
def bigWidget : Product := { widget with stock := 9007199254740992 }

/-- The store holding the widget with `2 ^ 53` units. -/
def bigShop : Store :=
  { products := [bigWidget], movements := [], currentUser := some admin }

/-- An entry of one unit of the widget. -/
def entry1 : MovementData :=
  { productId := some "p1", type := some "entrada", quantity := .num 1,
    reason := some "Compra", notes := none }

/-- The double `0.1`. -/
def tenth : ℚ := 3602879701896397 / 36028797018963968

/-- The double `0.2`. -/
def fifth : ℚ := 3602879701896397 / 18014398509481984

/-- The double `0.3`. -/
def threeTenths : ℚ := 5404319552844595 / 18014398509481984

/-- The store holding the widget with a stock of `0.1`. -/
def tenthShop : Store :=
  { products := [{ widget with stock := tenth }], movements := [], currentUser := some admin }

/-- An entry of `0.2` units of the widget. -/
def entryFifth : MovementData :=
  { productId := some "p1", type := some "entrada", quantity := .num fifth,
    reason := some "Compra", notes := none }

/-- An entry of `0.3` units of the widget. -/
def entryThreeTenths : MovementData :=
  { productId := some "p1", type := some "entrada", quantity := .num threeTenths,
    reason := some "Compra", notes := none }

/-! ## Lemmas on the storage accessors -/

theorem getProductById_some_id {s : Store} {id : Option String} {p : Product}
    (hp : getProductById s id = some p) : id = some p.id := by
  have := List.find?_some hp
  simp only [beq_iff_eq] at this
  exact this.symm

theorem getProductById_mem {s : Store} {id : Option String} {p : Product}
    (hp : getProductById s id = some p) : p ∈ s.products :=
  List.mem_of_find?_eq_some hp

theorem getProductById_split {s : Store} {id : Option String} {p : Product}
    (hp : getProductById s id = some p) :
    ∃ front back, s.products = front ++ p :: back ∧ ∀ a ∈ front, a.id ≠ p.id := by
  have hid := getProductById_some_id hp
  obtain ⟨-, front, back, hsplit, hfront⟩ := List.find?_eq_some.mp hp
  refine ⟨front, back, hsplit, ?_⟩
  intro a ha
  have := hfront a ha
  simpa [hid] using this

theorem find_split {front back : List Product} {p : Product}
    (hfront : ∀ a ∈ front, a.id ≠ p.id) :
    (front ++ p :: back).find? (fun x => some x.id == some p.id) = some p := by
  rw [List.find?_append]
  have : front.find? (fun x => some x.id == some p.id) = none := by
    simp only [List.find?_eq_none]
    intro a ha
    simpa using hfront a ha
  rw [this]
  simp

theorem findIdx_split {front back : List Product} {p : Product}
    (hfront : ∀ a ∈ front, a.id ≠ p.id) :
    (front ++ p :: back).findIdx? (fun x => x.id == p.id) = some front.length := by
  rw [List.findIdx?_append]
  have : front.findIdx? (fun x => x.id == p.id) = none := by
    simp only [List.findIdx?_eq_none_iff]
    intro a ha
    simpa using hfront a ha
  simp [this]

theorem updateProduct_split (now : Int) (s : Store) (updatedData : ProductPatch)
    {front back : List Product} {p : Product}
    (hsplit : s.products = front ++ p :: back) (hfront : ∀ a ∈ front, a.id ≠ p.id) :
    updateProduct now s p.id updatedData =
      ({ s with products := front ++ updatedData.apply p now :: back },
        some (updatedData.apply p now)) := by
  unfold updateProduct
  have hget : (front ++ p :: back)[front.length]? = some p := by
    rw [List.getElem?_append_right (Nat.le_refl _)]
    simp
  rw [hsplit, findIdx_split hfront]
  simp only [hget, List.set_append_right _ _ (Nat.le_refl _), Nat.sub_self, List.set_cons_zero]

theorem updateProduct_none (now : Int) (s : Store) (id : String) (updatedData : ProductPatch)
    (hnone : getProductById s (some id) = none) :
    updateProduct now s id updatedData = (s, none) := by
  unfold updateProduct
  have : s.products.findIdx? (fun p => p.id == id) = none := by
    simp only [List.findIdx?_eq_none_iff]
    intro a ha
    have := (List.find?_eq_none.mp hnone) a ha
    simpa using this
  simp [this]

/-! ## Lemmas on validation -/

theorem isPositiveNumber_iff (h : Host) (value : JSVal) :
    isPositiveNumber h value = true ↔ ∃ q, jsNumber h value = some q ∧ 0 < q := by
  unfold isPositiveNumber isNaN numberGt
  cases hq : jsNumber h value <;> simp

theorem storedNumber_of_jsNumber {h : Host} {value : JSVal} {q : ℚ}
    (hq : jsNumber h value = some q) : storedNumber h value = q := by
  simp [storedNumber, hq]

theorem numberGt_iff (h : Host) (value : JSVal) (bound : ℚ) :
    numberGt h value bound = true ↔ ∃ q, jsNumber h value = some q ∧ bound < q := by
  unfold numberGt
  cases hq : jsNumber h value <;> simp

theorem valid_iff_errors (h : Host) (s : Store) (md : MovementData) :
    (validateMovementData h s md).valid = true ↔ (validateMovementData h s md).errors = [] := by
  simp [validateMovementData]

/-- What a valid movement request satisfies. -/
theorem validateMovementData_valid {h : Host} {s : Store} {md : MovementData}
    (hv : (validateMovementData h s md).valid = true) :
    truthy md.productId = true ∧
    (∃ p, getProductById s md.productId = some p) ∧
    (md.type = some ENTRADA ∨ md.type = some SALIDA) ∧
    (∃ q, jsNumber h md.quantity = some q ∧ 0 < q) ∧
    isEmpty md.reason = false ∧
    (md.type = some SALIDA → ∀ p, getProductById s md.productId = some p →
      numberGt h md.quantity p.stock = false) := by
  rw [valid_iff_errors] at hv
  simp only [validateMovementData, List.nil_append, List.append_eq_nil] at hv
  obtain ⟨⟨⟨⟨h1, h2⟩, h3⟩, h4⟩, h5⟩ := hv
  refine ⟨?_, ?_, ?_, ?_, ?_, ?_⟩
  · by_contra hc
    simp [hc] at h1
  · cases hp : getProductById s md.productId with
    | none =>
      by_cases ht : truthy md.productId = true <;> simp [ht, hp] at h1
    | some p => exact ⟨p, rfl⟩
  · cases ht : md.type with
    | none => simp [ht, truthy] at h2
    | some t =>
      by_cases hc : t = ENTRADA ∨ t = SALIDA
      · rcases hc with rfl | rfl <;> simp
      · simp [ht, truthy, MOVEMENT_TYPES] at h2
        push_neg at hc
        exact absurd (h2.2) (by simp [hc.1, hc.2])
  · rw [← isPositiveNumber_iff]
    by_contra hc
    simp [hc] at h3
  · by_contra hc
    simp [hc] at h4
  · intro ht p hp
    by_contra hc
    simp [ht, hp, hc] at h5

/-! ## The two ways a registration ends -/

theorem registerMovement_invalid {h : Host} {f : Fresh} {s : Store} {md : MovementData}
    (hv : (validateMovementData h s md).valid = false) :
    registerMovement h f s md =
      .returned s { success := false, movement := none,
                    message := joinErrors (validateMovementData h s md).errors } none := by
  unfold registerMovement
  simp only [hv, Bool.not_false, if_true]

theorem registerMovement_valid {h : Host} {f : Fresh} {s : Store} {md : MovementData}
    {p : Product} {q : ℚ}
    (hv : (validateMovementData h s md).valid = true)
    (hp : getProductById s md.productId = some p)
    (hq : jsNumber h md.quantity = some q) :
    registerMovement h f s md =
      if p.stock + signedQuantity md q < 0 then
        .returned s
          { success := false, movement := none,
            message := "La operación resultaría en stock negativo" } none
      else
        match s.currentUser with
        | none => .threw s
        | some currentUser =>
          .returned
            (updateProductStock f.later
              (addMovement f s (newMovementOf md p q currentUser)).1 p.id (signedQuantity md q)).1
            { success := true
              movement := some (addMovement f s (newMovementOf md p q currentUser)).2
              message := (if md.type == some ENTRADA then "Entrada" else "Salida") ++
                " registrada exitosamente" }
            (if p.stock + signedQuantity md q ≤ p.minStock && md.type == some SALIDA then
              some
                { message := "Alerta: " ++ p.name ++ " ahora tiene stock bajo (" ++
                    h.numberToString (p.stock + signedQuantity md q) ++ " unidades)"
                  type := "warning" }
            else none) := by
  unfold registerMovement
  simp only [hv, hp, storedNumber_of_jsNumber hq, Bool.not_true, Bool.false_eq_true, if_false,
    getCurrentUser, signedQuantity, newMovementOf]

theorem updateProductStock_split (now : Int) (s : Store) (c : ℚ)
    {front back : List Product} {p : Product}
    (hsplit : s.products = front ++ p :: back) (hfront : ∀ a ∈ front, a.id ≠ p.id) :
    updateProductStock now s p.id c =
      ({ s with products := front ++ { p with stock := p.stock + c, updatedAt := now } :: back },
        some { p with stock := p.stock + c, updatedAt := now }) := by
  have hfind : getProductById s (some p.id) = some p := by
    unfold getProductById
    rw [hsplit]
    exact find_split hfront
  unfold updateProductStock
  simp only [hfind]
  rw [updateProduct_split now s _ hsplit hfront]
  simp [ProductPatch.apply]

/-- A call of `registerMovement` either leaves the store as it was without reporting
success, or it returns success having appended one movement and replaced the stock of
the first product carrying the requested id. -/
theorem registerMovement_cases (h : Host) (f : Fresh) (s : Store) (md : MovementData) :
    ((registerMovement h f s md).store = s ∧
      ∀ r, (registerMovement h f s md).result? = some r → r.success = false ∧ r.movement = none) ∨
    ∃ p front back u q,
      (validateMovementData h s md).valid = true ∧
      getProductById s md.productId = some p ∧
      s.products = front ++ p :: back ∧ (∀ a ∈ front, a.id ≠ p.id) ∧
      jsNumber h md.quantity = some q ∧ 0 < q ∧
      s.currentUser = some u ∧
      0 ≤ p.stock + signedQuantity md q ∧
      (registerMovement h f s md).store =
        { products :=
            front ++ { p with stock := p.stock + signedQuantity md q, updatedAt := f.later } :: back
          movements := s.movements ++ [(addMovement f s (newMovementOf md p q u)).2]
          currentUser := s.currentUser } ∧
      (registerMovement h f s md).result? = some
        { success := true
          movement := some (addMovement f s (newMovementOf md p q u)).2
          message := (if md.type == some ENTRADA then "Entrada" else "Salida") ++
            " registrada exitosamente" } := by
  by_cases hv : (validateMovementData h s md).valid = true
  swap
  · left
    rw [registerMovement_invalid (by simpa using hv)]
    simp [Outcome.store, Outcome.result?]
  obtain ⟨-, ⟨p, hp⟩, -, ⟨q, hq, hqpos⟩, -, -⟩ := validateMovementData_valid hv
  rw [registerMovement_valid hv hp hq]
  by_cases hneg : p.stock + signedQuantity md q < 0
  · left
    simp [hneg, Outcome.store, Outcome.result?]
  cases hu : s.currentUser with
  | none =>
    left
    simp [hneg, Outcome.store, Outcome.result?]
  | some u =>
    right
    obtain ⟨front, back, hsplit, hfront⟩ := getProductById_split hp
    have hs1 : (addMovement f s (newMovementOf md p q u)).1.products = front ++ p :: back := by
      simp [addMovement, hsplit]
    refine ⟨p, front, back, u, q, hv, hp, hsplit, hfront, hq, hqpos, rfl,
      not_lt.mp hneg, ?_, ?_⟩
    · simp only [hneg, if_false, Outcome.store]
      rw [updateProductStock_split f.later _ _ hs1 hfront]
      simp [addMovement, hu]
    · simp [hneg, Outcome.result?]

/-! ## Lemmas on the product registry -/

/-- What valid product data satisfies. -/
theorem validateProductData_valid {h : Host} {pd : ProductData}
    (hv : (validateProductData h pd).valid = true) :
    isEmpty pd.code = false ∧ isEmpty pd.name = false ∧ isEmpty pd.category = false ∧
    (∃ q, jsNumber h pd.price = some q ∧ 0 < q) ∧
    (∃ q, jsNumber h pd.stock = some q ∧ 0 ≤ q) ∧
    (∃ q, jsNumber h pd.minStock = some q ∧ 0 < q) := by
  simp only [validateProductData, List.nil_append, List.length_eq_zero, beq_iff_eq,
    List.append_eq_nil, decide_eq_true_eq] at hv
  obtain ⟨⟨⟨⟨⟨h1, h2⟩, h3⟩, h4⟩, h5⟩, h6⟩ := hv
  refine ⟨?_, ?_, ?_, ?_, ?_, ?_⟩
  · by_contra hc
    simp [hc] at h1
  · by_contra hc
    simp [hc] at h2
  · by_contra hc
    simp [hc] at h3
  · rw [← isPositiveNumber_iff]
    by_contra hc
    simp [hc] at h4
  · cases hq : jsNumber h pd.stock with
    | none => simp [isNaN, hq] at h5
    | some q =>
      refine ⟨q, rfl, ?_⟩
      by_contra hc
      simp [isNaN, numberLt, hq, not_le.mp hc] at h5
  · rw [← isPositiveNumber_iff]
    by_contra hc
    simp [hc] at h6

theorem isEmpty_false_some {a : Option String} (ha : isEmpty a = false) :
    some (a.getD "") = a := by
  cases a with
  | none => simp [isEmpty] at ha
  | some t => rfl

theorem createProduct_invalid {h : Host} {f : Fresh} {s : Store} {pd : ProductData}
    (hv : (validateProductData h pd).valid = false) :
    createProduct h f s pd =
      (s, { success := false, product := none,
            message := joinErrors (validateProductData h pd).errors }) := by
  unfold createProduct
  simp only [hv, Bool.not_false, if_true]

theorem createProduct_duplicate {h : Host} {f : Fresh} {s : Store} {pd : ProductData}
    (hv : (validateProductData h pd).valid = true)
    (hdup : productCodeExists s pd.code none = true) :
    createProduct h f s pd =
      (s, { success := false, product := none,
            message := "Ya existe un producto con ese código" }) := by
  unfold createProduct
  simp only [hv, hdup, Bool.not_true, Bool.false_eq_true, if_false, if_true]

theorem createProduct_fresh {h : Host} {f : Fresh} {s : Store} {pd : ProductData}
    (hv : (validateProductData h pd).valid = true)
    (hdup : productCodeExists s pd.code none = false) :
    createProduct h f s pd =
      ({ s with products := s.products ++
          [{ id := f.id, code := pd.code.getD "", name := pd.name.getD "",
             description := orEmpty pd.description, category := pd.category.getD "",
             price := storedNumber h pd.price, stock := storedNumber h pd.stock,
             minStock := storedNumber h pd.minStock, createdAt := f.now,
             updatedAt := f.later }] },
       { success := true,
         product := some
           { id := f.id, code := pd.code.getD "", name := pd.name.getD "",
             description := orEmpty pd.description, category := pd.category.getD "",
             price := storedNumber h pd.price, stock := storedNumber h pd.stock,
             minStock := storedNumber h pd.minStock, createdAt := f.now,
             updatedAt := f.later },
         message := "Producto creado exitosamente" }) := by
  unfold createProduct
  simp only [hv, hdup, Bool.not_true, Bool.false_eq_true, if_false, addProduct]

theorem productCodeExists_none_iff (s : Store) (code : Option String) :
    productCodeExists s code none = true ↔ ∃ p ∈ s.products, some p.code = code := by
  simp [productCodeExists]

theorem productCodeExists_some_iff (s : Store) (code : Option String) (id : String) :
    productCodeExists s code (some id) = true ↔
      ∃ p ∈ s.products, some p.code = code ∧ p.id ≠ id := by
  simp [productCodeExists]

/-- The store `editProduct` leaves is the given one, or the given one with the first
product of that id replaced by one of the same id and stock and with the submitted code,
no other product carrying that code under another id. -/
theorem editProduct_cases (h : Host) (f : Fresh) (s : Store) (id : String) (pd : ProductData) :
    (editProduct h f s id pd).1 = s ∨
    ∃ p front back p',
      s.products = front ++ p :: back ∧ (∀ a ∈ front, a.id ≠ p.id) ∧ p.id = id ∧
      p'.id = p.id ∧ p'.stock = p.stock ∧ some p'.code = pd.code ∧
      productCodeExists s pd.code (some id) = false ∧
      (validateProductData h pd).valid = true ∧
      (editProduct h f s id pd).1 = { s with products := front ++ p' :: back } := by
  unfold editProduct
  cases hp : getProductById s (some id) with
  | none => left; simp
  | some p =>
    by_cases hv : (validateProductData h pd).valid = true
    swap
    · left; simp [hv]
    by_cases hdup : productCodeExists s pd.code (some id) = true
    · left; simp [hv, hdup]
    right
    obtain ⟨front, back, hsplit, hfront⟩ := getProductById_split hp
    have hid : p.id = id := by
      have := getProductById_some_id hp
      simpa using this.symm
    subst hid
    refine ⟨p, front, back,
      ({ code := some (pd.code.getD ""), name := some (pd.name.getD ""),
         description := some (orEmpty pd.description), category := some (pd.category.getD ""),
         price := some (storedNumber h pd.price),
         minStock := some (storedNumber h pd.minStock) } : ProductPatch).apply p f.now,
      hsplit, hfront, rfl, ?_, ?_, ?_, by simpa using hdup, hv, ?_⟩
    · simp [ProductPatch.apply]
    · simp [ProductPatch.apply]
    · simp only [ProductPatch.apply, Option.getD_some]
      exact isEmpty_false_some (validateProductData_valid hv).1
    · simp only [hv, hdup, Bool.not_true, Bool.false_eq_true, if_false]
      rw [updateProduct_split f.now s _ hsplit hfront]

theorem removeProduct_products (s : Store) (id : String) :
    (removeProduct s id).1 = s ∨
    (removeProduct s id).1 = { s with products := s.products.filter (fun p => p.id != id) } := by
  unfold removeProduct deleteProduct
  cases getProductById s (some id) with
  | none => left; rfl
  | some p =>
    by_cases hl : (s.products.filter (fun p => p.id != id)).length = s.products.length
    · left; simp [hl]
    · right; simp [hl]

/-! ## Shared consequences of the case analyses -/

theorem registerMovement_stock_nonneg (h : Host) (f : Fresh) (s : Store) (md : MovementData)
    (hs : ∀ p ∈ s.products, 0 ≤ p.stock) :
    ∀ p ∈ (registerMovement h f s md).store.products, 0 ≤ p.stock := by
  rcases registerMovement_cases h f s md with ⟨hst, -⟩ |
    ⟨p, front, back, u, q, -, -, hsplit, -, -, -, -, hnew, hst, -⟩
  · rw [hst]; exact hs
  · rw [hst]
    intro x hx
    simp only [List.mem_append, List.mem_cons] at hx
    rcases hx with hx | rfl | hx
    · exact hs x (by rw [hsplit]; simp [hx])
    · exact hnew
    · exact hs x (by rw [hsplit]; simp [hx])

theorem intercalate_go_acc (sep : String) (l : List String) (acc : String) :
    ∃ post, String.intercalate.go acc sep l = acc ++ post := by
  induction l generalizing acc with
  | nil => exact ⟨"", by simp [String.intercalate.go]⟩
  | cons b l ih =>
    obtain ⟨post, hpost⟩ := ih (acc ++ sep ++ b)
    refine ⟨sep ++ b ++ post, ?_⟩
    rw [String.intercalate.go, hpost]
    simp only [String.append_assoc]

theorem intercalate_go_mem (sep : String) (l : List String) (acc x : String) (hx : x ∈ l) :
    ∃ pre post, String.intercalate.go acc sep l = pre ++ x ++ post := by
  induction l generalizing acc with
  | nil => simp at hx
  | cons a rest ih =>
    rw [String.intercalate.go]
    rcases List.mem_cons.mp hx with rfl | hmem
    · obtain ⟨post, hpost⟩ := intercalate_go_acc sep rest (acc ++ sep ++ x)
      exact ⟨acc ++ sep, post, by rw [hpost]⟩
    · exact ih _ hmem

/-- A joined message contains each of the joined errors. -/
theorem joinErrors_contains {errors : List String} {x : String} (hx : x ∈ errors) :
    ∃ pre post, joinErrors errors = pre ++ x ++ post := by
  unfold joinErrors
  cases errors with
  | nil => simp at hx
  | cons a rest =>
    rw [String.intercalate]
    rcases List.mem_cons.mp hx with rfl | hmem
    · obtain ⟨post, hpost⟩ := intercalate_go_acc ", " rest x
      exact ⟨"", post, by rw [hpost]; simp⟩
    · exact intercalate_go_mem ", " rest a x hmem

/-! ## The claims -/

/-- C1. Stock never goes negative: from a store in which every product has stock at
least zero, whatever the arguments, `createProduct`, `editProduct`, `removeProduct`,
`registerMovement`, `registerEntry` and `registerExit` leave a store in which every
product has stock at least zero. -/
theorem stock_never_negative (h : Host) (f : Fresh) (s : Store)
    (hs : ∀ p ∈ s.products, 0 ≤ p.stock) :
    (∀ pd, ∀ p ∈ (createProduct h f s pd).1.products, 0 ≤ p.stock) ∧
    (∀ id pd, ∀ p ∈ (editProduct h f s id pd).1.products, 0 ≤ p.stock) ∧
    (∀ id, ∀ p ∈ (removeProduct s id).1.products, 0 ≤ p.stock) ∧
    (∀ md, ∀ p ∈ (registerMovement h f s md).store.products, 0 ≤ p.stock) ∧
    (∀ md, ∀ p ∈ (registerEntry h f s md).store.products, 0 ≤ p.stock) ∧
    (∀ md, ∀ p ∈ (registerExit h f s md).store.products, 0 ≤ p.stock) := by
  refine ⟨?_, ?_, ?_, ?_, ?_, ?_⟩
  · intro pd
    by_cases hv : (validateProductData h pd).valid = true
    swap
    · rw [createProduct_invalid (by simpa using hv)]; exact hs
    by_cases hdup : productCodeExists s pd.code none = true
    · rw [createProduct_duplicate hv hdup]; exact hs
    rw [createProduct_fresh hv (by simpa using hdup)]
    obtain ⟨-, -, -, -, ⟨q, hq, hq0⟩, -⟩ := validateProductData_valid hv
    intro x hx
    simp only [List.mem_append, List.mem_singleton] at hx
    rcases hx with hx | rfl
    · exact hs x hx
    · simpa [storedNumber_of_jsNumber hq] using hq0
  · intro id pd
    rcases editProduct_cases h f s id pd with hst |
      ⟨p, front, back, p', hsplit, -, -, -, hstock, -, -, -, hst⟩
    · rw [hst]; exact hs
    · rw [hst]
      intro x hx
      simp only [List.mem_append, List.mem_cons] at hx
      rcases hx with hx | rfl | hx
      · exact hs x (by rw [hsplit]; simp [hx])
      · rw [hstock]; exact hs p (by rw [hsplit]; simp)
      · exact hs x (by rw [hsplit]; simp [hx])
  · intro id
    rcases removeProduct_products s id with hst | hst
    · rw [hst]; exact hs
    · rw [hst]
      intro x hx
      exact hs x (List.mem_of_mem_filter hx)
  · intro md
    exact registerMovement_stock_nonneg h f s md hs
  · intro md
    exact registerMovement_stock_nonneg h f s _ hs
  · intro md
    exact registerMovement_stock_nonneg h f s _ hs

/-- Witness for C1 on the scenario store. -/
theorem stock_never_negative_witness :
    (∀ p ∈ shop.products, 0 ≤ p.stock) ∧
    (∀ p ∈ (registerMovement decimalHost tick shop exit3).store.products, 0 ≤ p.stock) :=
  ⟨by decide!, (stock_never_negative decimalHost tick shop (by decide!)).2.2.2.1 exit3⟩

/-- C2. Atomic rejection: when `registerMovement` returns `success = false`, the
products collection and the movements collection are those of before the call. -/
theorem rejection_is_atomic (h : Host) (f : Fresh) (s : Store) (md : MovementData)
    (r : MovementResult) (hr : (registerMovement h f s md).result? = some r)
    (hfail : r.success = false) :
    (registerMovement h f s md).store.products = s.products ∧
    (registerMovement h f s md).store.movements = s.movements := by
  rcases registerMovement_cases h f s md with ⟨hst, -⟩ |
    ⟨p, front, back, u, q, -, -, -, -, -, -, -, -, -, hres⟩
  · rw [hst]; exact ⟨rfl, rfl⟩
  · rw [hres] at hr
    cases hr
    simp at hfail

/-- Witness for C2: an exit of 10 on a stock of 5. -/
theorem rejection_is_atomic_witness :
    (registerMovement decimalHost tick shop exit10).store.products = shop.products ∧
    (registerMovement decimalHost tick shop exit10).store.movements = shop.movements :=
  rejection_is_atomic decimalHost tick shop exit10
    { success := false, movement := none,
      message := "Stock insuficiente. Disponible: 5 unidades" }
    (by decide!) rfl

theorem insufficientStock_mem {h : Host} {s : Store} {md : MovementData} {p : Product} {q : ℚ}
    (hp : getProductById s md.productId = some p) (ht : md.type = some SALIDA)
    (hq : jsNumber h md.quantity = some q) (hgt : p.stock < q) :
    insufficientStock h p.stock ∈ (validateMovementData h s md).errors := by
  have hgt2 : numberGt h md.quantity p.stock = true := (numberGt_iff _ _ _).mpr ⟨q, hq, hgt⟩
  simp [validateMovementData, ht, hp, hgt2]

theorem registerMovement_insufficient {h : Host} (f : Fresh) {s : Store} (md : MovementData)
    {p : Product} {q : ℚ}
    (hp : getProductById s md.productId = some p) (ht : md.type = some SALIDA)
    (hq : jsNumber h md.quantity = some q) (hgt : p.stock < q) :
    ∃ r, registerMovement h f s md = .returned s r none ∧ r.success = false ∧
      r.movement = none ∧
      ∃ pre post, r.message = pre ++ insufficientStock h p.stock ++ post := by
  have hmem := insufficientStock_mem hp ht hq hgt
  have hv : (validateMovementData h s md).valid = false := by
    cases hval : (validateMovementData h s md).valid with
    | false => rfl
    | true =>
      rw [valid_iff_errors] at hval
      rw [hval] at hmem
      simp at hmem
  exact ⟨_, registerMovement_invalid hv, rfl, rfl, joinErrors_contains hmem⟩

/-- C3. Insufficient stock is rejected with the available quantity: when the requested
id resolves to a product `p` and the requested quantity `q` exceeds `p.stock`, a
`registerMovement` of type `salida`, and `registerExit` whatever the submitted type,
return `success = false` with a message containing
`Stock insuficiente. Disponible: <p.stock> unidades`; the store is left as it was, so
the product keeps its stock and no movement is appended. -/
theorem insufficient_stock_rejected (h : Host) (f : Fresh) (s : Store) (md : MovementData)
    (p : Product) (q : ℚ)
    (hp : getProductById s md.productId = some p)
    (hq : jsNumber h md.quantity = some q) (hgt : p.stock < q) :
    (md.type = some SALIDA →
      ∃ r, (registerMovement h f s md).result? = some r ∧ r.success = false ∧
        (∃ pre post, r.message = pre ++ insufficientStock h p.stock ++ post) ∧
        (registerMovement h f s md).store = s ∧
        getProductById (registerMovement h f s md).store md.productId = some p ∧
        (registerMovement h f s md).store.movements = s.movements) ∧
    (∃ r, (registerExit h f s md).result? = some r ∧ r.success = false ∧
        (∃ pre post, r.message = pre ++ insufficientStock h p.stock ++ post) ∧
        (registerExit h f s md).store = s ∧
        getProductById (registerExit h f s md).store md.productId = some p ∧
        (registerExit h f s md).store.movements = s.movements) := by
  constructor
  · intro ht
    obtain ⟨r, hr, hfail, -, hmsg⟩ := registerMovement_insufficient f md hp ht hq hgt
    refine ⟨r, ?_, hfail, hmsg, ?_, ?_, ?_⟩ <;> simp [hr, Outcome.result?, Outcome.store, hp]
  · obtain ⟨r, hr, hfail, -, hmsg⟩ :=
      registerMovement_insufficient f { md with type := some SALIDA } hp rfl hq hgt
    refine ⟨r, ?_, hfail, hmsg, ?_, ?_, ?_⟩ <;>
      simp [registerExit, hr, Outcome.result?, Outcome.store, hp]

/-- Witness for C3, scenario B: an exit of 10 on a stock of 5. -/
theorem insufficient_stock_rejected_witness :
    (∃ r, (registerMovement decimalHost tick shop exit10).result? = some r ∧
        r.success = false ∧
        (∃ pre post, r.message = pre ++ "Stock insuficiente. Disponible: 5 unidades" ++ post) ∧
        (registerMovement decimalHost tick shop exit10).store = shop ∧
        getProductById (registerMovement decimalHost tick shop exit10).store (some "p1") =
          some widget ∧
        (registerMovement decimalHost tick shop exit10).store.movements = []) := by
  have hmessage : insufficientStock decimalHost widget.stock =
      "Stock insuficiente. Disponible: 5 unidades" := by decide!
  have hrejected := (insufficient_stock_rejected decimalHost tick shop exit10 widget 10
    (by decide!) (by decide!) (by decide!)).1 (by decide!)
  rw [hmessage] at hrejected
  exact hrejected

/-- A movement request is valid exactly when each of its five checks passes. -/
theorem validateMovementData_valid_iff (h : Host) (s : Store) (md : MovementData) :
    (validateMovementData h s md).valid = true ↔
      truthy md.productId = true ∧
      (∃ p, getProductById s md.productId = some p) ∧
      (md.type = some ENTRADA ∨ md.type = some SALIDA) ∧
      (∃ q, jsNumber h md.quantity = some q ∧ 0 < q) ∧
      isEmpty md.reason = false ∧
      (md.type = some SALIDA → ∀ p, getProductById s md.productId = some p →
        numberGt h md.quantity p.stock = false) := by
  constructor
  · exact validateMovementData_valid
  · rintro ⟨hid, ⟨p, hp⟩, htype, hq, hreason, hstock⟩
    have hpos := (isPositiveNumber_iff h md.quantity).mpr hq
    rw [valid_iff_errors]
    rcases htype with ht | ht
    · have htt : truthy (some ENTRADA) = true := by decide
      have hne : ¬ (ENTRADA = SALIDA) := by decide
      simp [validateMovementData, hid, hp, htt, ht, hpos, hreason, MOVEMENT_TYPES, hne]
    · have htt : truthy (some SALIDA) = true := by decide
      have hgt := hstock ht p hp
      simp [validateMovementData, hid, hp, htt, ht, hpos, hreason, MOVEMENT_TYPES, hgt]

/-- The store and the result of a registration that passes every guard. -/
theorem registerMovement_ok {h : Host} {f : Fresh} {s : Store} {md : MovementData}
    {p : Product} {q : ℚ} {u : User}
    (hv : (validateMovementData h s md).valid = true)
    (hp : getProductById s md.productId = some p)
    (hq : jsNumber h md.quantity = some q)
    (hnew : 0 ≤ p.stock + signedQuantity md q)
    (hu : s.currentUser = some u) :
    ∃ front back, s.products = front ++ p :: back ∧ (∀ a ∈ front, a.id ≠ p.id) ∧
      (registerMovement h f s md).store =
        { products :=
            front ++ { p with stock := p.stock + signedQuantity md q, updatedAt := f.later } :: back
          movements := s.movements ++ [(addMovement f s (newMovementOf md p q u)).2]
          currentUser := s.currentUser } ∧
      (registerMovement h f s md).result? = some
        { success := true
          movement := some (addMovement f s (newMovementOf md p q u)).2
          message := (if md.type == some ENTRADA then "Entrada" else "Salida") ++
            " registrada exitosamente" } := by
  obtain ⟨front, back, hsplit, hfront⟩ := getProductById_split hp
  have hs1 : (addMovement f s (newMovementOf md p q u)).1.products = front ++ p :: back := by
    simp [addMovement, hsplit]
  have hneg : ¬ p.stock + signedQuantity md q < 0 := not_lt.mpr hnew
  rw [registerMovement_valid hv hp hq]
  refine ⟨front, back, hsplit, hfront, ?_, ?_⟩
  · simp only [hneg, if_false, hu, Outcome.store]
    rw [updateProductStock_split f.later _ _ hs1 hfront]
    simp [addMovement, hu]
  · simp [hneg, hu, Outcome.result?]

/-- The product an id resolves to after a successful registration. -/
theorem getProductById_replaced {front back : List Product} {p p' : Product}
    {movements : List Movement} {user : Option User}
    (hfront : ∀ a ∈ front, a.id ≠ p.id) (hid : p'.id = p.id) :
    getProductById { products := front ++ p' :: back, movements := movements,
                     currentUser := user } (some p.id) = some p' := by
  unfold getProductById
  rw [← hid]
  exact find_split (by simpa [hid] using hfront)

/-- The result and the stock of a registration that meets every guard: with a current
user, a non-empty requested id that resolves to a product `p`, a positive quantity `q`
and a non-blank reason, an `entrada` with `p.stock + q ≥ 0` and a `salida` with
`q ≤ p.stock` succeed with their message and leave the stock `p.stock + q` and
`p.stock - q`. -/
theorem registerMovement_postcondition (h : Host) (f : Fresh) (s : Store) (md : MovementData)
    (p : Product) (q : ℚ) (u : User)
    (hu : s.currentUser = some u)
    (hid : truthy md.productId = true)
    (hp : getProductById s md.productId = some p)
    (hq : jsNumber h md.quantity = some q) (hpos : 0 < q)
    (hreason : isEmpty md.reason = false) :
    (md.type = some ENTRADA → 0 ≤ p.stock + q →
      ∃ r p', (registerMovement h f s md).result? = some r ∧ r.success = true ∧
        r.message = "Entrada registrada exitosamente" ∧
        getProductById (registerMovement h f s md).store md.productId = some p' ∧
        p'.stock = p.stock + q) ∧
    (md.type = some SALIDA → q ≤ p.stock →
      ∃ r p', (registerMovement h f s md).result? = some r ∧ r.success = true ∧
        r.message = "Salida registrada exitosamente" ∧
        getProductById (registerMovement h f s md).store md.productId = some p' ∧
        p'.stock = p.stock - q) := by
  have hpid := getProductById_some_id hp
  constructor
  · intro ht hstock
    have hv : (validateMovementData h s md).valid = true :=
      (validateMovementData_valid_iff h s md).mpr
        ⟨hid, ⟨p, hp⟩, Or.inl ht, ⟨q, hq, hpos⟩, hreason, by
          intro hsal
          rw [ht] at hsal
          exact absurd hsal (by decide)⟩
    have hsq : signedQuantity md q = q := by simp [signedQuantity, ht]
    obtain ⟨front, back, -, hfront, hst, hres⟩ :=
      registerMovement_ok (f := f) hv hp hq (by rw [hsq]; exact hstock) hu
    refine ⟨_, { p with stock := p.stock + signedQuantity md q, updatedAt := f.later },
      hres, rfl, ?_, ?_, ?_⟩
    · simp only [ht, beq_self_eq_true, if_true]
      decide
    · rw [hst, hpid]
      exact getProductById_replaced hfront rfl
    · simp [hsq]
  · intro ht hle
    have hv : (validateMovementData h s md).valid = true :=
      (validateMovementData_valid_iff h s md).mpr
        ⟨hid, ⟨p, hp⟩, Or.inr ht, ⟨q, hq, hpos⟩, hreason, by
          intro _ p₂ hp₂
          rw [hp] at hp₂
          cases hp₂
          cases hgt : numberGt h md.quantity p.stock with
          | false => rfl
          | true =>
            obtain ⟨q₂, hq₂, hlt⟩ := (numberGt_iff _ _ _).mp hgt
            rw [hq] at hq₂
            cases hq₂
            exact absurd hlt (not_lt.mpr hle)⟩
    have hsq : signedQuantity md q = -q := by
      have : ¬ (SALIDA = ENTRADA) := by decide
      simp [signedQuantity, ht, this]
    obtain ⟨front, back, -, hfront, hst, hres⟩ :=
      registerMovement_ok (f := f) hv hp hq (by rw [hsq]; linarith) hu
    refine ⟨_, { p with stock := p.stock + signedQuantity md q, updatedAt := f.later },
      hres, rfl, ?_, ?_, ?_⟩
    · have : ¬ (SALIDA = ENTRADA) := by decide
      simp only [ht, beq_iff_eq, Option.some.injEq, this, if_false]
      decide
    · rw [hst, hpid]
      exact getProductById_replaced hfront rfl
    · simp [hsq, sub_eq_add_neg]

/-- A successful registration, spelled out: the request was valid, the id resolved to
`p`, and the store and result are the ones built from `p`, the magnitude `q` and the
session user. -/
theorem registerMovement_success {h : Host} {f : Fresh} {s : Store} {md : MovementData}
    {r : MovementResult} (hr : (registerMovement h f s md).result? = some r)
    (hs : r.success = true) :
    ∃ p front back u q,
      (validateMovementData h s md).valid = true ∧
      getProductById s md.productId = some p ∧
      s.products = front ++ p :: back ∧ (∀ a ∈ front, a.id ≠ p.id) ∧
      jsNumber h md.quantity = some q ∧ 0 < q ∧
      s.currentUser = some u ∧
      0 ≤ p.stock + signedQuantity md q ∧
      (registerMovement h f s md).store =
        { products :=
            front ++ { p with stock := p.stock + signedQuantity md q, updatedAt := f.later } :: back
          movements := s.movements ++ [(addMovement f s (newMovementOf md p q u)).2]
          currentUser := s.currentUser } ∧
      r = { success := true
            movement := some (addMovement f s (newMovementOf md p q u)).2
            message := (if md.type == some ENTRADA then "Entrada" else "Salida") ++
              " registrada exitosamente" } := by
  rcases registerMovement_cases h f s md with ⟨-, hall⟩ |
    ⟨p, front, back, u, q, hv, hp, hsplit, hfront, hq, hpos, hu, hnew, hst, hres⟩
  · have := (hall r hr).1
    rw [hs] at this
    cases this
  · rw [hres] at hr
    cases hr
    exact ⟨p, front, back, u, q, hv, hp, hsplit, hfront, hq, hpos, hu, hnew, hst, rfl⟩

/-- A registration that does not report success leaves the store as it was. -/
theorem registerMovement_unchanged {h : Host} {f : Fresh} {s : Store} {md : MovementData}
    (hno : ∀ r, (registerMovement h f s md).result? = some r → r.success = false) :
    (registerMovement h f s md).store = s := by
  rcases registerMovement_cases h f s md with ⟨hst, -⟩ |
    ⟨p, front, back, u, q, -, -, -, -, -, -, -, -, -, hres⟩
  · exact hst
  · have := hno _ hres
    simp at this

/-- C5. Movement record invariant: the movement appended by a successful
`registerMovement` has `previousStock` equal to the product's stock before the call,
`newStock` equal to the product's persisted stock after the call, `quantity` equal to
`+q` for `entrada` and `-q` for `salida` (`q` the requested positive magnitude), and
satisfies `newStock = previousStock + quantity` and `newStock ≥ 0`; hence if every stored
movement satisfies the two relations before a call, every stored movement satisfies them
after it. -/
theorem movement_record_invariant (h : Host) (f : Fresh) (s : Store) (md : MovementData) :
    (∀ r, (registerMovement h f s md).result? = some r → r.success = true →
      ∃ m p p' q, r.movement = some m ∧
        (registerMovement h f s md).store.movements = s.movements ++ [m] ∧
        getProductById s md.productId = some p ∧
        getProductById (registerMovement h f s md).store md.productId = some p' ∧
        jsNumber h md.quantity = some q ∧ 0 < q ∧
        (md.type = some ENTRADA ∧ m.quantity = q ∨ md.type = some SALIDA ∧ m.quantity = -q) ∧
        m.previousStock = p.stock ∧ m.newStock = p'.stock ∧
        m.newStock = m.previousStock + m.quantity ∧ 0 ≤ m.newStock) ∧
    ((∀ m ∈ s.movements, m.Consistent) →
      ∀ m ∈ (registerMovement h f s md).store.movements, m.Consistent) := by
  constructor
  · intro r hr hs
    obtain ⟨p, front, back, u, q, hv, hp, -, hfront, hq, hpos, -, hnew, hst, rfl⟩ :=
      registerMovement_success hr hs
    have hpid := getProductById_some_id hp
    have htype := (validateMovementData_valid hv).2.2.1
    refine ⟨_, p, { p with stock := p.stock + signedQuantity md q, updatedAt := f.later }, q,
      rfl, ?_, hp, ?_, hq, hpos, ?_, rfl, rfl, rfl, hnew⟩
    · rw [hst]
    · rw [hst, hpid]
      exact getProductById_replaced hfront rfl
    · rcases htype with ht | ht
      · left
        exact ⟨ht, by simp [addMovement, newMovementOf, signedQuantity, ht]⟩
      · right
        have : ¬ (SALIDA = ENTRADA) := by decide
        exact ⟨ht, by simp [addMovement, newMovementOf, signedQuantity, ht, this]⟩
  · intro hall m hm
    rcases registerMovement_cases h f s md with ⟨hst, -⟩ |
      ⟨p, front, back, u, q, -, -, -, -, -, -, -, hnew, hst, -⟩
    · rw [hst] at hm
      exact hall m hm
    · rw [hst] at hm
      simp only [List.mem_append, List.mem_singleton] at hm
      rcases hm with hm | rfl
      · exact hall m hm
      · exact ⟨rfl, hnew⟩

/-- Witness for C5: the record written by the entry of 20 on a stock of 5. -/
theorem movement_record_invariant_witness :
    ∃ m p p' q, entry20Result.movement = some m ∧
      (registerMovement decimalHost tick shop entry20).store.movements = shop.movements ++ [m] ∧
      getProductById shop entry20.productId = some p ∧
      getProductById (registerMovement decimalHost tick shop entry20).store entry20.productId =
        some p' ∧
      jsNumber decimalHost entry20.quantity = some q ∧ 0 < q ∧
      (entry20.type = some ENTRADA ∧ m.quantity = q ∨
        entry20.type = some SALIDA ∧ m.quantity = -q) ∧
      m.previousStock = p.stock ∧ m.newStock = p'.stock ∧
      m.newStock = m.previousStock + m.quantity ∧ 0 ≤ m.newStock :=
  (movement_record_invariant decimalHost tick shop entry20).1
    entry20Result
    (by decide!) rfl

/-- C6. Movements are append-only: the movements collection before a call of
`registerMovement` is a prefix of the collection after it; it grows by exactly the
returned movement when the call succeeds and is unchanged when it does not; and
`createProduct`, `editProduct` and `removeProduct` leave it unchanged. -/
theorem movements_append_only (h : Host) (f : Fresh) (s : Store) :
    (∀ md, s.movements <+: (registerMovement h f s md).store.movements) ∧
    (∀ md r, (registerMovement h f s md).result? = some r → r.success = true →
      ∃ m, r.movement = some m ∧
        (registerMovement h f s md).store.movements = s.movements ++ [m]) ∧
    (∀ md, (∀ r, (registerMovement h f s md).result? = some r → r.success = false) →
      (registerMovement h f s md).store.movements = s.movements) ∧
    (∀ pd, (createProduct h f s pd).1.movements = s.movements) ∧
    (∀ id pd, (editProduct h f s id pd).1.movements = s.movements) ∧
    (∀ id, (removeProduct s id).1.movements = s.movements) := by
  refine ⟨?_, ?_, ?_, ?_, ?_, ?_⟩
  · intro md
    rcases registerMovement_cases h f s md with ⟨hst, -⟩ |
      ⟨p, front, back, u, q, -, -, -, -, -, -, -, -, hst, -⟩
    · rw [hst]
    · rw [hst]
      exact List.prefix_append _ _
  · intro md r hr hs
    obtain ⟨p, front, back, u, q, -, -, -, -, -, -, -, -, hst, rfl⟩ :=
      registerMovement_success hr hs
    exact ⟨_, rfl, by rw [hst]⟩
  · intro md hno
    rw [registerMovement_unchanged hno]
  · intro pd
    by_cases hv : (validateProductData h pd).valid = true
    swap
    · rw [createProduct_invalid (by simpa using hv)]
    by_cases hdup : productCodeExists s pd.code none = true
    · rw [createProduct_duplicate hv hdup]
    · rw [createProduct_fresh hv (by simpa using hdup)]
  · intro id pd
    rcases editProduct_cases h f s id pd with hst | ⟨p, front, back, p', -, -, -, -, -, -, -, -, hst⟩
    · rw [hst]
    · rw [hst]
  · intro id
    rcases removeProduct_products s id with hst | hst
    · rw [hst]
    · rw [hst]

/-- Witness for C6: the entry of 20 appends exactly the returned movement. -/
theorem movements_append_only_witness :
    ∃ m, entry20Result.movement = some m ∧
      (registerMovement decimalHost tick shop entry20).store.movements =
        shop.movements ++ [m] :=
  (movements_append_only decimalHost tick shop).2.1 entry20
    entry20Result
    (by decide!) rfl

/-! ## Conservation over a sequence of calls -/

theorem registerAll_append (h : Host) (s : Store) (a b : List (Fresh × MovementData)) :
    registerAll h s (a ++ b) = registerAll h (registerAll h s a) b := by
  induction a generalizing s with
  | nil => rfl
  | cons c a ih =>
    obtain ⟨f, md⟩ := c
    simp only [List.cons_append, registerAll]
    exact ih _

/-- Replacing a product by one of the same id does not change what another id
resolves to. -/
theorem getProductById_other (front back : List Product) (p p' : Product)
    (movements movements' : List Movement) (user user' : Option User) {id : String}
    (hid : p'.id = p.id) (hne : p.id ≠ id) :
    getProductById { products := front ++ p' :: back, movements := movements',
                     currentUser := user' } (some id) =
    getProductById { products := front ++ p :: back, movements := movements,
                     currentUser := user } (some id) := by
  unfold getProductById
  simp [List.find?_append, List.find?_cons, hid, hne]

/-- The effect of one call on the movements and on the product an id resolves to. -/
theorem registerMovement_step (h : Host) (f : Fresh) (s : Store) (md : MovementData)
    (pid : String) (p : Product) (hp : getProductById s (some pid) = some p) :
    (registerMovement h f s md).store.movements =
      s.movements ++ (registerMovement h f s md).appended ∧
    ∃ p', getProductById (registerMovement h f s md).store (some pid) = some p' ∧
      p'.stock = p.stock +
        ((((registerMovement h f s md).appended).filter (fun m => m.productId == pid)).map
          (fun m => m.quantity)).sum := by
  rcases registerMovement_cases h f s md with ⟨hst, hall⟩ |
    ⟨p₀, front, back, u, q, -, hp₀, hsplit, hfront, -, -, -, -, hst, hres⟩
  · have happ : (registerMovement h f s md).appended = [] := by
      unfold Outcome.appended
      cases hr : (registerMovement h f s md).result? with
      | none => rfl
      | some r => simp [(hall r hr).1]
    rw [hst, happ]
    exact ⟨by simp, p, hp, by simp⟩
  · have happ : (registerMovement h f s md).appended =
        [(addMovement f s (newMovementOf md p₀ q u)).2] := by
      unfold Outcome.appended
      rw [hres]
      rfl
    rw [hst, happ]
    refine ⟨rfl, ?_⟩
    by_cases hsame : p₀.id = pid
    · subst hsame
      have hpp : p₀ = p := by
        have h1 := getProductById_some_id hp₀
        rw [h1, hp] at hp₀
        exact (Option.some.inj hp₀).symm
      subst hpp
      refine ⟨_, getProductById_replaced hfront rfl, ?_⟩
      simp [addMovement, newMovementOf]
    · refine ⟨p, ?_, ?_⟩
      · refine (getProductById_other front back p₀
          { p₀ with stock := p₀.stock + signedQuantity md q, updatedAt := f.later }
          s.movements _ s.currentUser _ rfl hsame).trans ?_
        rw [← hsplit]
        exact hp
      · simp [addMovement, newMovementOf, hsame]

/-- Conservation when every sum is exact: for a product of initial stock `S0` and any
finite sequence of `registerMovement` calls, the movements appended are exactly those
returned by the calls that succeeded, and the product's final stock is `S0` plus the sum
of the signed `quantity` fields of the appended movements of that product; a rejected
call contributes nothing, the final store being the same with the call left out. -/
theorem conservation_exact (h : Host) (calls : List (Fresh × MovementData)) (s : Store)
    (pid : String) (p : Product) (hp : getProductById s (some pid) = some p) :
    (registerAll h s calls).movements =
      s.movements ++ (registerTrace h s calls).flatMap Outcome.appended ∧
    (∃ p', getProductById (registerAll h s calls) (some pid) = some p' ∧
      p'.stock = p.stock +
        ((((registerTrace h s calls).flatMap Outcome.appended).filter
          (fun m => m.productId == pid)).map (fun m => m.quantity)).sum) ∧
    (∀ before f md after, calls = before ++ (f, md) :: after →
      (∀ r, (registerMovement h f (registerAll h s before) md).result? = some r →
        r.success = false) →
      registerAll h s calls = registerAll h s (before ++ after)) := by
  refine ⟨?_, ?_, ?_⟩
  · clear hp
    induction calls generalizing s with
    | nil => simp [registerAll, registerTrace]
    | cons c rest ih =>
      obtain ⟨f, md⟩ := c
      simp only [registerAll, registerTrace, List.flatMap_cons]
      rw [ih]
      rcases registerMovement_cases h f s md with ⟨hst, hall⟩ |
        ⟨p₀, front, back, u, q, -, -, -, -, -, -, -, -, hst, hres⟩
      · have happ : (registerMovement h f s md).appended = [] := by
          unfold Outcome.appended
          cases hr : (registerMovement h f s md).result? with
          | none => rfl
          | some r => simp [(hall r hr).1]
        rw [happ, hst]
        simp
      · have happ : (registerMovement h f s md).appended =
            [(addMovement f s (newMovementOf md p₀ q u)).2] := by
          unfold Outcome.appended
          rw [hres]
          rfl
        rw [happ, hst]
        simp
  · induction calls generalizing s p with
    | nil => exact ⟨p, hp, by simp [registerTrace]⟩
    | cons c rest ih =>
      obtain ⟨f, md⟩ := c
      obtain ⟨-, p₁, hp₁, hstock₁⟩ := registerMovement_step h f s md pid p hp
      obtain ⟨p', hp', hstock'⟩ := ih (registerMovement h f s md).store p₁ hp₁
      refine ⟨p', hp', ?_⟩
      simp only [registerTrace, List.flatMap_cons, List.filter_append, List.map_append,
        List.sum_append]
      rw [hstock', hstock₁]
      ring
  · intro before f md after hcalls hno
    rw [hcalls, registerAll_append, registerAll_append]
    simp only [registerAll]
    rw [registerMovement_unchanged hno]

/-! ## Uniqueness of codes -/

theorem registerMovement_ids_codes (h : Host) (f : Fresh) (s : Store) (md : MovementData) :
    (registerMovement h f s md).store.products.map (fun p => p.id) =
      s.products.map (fun p => p.id) ∧
    (registerMovement h f s md).store.products.map (fun p => p.code) =
      s.products.map (fun p => p.code) := by
  rcases registerMovement_cases h f s md with ⟨hst, -⟩ |
    ⟨p, front, back, u, q, -, -, hsplit, -, -, -, -, -, hst, -⟩
  · rw [hst]; exact ⟨rfl, rfl⟩
  · rw [hst, hsplit]; simp

/-- C8. Code uniqueness is preserved: from a store whose product ids are pairwise
distinct and whose product codes are pairwise distinct, with a generated id distinct from
the existing ones, each of `createProduct`, `editProduct`, `removeProduct` and
`registerMovement` leaves a store in which no two products share a code (and in which the
ids are still pairwise distinct). -/
theorem code_uniqueness_preserved (h : Host) (f : Fresh) (s : Store)
    (hids : (s.products.map (fun p => p.id)).Nodup)
    (hcodes : (s.products.map (fun p => p.code)).Nodup)
    (hfresh : f.id ∉ s.products.map (fun p => p.id)) :
    (∀ pd, ((createProduct h f s pd).1.products.map (fun p => p.code)).Nodup ∧
      ((createProduct h f s pd).1.products.map (fun p => p.id)).Nodup) ∧
    (∀ id pd, ((editProduct h f s id pd).1.products.map (fun p => p.code)).Nodup ∧
      ((editProduct h f s id pd).1.products.map (fun p => p.id)).Nodup) ∧
    (∀ id, ((removeProduct s id).1.products.map (fun p => p.code)).Nodup ∧
      ((removeProduct s id).1.products.map (fun p => p.id)).Nodup) ∧
    (∀ md, ((registerMovement h f s md).store.products.map (fun p => p.code)).Nodup ∧
      ((registerMovement h f s md).store.products.map (fun p => p.id)).Nodup) := by
  refine ⟨?_, ?_, ?_, ?_⟩
  · intro pd
    by_cases hv : (validateProductData h pd).valid = true
    swap
    · rw [createProduct_invalid (by simpa using hv)]; exact ⟨hcodes, hids⟩
    by_cases hdup : productCodeExists s pd.code none = true
    · rw [createProduct_duplicate hv hdup]; exact ⟨hcodes, hids⟩
    rw [createProduct_fresh hv (by simpa using hdup)]
    have hcode := isEmpty_false_some (validateProductData_valid hv).1
    have hnone : ∀ x ∈ s.products, some x.code ≠ pd.code := by
      intro x hx heq
      exact hdup ((productCodeExists_none_iff s pd.code).mpr ⟨x, hx, heq⟩)
    constructor
    · simp only [List.map_append, List.map_cons, List.map_nil]
      refine List.Nodup.append hcodes (List.nodup_singleton _) ?_
      simp only [List.disjoint_singleton, List.mem_map, not_exists, not_and]
      intro x hx heq
      exact hnone x hx (by rw [heq]; exact hcode)
    · simp only [List.map_append, List.map_cons, List.map_nil]
      refine List.Nodup.append hids (List.nodup_singleton _) ?_
      simpa only [List.disjoint_singleton] using hfresh
  · intro id pd
    rcases editProduct_cases h f s id pd with hst |
      ⟨p, front, back, p', hsplit, hfront, hpid, hid', -, hcode', hdup, -, hst⟩
    · rw [hst]; exact ⟨hcodes, hids⟩
    · rw [hst]
      rw [hsplit] at hids hcodes
      have hothers : ∀ x ∈ s.products, x.id ≠ id → x.code ≠ p'.code := by
        intro x hx hne heq
        have : productCodeExists s pd.code (some id) = true :=
          (productCodeExists_some_iff s pd.code id).mpr
            ⟨x, hx, by rw [heq]; exact hcode', hne⟩
        rw [hdup] at this
        cases this
      simp only [List.map_append, List.map_cons, List.nodup_append, List.nodup_cons,
        List.mem_map, List.disjoint_cons_right, not_exists, not_and] at hids hcodes ⊢
      obtain ⟨hfi, ⟨hpb, hbi⟩, hpf, hdis⟩ := hids
      obtain ⟨hfc, ⟨-, hbc⟩, -, hdisc⟩ := hcodes
      refine ⟨⟨hfc, ⟨?_, hbc⟩, ?_, hdisc⟩, ⟨hfi, ⟨?_, hbi⟩, ?_, hdis⟩⟩
      · intro x hx
        refine hothers x (by rw [hsplit]; simp [hx]) ?_
        rw [← hpid]
        exact fun heq => hpb x hx heq
      · intro x hx
        refine hothers x (by rw [hsplit]; simp [hx]) ?_
        rw [← hpid]
        exact hfront x hx
      · intro x hx
        rw [hid']
        exact hpb x hx
      · intro x hx
        rw [hid']
        exact hpf x hx
  · intro id
    rcases removeProduct_products s id with hst | hst
    · rw [hst]; exact ⟨hcodes, hids⟩
    · rw [hst]
      exact ⟨hcodes.sublist (List.Sublist.map _ (List.filter_sublist _)),
        hids.sublist (List.Sublist.map _ (List.filter_sublist _))⟩
  · intro md
    obtain ⟨hi, hc⟩ := registerMovement_ids_codes h f s md
    rw [hi, hc]
    exact ⟨hcodes, hids⟩

/-- Witness for C8: creating the gadget next to the widget. -/
theorem code_uniqueness_preserved_witness :
    ((createProduct decimalHost tick shop gadgetData).1.products.map (fun p => p.code)).Nodup ∧
    ((createProduct decimalHost tick shop gadgetData).1.products.map (fun p => p.id)).Nodup :=
  (code_uniqueness_preserved decimalHost tick shop (by decide) (by decide) (by decide)).1
    gadgetData

/-! ## Creation -/

/-- The product `createProduct` persists for valid data whose code is not stored yet. -/
theorem createProduct_created {h : Host} {f : Fresh} {s : Store} {pd : ProductData}
    (hv : (validateProductData h pd).valid = true)
    (hnew : ∀ p ∈ s.products, some p.code ≠ pd.code) :
    ∃ product,
      createProduct h f s pd =
        ({ s with products := s.products ++ [product] },
         { success := true, product := some product,
           message := "Producto creado exitosamente" }) ∧
      product.id = f.id ∧
      some product.code = pd.code ∧ some product.name = pd.name ∧
      some product.category = pd.category ∧
      jsNumber h pd.price = some product.price ∧
      jsNumber h pd.minStock = some product.minStock ∧
      jsNumber h pd.stock = some product.stock ∧
      product.description = pd.description.getD "" := by
  have hdup : productCodeExists s pd.code none = false := by
    cases hc : productCodeExists s pd.code none with
    | false => rfl
    | true =>
      obtain ⟨p, hp, heq⟩ := (productCodeExists_none_iff s pd.code).mp hc
      exact absurd heq (hnew p hp)
  obtain ⟨hcode, hname, hcat, ⟨qp, hqp, -⟩, ⟨qs, hqs, -⟩, ⟨qm, hqm, -⟩⟩ :=
    validateProductData_valid hv
  refine ⟨_, createProduct_fresh hv hdup, rfl, isEmpty_false_some hcode,
    isEmpty_false_some hname, isEmpty_false_some hcat, ?_, ?_, ?_, ?_⟩
  · simp [storedNumber_of_jsNumber hqp, hqp]
  · simp [storedNumber_of_jsNumber hqm, hqm]
  · simp [storedNumber_of_jsNumber hqs, hqs]
  · cases hd : pd.description with
    | none => rfl
    | some d =>
      by_cases hde : d = ""
      · simp [orEmpty, truthy, hde]
      · simp [orEmpty, truthy, hde]

/-- C9. Duplicate code on create is rejected: for valid product data whose code is the
code of a stored product, `createProduct` returns `success = false` with the message
`Ya existe un producto con ese código` and leaves the store unchanged; consequently, on
a store holding no product of that code, creating twice with the same valid data succeeds
the first time, fails the second time, and leaves exactly one product with that code. -/
theorem duplicate_code_rejected (h : Host) (f f₂ : Fresh) (s : Store) (pd : ProductData)
    (hv : (validateProductData h pd).valid = true) :
    ((∃ p ∈ s.products, some p.code = pd.code) →
      createProduct h f s pd =
        (s, { success := false, product := none,
              message := "Ya existe un producto con ese código" })) ∧
    ((∀ p ∈ s.products, some p.code ≠ pd.code) →
      (createProduct h f s pd).2.success = true ∧
      createProduct h f₂ (createProduct h f s pd).1 pd =
        ((createProduct h f s pd).1,
         { success := false, product := none,
           message := "Ya existe un producto con ese código" }) ∧
      ((createProduct h f₂ (createProduct h f s pd).1 pd).1.products.filter
        (fun p => some p.code == pd.code)).length = 1) := by
  constructor
  · intro hdup
    exact createProduct_duplicate hv ((productCodeExists_none_iff s pd.code).mpr hdup)
  · intro hnew
    obtain ⟨product, hcreate, -, hcode, -⟩ := createProduct_created (f := f) hv hnew
    have hsecond : createProduct h f₂ (createProduct h f s pd).1 pd =
        ((createProduct h f s pd).1,
         { success := false, product := none,
           message := "Ya existe un producto con ese código" }) := by
      apply createProduct_duplicate hv
      rw [productCodeExists_none_iff, hcreate]
      exact ⟨product, by simp, hcode⟩
    refine ⟨by rw [hcreate], hsecond, ?_⟩
    rw [hsecond, hcreate]
    have hnone : s.products.filter (fun p => some p.code == pd.code) = [] := by
      rw [List.filter_eq_nil_iff]
      intro p hp
      simpa using hnew p hp
    simp [List.filter_append, hnone, hcode]

/-- Witness for C9, scenario E: the gadget created twice. -/
theorem duplicate_code_rejected_witness :
    (createProduct decimalHost tick shop gadgetData).2.success = true ∧
    createProduct decimalHost tock (createProduct decimalHost tick shop gadgetData).1 gadgetData =
      ((createProduct decimalHost tick shop gadgetData).1,
       { success := false, product := none,
         message := "Ya existe un producto con ese código" }) ∧
    ((createProduct decimalHost tock
        (createProduct decimalHost tick shop gadgetData).1 gadgetData).1.products.filter
      (fun p => some p.code == gadgetData.code)).length = 1 :=
  (duplicate_code_rejected decimalHost tick tock shop gadgetData (by decide!)).2 (by decide)

/-- C10. Create success postcondition: for valid product data whose code equals no
stored product's code, `createProduct` returns `success = true`, the products collection
becomes the previous one followed by exactly one new product, which is the product
returned; it carries the generated id, the given code, name and category, the numbers
`Number(price)`, `Number(minStock)` and `Number(stock)` of the given values, and the
given description or the empty string. When validation fails the result is
`success = false` with the validation errors joined by `", "` and the store is
unchanged. -/
theorem create_postcondition (h : Host) (f : Fresh) (s : Store) (pd : ProductData) :
    ((validateProductData h pd).valid = true →
      (∀ p ∈ s.products, some p.code ≠ pd.code) →
      ∃ product,
        (createProduct h f s pd).2.success = true ∧
        (createProduct h f s pd).2.product = some product ∧
        (createProduct h f s pd).1.products = s.products ++ [product] ∧
        (createProduct h f s pd).1.movements = s.movements ∧
        (createProduct h f s pd).1.currentUser = s.currentUser ∧
        product.id = f.id ∧
        some product.code = pd.code ∧ some product.name = pd.name ∧
        some product.category = pd.category ∧
        jsNumber h pd.price = some product.price ∧
        jsNumber h pd.minStock = some product.minStock ∧
        jsNumber h pd.stock = some product.stock ∧
        product.description = pd.description.getD "") ∧
    ((validateProductData h pd).valid = false →
      createProduct h f s pd =
        (s, { success := false, product := none,
              message := ", ".intercalate (validateProductData h pd).errors })) := by
  constructor
  · intro hv hnew
    obtain ⟨product, hcreate, hrest⟩ := createProduct_created (f := f) hv hnew
    refine ⟨product, ?_, ?_, ?_, ?_, ?_, hrest⟩ <;> rw [hcreate]
  · intro hv
    exact createProduct_invalid hv

/-- Witness for C10: the gadget created on the scenario store, with stock 5. -/
theorem create_postcondition_witness :
    ∃ product,
      (createProduct decimalHost tick shop gadgetData).2.success = true ∧
      (createProduct decimalHost tick shop gadgetData).2.product = some product ∧
      (createProduct decimalHost tick shop gadgetData).1.products = shop.products ++ [product] ∧
      (createProduct decimalHost tick shop gadgetData).1.movements = shop.movements ∧
      (createProduct decimalHost tick shop gadgetData).1.currentUser = shop.currentUser ∧
      product.id = tick.id ∧
      some product.code = gadgetData.code ∧ some product.name = gadgetData.name ∧
      some product.category = gadgetData.category ∧
      jsNumber decimalHost gadgetData.price = some product.price ∧
      jsNumber decimalHost gadgetData.minStock = some product.minStock ∧
      jsNumber decimalHost gadgetData.stock = some product.stock ∧
      product.description = gadgetData.description.getD "" :=
  (create_postcondition decimalHost tick shop gadgetData).1 (by decide!) (by decide)

/-! ## Edition and removal -/

theorem getProductById_none_iff (s : Store) (id : String) :
    getProductById s (some id) = none ↔ ∀ p ∈ s.products, p.id ≠ id := by
  unfold getProductById
  simp

theorem editProduct_notFound {h : Host} {f : Fresh} {s : Store} {id : String}
    {pd : ProductData} (hnone : getProductById s (some id) = none) :
    editProduct h f s id pd =
      (s, { success := false, product := none, message := "Producto no encontrado" }) := by
  unfold editProduct
  simp only [hnone]

theorem editProduct_invalid {h : Host} {f : Fresh} {s : Store} {id : String}
    {pd : ProductData} {p : Product} (hp : getProductById s (some id) = some p)
    (hv : (validateProductData h pd).valid = false) :
    editProduct h f s id pd =
      (s, { success := false, product := none,
            message := joinErrors (validateProductData h pd).errors }) := by
  unfold editProduct
  simp only [hp, hv, Bool.not_false, if_true]

theorem editProduct_duplicate {h : Host} {f : Fresh} {s : Store} {id : String}
    {pd : ProductData} {p : Product} (hp : getProductById s (some id) = some p)
    (hv : (validateProductData h pd).valid = true)
    (hdup : productCodeExists s pd.code (some id) = true) :
    editProduct h f s id pd =
      (s, { success := false, product := none,
            message := "Ya existe otro producto con ese código" }) := by
  unfold editProduct
  simp only [hp, hv, hdup, Bool.not_true, Bool.false_eq_true, if_false, if_true]

theorem editProduct_updated {h : Host} {f : Fresh} {s : Store} {id : String}
    {pd : ProductData} {p : Product} (hp : getProductById s (some id) = some p)
    (hv : (validateProductData h pd).valid = true)
    (hdup : productCodeExists s pd.code (some id) = false) :
    ∃ front back, s.products = front ++ p :: back ∧ (∀ a ∈ front, a.id ≠ id) ∧ p.id = id ∧
      editProduct h f s id pd =
        ({ s with products := front ++ (editPatch h pd).apply p f.now :: back },
         { success := true, product := some ((editPatch h pd).apply p f.now),
           message := "Producto actualizado exitosamente" }) := by
  obtain ⟨front, back, hsplit, hfront⟩ := getProductById_split hp
  have hid : p.id = id := by
    have := getProductById_some_id hp
    simpa using this.symm
  subst hid
  refine ⟨front, back, hsplit, hfront, rfl, ?_⟩
  unfold editProduct
  simp only [hp, hv, hdup, Bool.not_true, Bool.false_eq_true, if_false]
  have := updateProduct_split f.now s (editPatch h pd) hsplit hfront
  simp only [editPatch] at this
  rw [this]
  rfl

/-- C11. Edit never changes stock: whatever the id and the product data (whatever stock
it carries), and whether `editProduct` succeeds or fails, the products keep their
positions and ids and every product's persisted stock is its stock before the call. -/
theorem edit_never_changes_stock (h : Host) (f : Fresh) (s : Store) (id : String)
    (pd : ProductData) :
    (editProduct h f s id pd).1.products.map (fun p => (p.id, p.stock)) =
      s.products.map (fun p => (p.id, p.stock)) := by
  rcases editProduct_cases h f s id pd with hst |
    ⟨p, front, back, p', hsplit, -, -, hid, hstock, -, -, -, hst⟩
  · rw [hst]
  · rw [hst, hsplit]
    simp [hid, hstock]

/-- C12. Edit failure kinds and success effect. With no product of that id the result is
`Producto no encontrado`, whatever the data; otherwise, with invalid data, the joined
validation errors; otherwise, when a product of another id has the submitted code,
`Ya existe otro producto con ese código`; in these three cases the store is unchanged.
Otherwise the call succeeds: the first product of that id keeps its position, id,
`createdAt` and stock, takes the submitted code, name, description (or the empty text),
category, `Number(price)` and `Number(minStock)`, is the product returned, and every
other product is unchanged; in particular data carrying the product's own code succeeds
when no product of another id has that code. -/
theorem edit_postcondition (h : Host) (f : Fresh) (s : Store) (id : String)
    (pd : ProductData) :
    ((∀ p ∈ s.products, p.id ≠ id) →
      editProduct h f s id pd =
        (s, { success := false, product := none, message := "Producto no encontrado" })) ∧
    ((∃ p ∈ s.products, p.id = id) → (validateProductData h pd).valid = false →
      editProduct h f s id pd =
        (s, { success := false, product := none,
              message := ", ".intercalate (validateProductData h pd).errors })) ∧
    ((∃ p ∈ s.products, p.id = id) → (validateProductData h pd).valid = true →
      (∃ x ∈ s.products, some x.code = pd.code ∧ x.id ≠ id) →
      editProduct h f s id pd =
        (s, { success := false, product := none,
              message := "Ya existe otro producto con ese código" })) ∧
    (∀ p, getProductById s (some id) = some p → (validateProductData h pd).valid = true →
      (∀ x ∈ s.products, some x.code = pd.code → x.id = id) →
      ∃ front back p',
        s.products = front ++ p :: back ∧ (∀ a ∈ front, a.id ≠ id) ∧
        editProduct h f s id pd =
          ({ s with products := front ++ p' :: back },
           { success := true, product := some p',
             message := "Producto actualizado exitosamente" }) ∧
        p'.id = p.id ∧ p'.createdAt = p.createdAt ∧ p'.stock = p.stock ∧
        p'.updatedAt = f.now ∧
        some p'.code = pd.code ∧ some p'.name = pd.name ∧
        p'.description = pd.description.getD "" ∧ some p'.category = pd.category ∧
        jsNumber h pd.price = some p'.price ∧ jsNumber h pd.minStock = some p'.minStock) ∧
    (∀ p, getProductById s (some id) = some p → (validateProductData h pd).valid = true →
      pd.code = some p.code → (∀ x ∈ s.products, x.code = p.code → x.id = id) →
      (editProduct h f s id pd).2.success = true) := by
  have hfound : (∃ p ∈ s.products, p.id = id) → ∃ p, getProductById s (some id) = some p := by
    rintro ⟨p, hp, hpid⟩
    cases hg : getProductById s (some id) with
    | none => exact absurd hpid ((getProductById_none_iff s id).mp hg p hp)
    | some p₀ => exact ⟨p₀, rfl⟩
  have hsucc : ∀ p, getProductById s (some id) = some p →
      (validateProductData h pd).valid = true →
      (∀ x ∈ s.products, some x.code = pd.code → x.id = id) →
      productCodeExists s pd.code (some id) = false := by
    intro p _ _ hown
    cases hc : productCodeExists s pd.code (some id) with
    | false => rfl
    | true =>
      obtain ⟨x, hx, hcode, hne⟩ := (productCodeExists_some_iff s pd.code id).mp hc
      exact absurd (hown x hx hcode) hne
  refine ⟨?_, ?_, ?_, ?_, ?_⟩
  · intro hnone
    exact editProduct_notFound ((getProductById_none_iff s id).mpr hnone)
  · intro hex hv
    obtain ⟨p, hp⟩ := hfound hex
    exact editProduct_invalid hp hv
  · intro hex hv hdup
    obtain ⟨p, hp⟩ := hfound hex
    exact editProduct_duplicate hp hv ((productCodeExists_some_iff s pd.code id).mpr hdup)
  · intro p hp hv hown
    obtain ⟨front, back, hsplit, hfront, -, hedit⟩ :=
      editProduct_updated (f := f) hp hv (hsucc p hp hv hown)
    obtain ⟨hcode, hname, hcat, ⟨qp, hqp, -⟩, -, ⟨qm, hqm, -⟩⟩ := validateProductData_valid hv
    refine ⟨front, back, _, hsplit, hfront, hedit, rfl, rfl, rfl, rfl, ?_, ?_, ?_, ?_, ?_, ?_⟩
    · simpa [editPatch, ProductPatch.apply] using isEmpty_false_some hcode
    · simpa [editPatch, ProductPatch.apply] using isEmpty_false_some hname
    · simp only [editPatch, ProductPatch.apply, Option.getD_some]
      cases hd : pd.description with
      | none => rfl
      | some d =>
        by_cases hde : d = ""
        · simp [orEmpty, truthy, hde]
        · simp [orEmpty, truthy, hde]
    · simpa [editPatch, ProductPatch.apply] using isEmpty_false_some hcat
    · simp [editPatch, ProductPatch.apply, storedNumber_of_jsNumber hqp, hqp]
    · simp [editPatch, ProductPatch.apply, storedNumber_of_jsNumber hqm, hqm]
  · intro p hp hv hcode hown
    have hown2 : ∀ x ∈ s.products, some x.code = pd.code → x.id = id := by
      intro x hx hxc
      rw [hcode] at hxc
      exact hown x hx (Option.some.inj hxc)
    obtain ⟨front, back, -, -, -, hedit⟩ :=
      editProduct_updated (f := f) hp hv (hsucc p hp hv hown2)
    rw [hedit]

/-- Witness for C12, scenario F: the widget re-saved under its own code with new data. -/
theorem edit_postcondition_witness :
    (editProduct decimalHost tick shop "p1" widgetEdit).2.success = true :=
  (edit_postcondition decimalHost tick shop "p1" widgetEdit).2.2.2.2 widget
    (by decide!) (by decide!) (by decide) (by decide)

/-- C13. Remove is unconditional on history: with no product of that id `removeProduct`
returns `success = false` and leaves the store unchanged; with a product of that id it
returns `success = true`, the products collection becomes the previous one without the
products of that id, the others in their order, and the movements collection is
unchanged, whether or not movements refer to that id. -/
theorem remove_postcondition (s : Store) (id : String) :
    ((∀ p ∈ s.products, p.id ≠ id) →
      removeProduct s id = (s, { success := false, message := "Producto no encontrado" })) ∧
    ((∃ p ∈ s.products, p.id = id) →
      removeProduct s id =
        ({ s with products := s.products.filter (fun p => p.id != id) },
         { success := true, message := "Producto eliminado exitosamente" }) ∧
      (removeProduct s id).1.movements = s.movements ∧
      (∀ p, p ∈ (removeProduct s id).1.products ↔ p ∈ s.products ∧ p.id ≠ id) ∧
      (removeProduct s id).1.products.Sublist s.products) := by
  constructor
  · intro hnone
    unfold removeProduct
    simp only [(getProductById_none_iff s id).mpr hnone]
  · rintro ⟨p, hp, hpid⟩
    have hex : ∃ p₀, getProductById s (some id) = some p₀ := by
      cases hg : getProductById s (some id) with
      | none => exact absurd hpid ((getProductById_none_iff s id).mp hg p hp)
      | some p₀ => exact ⟨p₀, rfl⟩
    obtain ⟨p₀, hp₀⟩ := hex
    have hlen : (s.products.filter (fun p => p.id != id)).length ≠ s.products.length := by
      intro heq
      have hall := (List.filter_length_eq_length).mp heq p hp
      simp [hpid] at hall
    have hrem : removeProduct s id =
        ({ s with products := s.products.filter (fun p => p.id != id) },
         { success := true, message := "Producto eliminado exitosamente" }) := by
      unfold removeProduct deleteProduct
      simp [hp₀, hlen]
    refine ⟨hrem, ?_, ?_, ?_⟩
    · rw [hrem]
    · intro x
      rw [hrem]
      simp
    · rw [hrem]
      exact List.filter_sublist _

/-- Witness for C13: the widget removed although a movement refers to it. -/
theorem remove_postcondition_witness :
    removeProduct shopWithHistory "p1" =
        ({ shopWithHistory with
            products := shopWithHistory.products.filter (fun p => p.id != "p1") },
         { success := true, message := "Producto eliminado exitosamente" }) ∧
      (removeProduct shopWithHistory "p1").1.movements = [widgetMovement] ∧
      (∀ p, p ∈ (removeProduct shopWithHistory "p1").1.products ↔
        p ∈ shopWithHistory.products ∧ p.id ≠ "p1") ∧
      (removeProduct shopWithHistory "p1").1.products.Sublist shopWithHistory.products :=
  (remove_postcondition shopWithHistory "p1").2 ⟨widget, by decide, rfl⟩

/-! ## Exactness of the validations -/

theorem isEmpty_eq_isBlank (a : Option String) : isEmpty a = isBlank a := by
  cases a with
  | none => rfl
  | some t =>
    simp only [isEmpty, isBlank, truthy]
    by_cases ht : t = ""
    · subst ht
      decide
    · cases hl : trim t <;> simp [ht]

theorem isBlank_eq_false_iff (a : Option String) :
    isBlank a = false ↔ ∃ t, a = some t ∧ trim t ≠ [] := by
  cases a with
  | none => simp [isBlank]
  | some t => cases hl : trim t <;> simp [isBlank, hl]

theorem isPositiveNumber_eq_numberHolds (h : Host) (v : JSVal) :
    isPositiveNumber h v = numberHolds h v (fun q => decide (q > 0)) := by
  unfold isPositiveNumber isNaN numberGt numberHolds
  cases jsNumber h v <;> simp

theorem stockCheck_eq_numberHolds (h : Host) (v : JSVal) :
    (isNaN h v || numberLt h v 0) = !numberHolds h v (fun q => decide (q ≥ 0)) := by
  unfold isNaN numberLt numberHolds
  cases jsNumber h v with
  | none => simp
  | some q =>
    by_cases hq : q < 0
    · simp [hq, not_le.mpr hq]
    · simp [hq, not_lt.mp hq]

theorem numberHolds_iff (h : Host) (v : JSVal) (c : ℚ → Bool) :
    numberHolds h v c = true ↔ ∃ q, jsNumber h v = some q ∧ c q = true := by
  unfold numberHolds
  cases jsNumber h v <;> simp

/-- Pushing a message for each failed check collects the messages of the failed checks
in order. -/
theorem collect_six (b₁ b₂ b₃ b₄ b₅ b₆ : Bool) (m₁ m₂ m₃ m₄ m₅ m₆ : String) :
    ((((([] ++ (if b₁ then [m₁] else [])) ++ (if b₂ then [m₂] else [])) ++
      (if b₃ then [m₃] else [])) ++ (if b₄ then [m₄] else [])) ++
      (if b₅ then [m₅] else [])) ++ (if b₆ then [m₆] else []) =
    ([(b₁, m₁), (b₂, m₂), (b₃, m₃), (b₄, m₄), (b₅, m₅), (b₆, m₆)].filter
      (fun c => c.1)).map (fun c => c.2) := by
  cases b₁ <;> cases b₂ <;> cases b₃ <;> cases b₄ <;> cases b₅ <;> cases b₆ <;> rfl

theorem validateProductData_errors (h : Host) (pd : ProductData) :
    (validateProductData h pd).errors =
      ((productViolations h pd).filter (fun c => c.1)).map (fun c => c.2) := by
  have hcollect := collect_six (isEmpty pd.code) (isEmpty pd.name) (isEmpty pd.category)
    (!isPositiveNumber h pd.price) (isNaN h pd.stock || numberLt h pd.stock 0)
    (!isPositiveNumber h pd.minStock)
    "El código es requerido" "El nombre es requerido" "La categoría es requerida"
    "El precio debe ser un número positivo" "El stock debe ser un número mayor o igual a cero"
    "El stock mínimo debe ser un número positivo"
  rw [isEmpty_eq_isBlank, isEmpty_eq_isBlank, isEmpty_eq_isBlank,
    isPositiveNumber_eq_numberHolds, isPositiveNumber_eq_numberHolds,
    stockCheck_eq_numberHolds] at hcollect
  unfold productViolations
  rw [← hcollect]
  simp only [validateProductData, isEmpty_eq_isBlank, isPositiveNumber_eq_numberHolds,
    stockCheck_eq_numberHolds]

/-- C14. Product validation is an exact, non-short-circuited check: `valid` is true
exactly when code, name and category are non-blank (something is left after trimming),
`Number(price)` is a number above zero, `Number(stock)` a number at least zero and
`Number(minStock)` a number above zero; and `errors` holds exactly one message for each
violated condition, in the order code, name, category, price, stock, minimum stock, so
its length is the number of violated conditions. -/
theorem product_validation_exact (h : Host) (pd : ProductData) :
    ((validateProductData h pd).valid = true ↔
      (∃ t, pd.code = some t ∧ trim t ≠ []) ∧
      (∃ t, pd.name = some t ∧ trim t ≠ []) ∧
      (∃ t, pd.category = some t ∧ trim t ≠ []) ∧
      (∃ q, jsNumber h pd.price = some q ∧ 0 < q) ∧
      (∃ q, jsNumber h pd.stock = some q ∧ 0 ≤ q) ∧
      (∃ q, jsNumber h pd.minStock = some q ∧ 0 < q)) ∧
    (validateProductData h pd).errors =
      ((productViolations h pd).filter (fun c => c.1)).map (fun c => c.2) ∧
    (validateProductData h pd).errors.length =
      (productViolations h pd).countP (fun c => c.1) ∧
    ((validateProductData h pd).valid = true ↔
      ∀ c ∈ productViolations h pd, c.1 = false) := by
  have herrors := validateProductData_errors h pd
  have hvalid : (validateProductData h pd).valid = true ↔
      ∀ c ∈ productViolations h pd, c.1 = false := by
    have : (validateProductData h pd).valid = true ↔ (validateProductData h pd).errors = [] := by
      simp [validateProductData]
    rw [this, herrors]
    simp [List.filter_eq_nil_iff]
  refine ⟨?_, herrors, ?_, hvalid⟩
  · rw [hvalid]
    simp only [productViolations, List.mem_cons, List.mem_singleton, forall_eq_or_imp,
      forall_eq, Bool.not_eq_false', isBlank_eq_false_iff, numberHolds_iff,
      decide_eq_true_eq, List.not_mem_nil, false_implies, implies_true, and_true, gt_iff_lt,
      ge_iff_le, List.mem_nil_iff, IsEmpty.forall_iff]
  · rw [herrors, List.length_map, List.countP_eq_length_filter]

/-- Witness for C14: a blank code, a price of zero and a missing minimum stock give
three messages in the order of the checks. -/
theorem product_validation_exact_witness :
    (validateProductData decimalHost faultyData).errors =
      ["El código es requerido", "El precio debe ser un número positivo",
       "El stock mínimo debe ser un número positivo"] :=
  (product_validation_exact decimalHost faultyData).2.1.trans (by decide!)

theorem numberGt_eq_numberHolds (h : Host) (v : JSVal) (bound : ℚ) :
    numberGt h v bound = numberHolds h v (fun q => decide (q > bound)) := by
  unfold numberGt numberHolds
  cases jsNumber h v <;> rfl

theorem typeCheck_eq (type : Option String) :
    (!truthy type ||
      !(match type with
        | some t => MOVEMENT_TYPES.contains t
        | none => false)) =
    !(type == some ENTRADA || type == some SALIDA) := by
  cases type with
  | none => rfl
  | some t =>
    by_cases h1 : t = ENTRADA
    · subst h1; decide
    · by_cases h2 : t = SALIDA
      · subst h2; decide
      · have ht : truthy (some t) = true ∨ truthy (some t) = false := by
          cases truthy (some t) <;> simp
        rcases ht with ht | ht <;> simp [MOVEMENT_TYPES, h1, h2, ht]

theorem validateMovementData_errors (h : Host) (s : Store) (md : MovementData) :
    (validateMovementData h s md).errors =
      ((movementViolations h s md).filter (fun c => c.1)).map (fun c => c.2) := by
  simp only [validateMovementData, movementViolations, typeCheck_eq,
    isPositiveNumber_eq_numberHolds, isEmpty_eq_isBlank, numberGt_eq_numberHolds,
    List.nil_append]
  cases truthy md.productId <;> cases getProductById s md.productId <;>
    cases (md.type == some ENTRADA || md.type == some SALIDA) <;>
    cases numberHolds h md.quantity (fun q => decide (q > 0)) <;>
    cases isBlank md.reason <;>
    cases hsal : (md.type == some SALIDA) <;>
    simp [List.filter_cons, hsal] <;>
    split <;> simp_all

/-- The requests that pass validation, on any store: `valid` is true exactly when the
given product id is non-empty and a product of that id exists, the type is `entrada` or
`salida`, `Number(quantity)` is a number above zero, the reason is non-blank, and, for a
`salida`, the quantity does not exceed the product's stock; and `errors` holds, in the
order of the checks, the message of every violated condition. -/
theorem validateMovementData_exact (h : Host) (s : Store) (md : MovementData) :
    ((validateMovementData h s md).valid = true ↔
      ∃ id p q, md.productId = some id ∧ id ≠ "" ∧ getProductById s (some id) = some p ∧
        (md.type = some ENTRADA ∨ md.type = some SALIDA) ∧
        jsNumber h md.quantity = some q ∧ 0 < q ∧
        (∃ t, md.reason = some t ∧ trim t ≠ []) ∧
        (md.type = some SALIDA → q ≤ p.stock)) ∧
    (validateMovementData h s md).errors =
      ((movementViolations h s md).filter (fun c => c.1)).map (fun c => c.2) ∧
    ((validateMovementData h s md).valid = true ↔
      ∀ c ∈ movementViolations h s md, c.1 = false) := by
  have herrors := validateMovementData_errors h s md
  refine ⟨?_, herrors, ?_⟩
  · rw [validateMovementData_valid_iff]
    constructor
    · rintro ⟨hid, ⟨p, hp⟩, htype, ⟨q, hq, hpos⟩, hreason, hstock⟩
      cases hpid : md.productId with
      | none => simp [hpid, truthy] at hid
      | some id =>
        refine ⟨id, p, q, rfl, ?_, by rw [← hpid]; exact hp, htype, hq, hpos, ?_, ?_⟩
        · simpa [hpid, truthy] using hid
        · rw [isEmpty_eq_isBlank] at hreason
          exact (isBlank_eq_false_iff _).mp hreason
        · intro ht
          have hgt := hstock ht p hp
          by_contra hc
          have : numberGt h md.quantity p.stock = true :=
            (numberGt_iff _ _ _).mpr ⟨q, hq, not_le.mp hc⟩
          rw [hgt] at this
          cases this
    · rintro ⟨id, p, q, hpid, hne, hp, htype, hq, hpos, hreason, hstock⟩
      refine ⟨by simp [hpid, truthy, hne], ⟨p, by rw [hpid]; exact hp⟩, htype,
        ⟨q, hq, hpos⟩, ?_, ?_⟩
      · rw [isEmpty_eq_isBlank]
        exact (isBlank_eq_false_iff _).mpr hreason
      · intro ht p₂ hp₂
        rw [hpid, hp] at hp₂
        cases hp₂
        cases hgt : numberGt h md.quantity p.stock with
        | false => rfl
        | true =>
          obtain ⟨q₂, hq₂, hlt⟩ := (numberGt_iff _ _ _).mp hgt
          rw [hq] at hq₂
          cases hq₂
          exact absurd hlt (not_lt.mpr (hstock ht))
  · rw [valid_iff_errors, herrors]
    simp [List.filter_eq_nil_iff]

/-- C15. Movement validation is exact: on a store whose product ids are not empty, as
in every store written by the operations, `valid` is true exactly when a product with the
given product id exists, the type is `entrada` or `salida`, `Number(quantity)` is a number
above zero, the reason is non-blank, and, for a `salida`, the quantity does not exceed the
product's stock; and `errors` holds, in the order of the checks, the message of every
violated condition, so the request is valid exactly when no condition is violated. -/
theorem movement_validation_exact (h : Host) (s : Store) (md : MovementData)
    (hids : ∀ x ∈ s.products, x.id ≠ "") :
    ((validateMovementData h s md).valid = true ↔
      ∃ p q, getProductById s md.productId = some p ∧
        (md.type = some ENTRADA ∨ md.type = some SALIDA) ∧
        jsNumber h md.quantity = some q ∧ 0 < q ∧
        (∃ t, md.reason = some t ∧ trim t ≠ []) ∧
        (md.type = some SALIDA → q ≤ p.stock)) ∧
    (validateMovementData h s md).errors =
      ((movementViolations h s md).filter (fun c => c.1)).map (fun c => c.2) ∧
    ((validateMovementData h s md).valid = true ↔
      ∀ c ∈ movementViolations h s md, c.1 = false) := by
  obtain ⟨hvalid, herrors, hnone⟩ := validateMovementData_exact h s md
  refine ⟨?_, herrors, hnone⟩
  rw [hvalid]
  constructor
  · rintro ⟨id, p, q, hpid, -, hp, hrest⟩
    exact ⟨p, q, by rw [hpid]; exact hp, hrest⟩
  · rintro ⟨p, q, hp, hrest⟩
    have hpid := getProductById_some_id hp
    exact ⟨p.id, p, q, hpid, hids p (getProductById_mem hp), by rw [← hpid]; exact hp, hrest⟩

/-- Witness for C15: the exit of 10 on a stock of 5 violates the last condition only. -/
theorem movement_validation_exact_witness :
    (validateMovementData decimalHost shop exit10).errors =
      ["Stock insuficiente. Disponible: 5 unidades"] :=
  (movement_validation_exact decimalHost shop exit10 (by decide)).2.1.trans (by decide!)

/-! ## Dry run and raised errors -/

theorem registerMovement_succeeds_iff (h : Host) (f : Fresh) (s : Store) (md : MovementData) :
    (∃ r, (registerMovement h f s md).result? = some r ∧ r.success = true) ↔
      ∃ p q u, (validateMovementData h s md).valid = true ∧
        getProductById s md.productId = some p ∧ jsNumber h md.quantity = some q ∧
        0 ≤ p.stock + signedQuantity md q ∧ s.currentUser = some u := by
  constructor
  · rintro ⟨r, hr, hs⟩
    obtain ⟨p, front, back, u, q, hv, hp, -, -, hq, -, hu, hnew, -, -⟩ :=
      registerMovement_success hr hs
    exact ⟨p, q, u, hv, hp, hq, hnew, hu⟩
  · rintro ⟨p, q, u, hv, hp, hq, hnew, hu⟩
    obtain ⟨front, back, -, -, -, hres⟩ := registerMovement_ok (f := f) hv hp hq hnew hu
    exact ⟨_, hres, rfl⟩

/-- C16, as amended. Dry-run agrees with commit: with a current user, stocks at least
zero, a non-empty product id, a type that is `entrada` or `salida`, a quantity that is a
number above zero and a non-blank reason, `canPerformMovement(productId, type, quantity)`
answers `canMove = true` exactly when `registerMovement` on the same product id, type and
quantity succeeds, and exactly when the product exists and its stock plus the signed
quantity is at least zero. -/
theorem dry_run_agrees (h : Host) (f : Fresh) (s : Store) (md : MovementData) (q : ℚ)
    (u : User) (hu : s.currentUser = some u)
    (hstock : ∀ p ∈ s.products, 0 ≤ p.stock)
    (hid : truthy md.productId = true)
    (htype : md.type = some ENTRADA ∨ md.type = some SALIDA)
    (hq : jsNumber h md.quantity = some q) (hpos : 0 < q)
    (hreason : isEmpty md.reason = false) :
    ((canPerformMovement h s md.productId md.type md.quantity).canMove = true ↔
      ∃ r, (registerMovement h f s md).result? = some r ∧ r.success = true) ∧
    ((canPerformMovement h s md.productId md.type md.quantity).canMove = true ↔
      ∃ p, getProductById s md.productId = some p ∧ 0 ≤ p.stock + signedQuantity md q) := by
  have hcan : (canPerformMovement h s md.productId md.type md.quantity).canMove = true ↔
      ∃ p, getProductById s md.productId = some p ∧ 0 ≤ p.stock + signedQuantity md q := by
    unfold canPerformMovement
    cases hp : getProductById s md.productId with
    | none => simp
    | some p =>
      have hp0 := hstock p (getProductById_mem hp)
      rcases htype with ht | ht
      · have hne : ¬ (ENTRADA = SALIDA) := by decide
        have hsq : signedQuantity md q = q := by simp [signedQuantity, ht]
        have hcond : (md.type == some SALIDA && numberGt h md.quantity p.stock) = false := by
          simp [ht, hne]
        refine iff_of_true ?_ ⟨p, rfl, by rw [hsq]; linarith⟩
        simp only [hcond, Bool.false_eq_true, if_false]
      · have hne : ¬ (SALIDA = ENTRADA) := by decide
        have hsq : signedQuantity md q = -q := by simp [signedQuantity, ht, hne]
        by_cases hgt : p.stock < q
        · have hg : numberGt h md.quantity p.stock = true :=
            (numberGt_iff _ _ _).mpr ⟨q, hq, hgt⟩
          have hcond : (md.type == some SALIDA && numberGt h md.quantity p.stock) = true := by
            simp [ht, hg]
          refine iff_of_false ?_ ?_
          · simp only [hcond, if_true]
            decide
          · rintro ⟨p₂, hp₂, hnew⟩
            cases hp₂
            rw [hsq] at hnew
            linarith
        · have hg : numberGt h md.quantity p.stock = false := by
            cases hgt2 : numberGt h md.quantity p.stock with
            | false => rfl
            | true =>
              obtain ⟨q₂, hq₂, hlt⟩ := (numberGt_iff _ _ _).mp hgt2
              rw [hq] at hq₂
              cases hq₂
              exact absurd hlt hgt
          have hcond : (md.type == some SALIDA && numberGt h md.quantity p.stock) = false := by
            simp [hg]
          refine iff_of_true ?_ ⟨p, rfl, by rw [hsq]; linarith⟩
          simp only [hcond, Bool.false_eq_true, if_false]
  refine ⟨?_, hcan⟩
  rw [hcan, registerMovement_succeeds_iff]
  constructor
  · rintro ⟨p, hp, hnew⟩
    refine ⟨p, q, u, ?_, hp, hq, hnew, hu⟩
    rw [validateMovementData_valid_iff]
    refine ⟨hid, ⟨p, hp⟩, htype, ⟨q, hq, hpos⟩, hreason, ?_⟩
    intro ht p₂ hp₂
    rw [hp] at hp₂
    cases hp₂
    have hne : ¬ (SALIDA = ENTRADA) := by decide
    have hsq : signedQuantity md q = -q := by simp [signedQuantity, ht, hne]
    cases hgt2 : numberGt h md.quantity p.stock with
    | false => rfl
    | true =>
      obtain ⟨q₂, hq₂, hlt⟩ := (numberGt_iff _ _ _).mp hgt2
      rw [hq] at hq₂
      cases hq₂
      rw [hsq] at hnew
      linarith
  · rintro ⟨p, q₂, u₂, -, hp, hq₂, hnew, -⟩
    rw [hq] at hq₂
    cases hq₂
    exact ⟨p, hp, hnew⟩

/-- Witness for C16 as amended: the exit of 3 on a stock of 5 can move and is
registered. -/
theorem dry_run_agrees_witness :
    (canPerformMovement decimalHost shop exit3.productId exit3.type exit3.quantity).canMove
        = true ↔
      ∃ r, (registerMovement decimalHost tick shop exit3).result? = some r ∧
        r.success = true :=
  (dry_run_agrees decimalHost tick shop exit3 3 admin rfl (by decide!) (by decide)
    (by decide) (by decide!) (by decide!) (by decide)).1

/-- Counterexample to C16 as stated, with a current user and a non-blank reason each
time: the dry run answers `canMove = true` while the registration is rejected, for a
quantity of -10 (where the stock plus the signed quantity is negative as well), for a
type that is not a movement type, for a product stored under the empty id and for an
entry on a negative stock. -/
theorem dry_run_agrees_counterexample :
    ((canPerformMovement decimalHost shop entryMinus10.productId entryMinus10.type
        entryMinus10.quantity).canMove = true ∧
      (registerMovement decimalHost tick shop entryMinus10).result? = some
        { success := false, movement := none,
          message := "La cantidad debe ser un número positivo" } ∧
      widget.stock + signedQuantity entryMinus10 (-10) < 0) ∧
    ((canPerformMovement decimalHost shop adjust1.productId adjust1.type
        adjust1.quantity).canMove = true ∧
      (registerMovement decimalHost tick shop adjust1).result? = some
        { success := false, movement := none, message := "Tipo de movimiento inválido" }) ∧
    ((canPerformMovement decimalHost anonymousShop entryAnonymous.productId
        entryAnonymous.type entryAnonymous.quantity).canMove = true ∧
      (registerMovement decimalHost tick anonymousShop entryAnonymous).result? = some
        { success := false, movement := none, message := "Debe seleccionar un producto" }) ∧
    ((canPerformMovement decimalHost overdrawnShop entry5.productId entry5.type
        entry5.quantity).canMove = true ∧
      (registerMovement decimalHost tick overdrawnShop entry5).result? = some
        { success := false, movement := none,
          message := "La operación resultaría en stock negativo" }) := by
  decide!

/-- C17, the code at the failing input. A call of `registerMovement` raises exactly when
the request passes every check and no current user is stored; in particular the entry of
20 units, valid on the scenario store, raises once the user has logged out, and nothing
is written. -/
theorem register_without_user_raises :
    (∀ (h : Host) (f : Fresh) (s : Store) (md : MovementData),
      (registerMovement h f s md).result? = none ↔
        ∃ p q, (validateMovementData h s md).valid = true ∧
          getProductById s md.productId = some p ∧ jsNumber h md.quantity = some q ∧
          0 ≤ p.stock + signedQuantity md q ∧ s.currentUser = none) ∧
    (validateMovementData decimalHost loggedOutShop entry20).valid = true ∧
    registerMovement decimalHost tick loggedOutShop entry20 = .threw loggedOutShop := by
  refine ⟨?_, by decide!, by decide!⟩
  intro h f s md
  by_cases hv : (validateMovementData h s md).valid = true
  swap
  · rw [registerMovement_invalid (by simpa using hv)]
    simp [Outcome.result?, hv]
  obtain ⟨-, ⟨p, hp⟩, -, ⟨q, hq, -⟩, -, -⟩ := validateMovementData_valid hv
  rw [registerMovement_valid hv hp hq]
  by_cases hneg : p.stock + signedQuantity md q < 0
  · simp only [hneg, if_true, Outcome.result?]
    constructor
    · intro hc; cases hc
    · rintro ⟨p₂, q₂, -, hp₂, hq₂, hnew, -⟩
      rw [hp] at hp₂
      rw [hq] at hq₂
      cases hp₂
      cases hq₂
      linarith
  · cases hu : s.currentUser with
    | none =>
      refine iff_of_true ?_ ⟨p, q, hv, hp, hq, not_lt.mp hneg, rfl⟩
      simp only [hneg, if_false, Outcome.result?]
    | some u =>
      refine iff_of_false ?_ ?_
      · simp only [hneg, if_false, Outcome.result?]
        intro hc
        cases hc
      · rintro ⟨p₂, q₂, -, -, -, -, hnone⟩
        cases hnone

/-! ## Stock levels -/

theorem percentage_le_iff {stock minStock : ℚ} (hmin : 0 < minStock) :
    stock / minStock * 100 ≤ 150 ↔ 100 * stock ≤ 150 * minStock := by
  rw [div_mul_eq_mul_div, div_le_iff₀ hmin]
  constructor <;> intro hle <;> linarith

/-- The four answers of `getStockStatus`, by the case that holds. -/
theorem getStockStatus_cases {stock minStock : ℚ} (hstock : 0 ≤ stock) (hmin : 0 < minStock) :
    (stock = 0 ∧ getStockStatus stock minStock =
      { text := "Sin Stock", className := "danger", badge := "badge-stock-bajo" }) ∨
    (0 < stock ∧ stock ≤ minStock ∧ getStockStatus stock minStock =
      { text := "Stock Bajo", className := "warning", badge := "badge-stock-bajo" }) ∨
    (minStock < stock ∧ 100 * stock ≤ 150 * minStock ∧ getStockStatus stock minStock =
      { text := "Stock Normal", className := "success", badge := "badge-stock-normal" }) ∨
    (minStock < stock ∧ 150 * minStock < 100 * stock ∧ getStockStatus stock minStock =
      { text := "Stock Alto", className := "info", badge := "badge-stock-alto" }) := by
  unfold getStockStatus
  by_cases h0 : stock = 0
  · left
    exact ⟨h0, by simp [h0]⟩
  · right
    have hpos : 0 < stock := lt_of_le_of_ne hstock (Ne.symm h0)
    by_cases hle : stock ≤ minStock
    · left
      exact ⟨hpos, hle, by simp [h0, hle]⟩
    · right
      have hlt : minStock < stock := not_le.mp hle
      by_cases hpct : stock / minStock * 100 ≤ 150
      · left
        exact ⟨hlt, (percentage_le_iff hmin).mp hpct, by simp [h0, hle, hpct]⟩
      · right
        refine ⟨hlt, ?_, by simp [h0, hle, hpct]⟩
        by_contra hc
        exact hpct ((percentage_le_iff hmin).mpr (not_lt.mp hc))

/-- The level of a status is `bajo`, `normal` or `alto` according to the thresholds. -/
theorem stockLevelOf_status {stock minStock : ℚ} (hstock : 0 ≤ stock) (hmin : 0 < minStock) :
    (stock ≤ minStock ∧
      stockLevelOf (getStockStatus stock minStock).text = some "bajo" ∧
      (getStockStatus stock minStock).badge = "badge-stock-bajo") ∨
    (minStock < stock ∧ stock / minStock * 100 ≤ 150 ∧
      stockLevelOf (getStockStatus stock minStock).text = some "normal" ∧
      (getStockStatus stock minStock).badge = "badge-stock-normal") ∨
    (minStock < stock ∧ 150 < stock / minStock * 100 ∧
      stockLevelOf (getStockStatus stock minStock).text = some "alto" ∧
      (getStockStatus stock minStock).badge = "badge-stock-alto") := by
  rcases getStockStatus_cases hstock hmin with ⟨h0, hst⟩ | ⟨hpos, hle, hst⟩ |
    ⟨hlt, hpct, hst⟩ | ⟨hlt, hpct, hst⟩
  · left
    rw [hst]
    exact ⟨by rw [h0]; exact le_of_lt hmin, by decide, rfl⟩
  · left
    rw [hst]
    exact ⟨hle, by decide, rfl⟩
  · right; left
    rw [hst]
    exact ⟨hlt, (percentage_le_iff hmin).mpr hpct, by decide, rfl⟩
  · right; right
    rw [hst]
    refine ⟨hlt, ?_, by decide, rfl⟩
    by_contra hc
    have := (percentage_le_iff hmin).mp (not_lt.mp hc)
    linarith

/-- C19. One source of truth for stock level: on products with `stock ≥ 0` and
`minStock > 0`, for each level among `bajo`, `normal` and `alto`,
`filterProductsByStockLevel(level)` and `applyProductFilters({stockLevel: level})` return
the same list; a product is in it exactly when it is stored and `getStockStatus` puts it
at that level (`bajo` for `Sin Stock` and `Stock Bajo`, `normal` for `Stock Normal`,
`alto` for `Stock Alto`); hence every stored product is at exactly one of the three
levels. -/
theorem stock_level_single_source (h : Host) (s : Store)
    (hs : ∀ p ∈ s.products, 0 ≤ p.stock ∧ 0 < p.minStock) :
    (∀ level, level = "bajo" ∨ level = "normal" ∨ level = "alto" →
      filterProductsByStockLevel s level =
        applyProductFilters h s { stockLevel := some level } ∧
      ∀ p, p ∈ filterProductsByStockLevel s level ↔
        p ∈ s.products ∧ stockLevelOf (getStockStatus p.stock p.minStock).text = some level) ∧
    (∀ p ∈ s.products, ∃! level, (level = "bajo" ∨ level = "normal" ∨ level = "alto") ∧
      p ∈ filterProductsByStockLevel s level) := by
  have hmem : ∀ level, level = "bajo" ∨ level = "normal" ∨ level = "alto" →
      ∀ p, p ∈ filterProductsByStockLevel s level ↔
        p ∈ s.products ∧
          stockLevelOf (getStockStatus p.stock p.minStock).text = some level := by
    intro level hlevel p
    constructor
    · intro hp
      have hps : p ∈ s.products := by
        rcases hlevel with rfl | rfl | rfl <;>
          simp only [filterProductsByStockLevel] at hp <;>
          exact List.mem_of_mem_filter hp
      refine ⟨hps, ?_⟩
      obtain ⟨h0, hmin⟩ := hs p hps
      rcases hlevel with rfl | rfl | rfl
      · have hp2 : p.stock ≤ p.minStock := by
          simpa [filterProductsByStockLevel, hps] using hp
        rcases stockLevelOf_status h0 hmin with ⟨-, hl, -⟩ | ⟨hlt, -⟩ | ⟨hlt, -⟩
        · exact hl
        · linarith
        · linarith
      · have hp2 : p.minStock < p.stock ∧ p.stock / p.minStock * 100 ≤ 150 := by
          have hne : ¬ ("normal" = "bajo") := by decide
          simpa [filterProductsByStockLevel, hps, hne] using hp
        rcases stockLevelOf_status h0 hmin with ⟨hle, -⟩ | ⟨-, -, hl, -⟩ | ⟨-, hgt, -⟩
        · linarith
        · exact hl
        · linarith
      · have hp2 : 150 < p.stock / p.minStock * 100 := by
          have hne : ¬ ("alto" = "bajo") := by decide
          have hne2 : ¬ ("alto" = "normal") := by decide
          simpa [filterProductsByStockLevel, hps, hne, hne2] using hp
        rcases stockLevelOf_status h0 hmin with ⟨hle, -⟩ | ⟨-, hle, -⟩ | ⟨-, -, hl, -⟩
        · have hle2 : p.stock / p.minStock * 100 ≤ 150 := by
            rw [percentage_le_iff hmin]
            linarith
          linarith
        · linarith
        · exact hl
    · rintro ⟨hps, hl⟩
      obtain ⟨h0, hmin⟩ := hs p hps
      rcases stockLevelOf_status h0 hmin with ⟨hle, hl2, -⟩ | ⟨hlt, hpct, hl2, -⟩ |
        ⟨hlt, hpct, hl2, -⟩
      · rw [hl2] at hl
        cases hl
        simp [filterProductsByStockLevel, hps, hle]
      · rw [hl2] at hl
        cases hl
        have hne : ¬ ("normal" = "bajo") := by decide
        simp [filterProductsByStockLevel, hps, hne, hlt, hpct]
      · rw [hl2] at hl
        cases hl
        have hne : ¬ ("alto" = "bajo") := by decide
        have hne2 : ¬ ("alto" = "normal") := by decide
        simp [filterProductsByStockLevel, hps, hne, hne2, hpct]
  refine ⟨?_, ?_⟩
  · intro level hlevel
    refine ⟨?_, hmem level hlevel⟩
    have htruthy : truthy (some level) = true := by
      rcases hlevel with rfl | rfl | rfl <;> decide
    simp only [applyProductFilters, htruthy, if_true]
    have hnone : truthy (none : Option String) = false := rfl
    simp only [hnone, Bool.false_eq_true, if_false]
    rcases hlevel with rfl | rfl | rfl
    · simp [filterProductsByStockLevel]
    · have hne : ¬ ("normal" = "bajo") := by decide
      simp only [filterProductsByStockLevel, hne, if_false, if_true]
      apply List.filter_congr
      intro p hps
      obtain ⟨h0, hmin⟩ := hs p hps
      rcases stockLevelOf_status h0 hmin with ⟨hle, -, hb⟩ | ⟨hlt, hpct, -, hb⟩ |
        ⟨hlt, hpct, -, hb⟩
      · simp [hb, hne, not_lt.mpr hle]
      · simp [hb, hne, hlt, hpct]
      · simp [hb, hne, hlt, not_le.mpr hpct]
    · have hne : ¬ ("alto" = "bajo") := by decide
      have hne2 : ¬ ("alto" = "normal") := by decide
      simp only [filterProductsByStockLevel, hne, hne2, if_false, if_true]
      apply List.filter_congr
      intro p hps
      obtain ⟨h0, hmin⟩ := hs p hps
      rcases stockLevelOf_status h0 hmin with ⟨hle, -, hb⟩ | ⟨hlt, hpct, -, hb⟩ |
        ⟨hlt, hpct, -, hb⟩
      · have hle2 : p.stock / p.minStock * 100 ≤ 150 := by
          rw [percentage_le_iff hmin]
          linarith
        simp [hb, hne, hne2, not_lt.mpr hle2]
      · simp [hb, hne, hne2, not_lt.mpr hpct]
      · simp [hb, hne, hne2, hpct]
  · intro p hps
    obtain ⟨h0, hmin⟩ := hs p hps
    have hex : ∃ level, (level = "bajo" ∨ level = "normal" ∨ level = "alto") ∧
        stockLevelOf (getStockStatus p.stock p.minStock).text = some level := by
      rcases stockLevelOf_status h0 hmin with ⟨-, hl, -⟩ | ⟨-, -, hl, -⟩ | ⟨-, -, hl, -⟩
      · exact ⟨"bajo", Or.inl rfl, hl⟩
      · exact ⟨"normal", Or.inr (Or.inl rfl), hl⟩
      · exact ⟨"alto", Or.inr (Or.inr rfl), hl⟩
    obtain ⟨level, hlevel, hl⟩ := hex
    refine ⟨level, ⟨hlevel, (hmem level hlevel p).mpr ⟨hps, hl⟩⟩, ?_⟩
    rintro other ⟨hother, hin⟩
    have := ((hmem other hother p).mp hin).2
    rw [hl] at this
    exact (Option.some.inj this).symm

/-- Witness for C19: on a store with one product at each level, the two filters agree
on `normal` and return the product with stock 12 of 10. -/
theorem stock_level_single_source_witness :
    filterProductsByStockLevel warehouse "normal" =
        applyProductFilters decimalHost warehouse { stockLevel := some "normal" } ∧
      ∀ p, p ∈ filterProductsByStockLevel warehouse "normal" ↔
        p ∈ warehouse.products ∧
          stockLevelOf (getStockStatus p.stock p.minStock).text = some "normal" :=
  (stock_level_single_source decimalHost warehouse (by decide!)).1 "normal"
    (Or.inr (Or.inl rfl))

/-! ## Rollup by day -/

theorem getMovementsByDay_getElem (cal : Calendar) (now : Int) (s : Store) (n k : Nat)
    (hk : k < n) :
    (getMovementsByDay cal now s n)[k]? = some
      { date := cal.formatDate (cal.startOfDay (cal.dayOf now - ((n - 1 - k : Nat) : Int)))
        entradas := s.movements.countP (fun m =>
          createdOn cal (cal.dayOf now - ((n - 1 - k : Nat) : Int)) m && m.type == ENTRADA)
        salidas := s.movements.countP (fun m =>
          createdOn cal (cal.dayOf now - ((n - 1 - k : Nat) : Int)) m && m.type == SALIDA)
        total := s.movements.countP
          (createdOn cal (cal.dayOf now - ((n - 1 - k : Nat) : Int))) } := by
  unfold getMovementsByDay
  have hrev : (List.range n).reverse[k]? = some (n - 1 - k) := by
    rw [List.getElem?_reverse (by simpa using hk)]
    simp only [List.length_range]
    rw [List.getElem?_range (by omega)]
  simp only [List.getElem?_map, hrev, Option.map_some', List.filter_filter,
    List.countP_eq_length_filter]
  simp only [createdOn, ge_iff_le, Bool.and_comm]
  rfl

/-- The intervals of two different days do not meet when the day starts are ordered. -/
theorem createdOn_unique (cal : Calendar) (hmono : Monotone cal.startOfDay) (m : Movement)
    {d₁ d₂ : Int} (h₁ : createdOn cal d₁ m = true) (h₂ : createdOn cal d₂ m = true) :
    d₁ = d₂ := by
  simp only [createdOn, Bool.and_eq_true, decide_eq_true_eq] at h₁ h₂
  by_contra hne
  rcases lt_or_gt_of_ne hne with hlt | hgt
  · have := hmono (show d₁ + 1 ≤ d₂ by omega)
    omega
  · have := hmono (show d₂ + 1 ≤ d₁ by omega)
    omega

/-- C20. Daily rollup shape: `getMovementsByDay(n)` returns exactly `n` buckets; the
bucket at position `k` is that of the local day `n - 1 - k` days before the current one,
so the oldest day comes first and the last bucket is the current local day; its `total`
is the number of movements created from the start of that local day to the start of the
next one, excluded, its `entradas` and `salidas` the numbers of those of type `entrada`
and `salida`; the day starts being ordered in time, a movement is counted in at most one
bucket and a movement created before the oldest of the `n` days in none. -/
theorem daily_rollup_shape (cal : Calendar) (now : Int) (s : Store) (n : Nat)
    (hmono : Monotone cal.startOfDay) :
    (getMovementsByDay cal now s n).length = n ∧
    (∀ k, k < n →
      (getMovementsByDay cal now s n)[k]? = some
        { date := cal.formatDate (cal.startOfDay (cal.dayOf now - ((n - 1 - k : Nat) : Int)))
          entradas := s.movements.countP (fun m =>
            createdOn cal (cal.dayOf now - ((n - 1 - k : Nat) : Int)) m && m.type == ENTRADA)
          salidas := s.movements.countP (fun m =>
            createdOn cal (cal.dayOf now - ((n - 1 - k : Nat) : Int)) m && m.type == SALIDA)
          total := s.movements.countP
            (createdOn cal (cal.dayOf now - ((n - 1 - k : Nat) : Int))) }) ∧
    (0 < n → ∃ b, (getMovementsByDay cal now s n)[n - 1]? = some b ∧
      b.total = s.movements.countP (createdOn cal (cal.dayOf now))) ∧
    (∀ m ∈ s.movements, ∀ j k, j < n → k < n →
      createdOn cal (cal.dayOf now - ((n - 1 - j : Nat) : Int)) m = true →
      createdOn cal (cal.dayOf now - ((n - 1 - k : Nat) : Int)) m = true → j = k) ∧
    (∀ m ∈ s.movements,
      m.createdAt < cal.startOfDay (cal.dayOf now - ((n - 1 : Nat) : Int)) →
      ∀ k, k < n → createdOn cal (cal.dayOf now - ((n - 1 - k : Nat) : Int)) m = false) := by
  refine ⟨?_, ?_, ?_, ?_, ?_⟩
  · simp [getMovementsByDay]
  · intro k hk
    exact getMovementsByDay_getElem cal now s n k hk
  · intro hn
    refine ⟨_, getMovementsByDay_getElem cal now s n (n - 1) (by omega), ?_⟩
    have : ((n - 1 - (n - 1) : Nat) : Int) = 0 := by simp
    simp only [this, sub_zero]
  · intro m _ j k hj hk h₁ h₂
    have := createdOn_unique cal hmono m h₁ h₂
    omega
  · intro m _ hold k hk
    cases hc : createdOn cal (cal.dayOf now - ((n - 1 - k : Nat) : Int)) m with
    | false => rfl
    | true =>
      simp only [createdOn, Bool.and_eq_true, decide_eq_true_eq] at hc
      have := hmono (show cal.dayOf now - ((n - 1 : Nat) : Int) ≤
        cal.dayOf now - ((n - 1 - k : Nat) : Int) by omega)
      omega

/-- Witness for C20, scenario D: three buckets for a store whose only movement is five
days old, all counts zero, oldest day first. -/
theorem daily_rollup_shape_witness :
    (getMovementsByDay utc noonOfDay10 staleShop 3).length = 3 ∧
    getMovementsByDay utc noonOfDay10 staleShop 3 =
      [{ date := "8", entradas := 0, salidas := 0, total := 0 },
       { date := "9", entradas := 0, salidas := 0, total := 0 },
       { date := "10", entradas := 0, salidas := 0, total := 0 }] :=
  ⟨(daily_rollup_shape utc noonOfDay10 staleShop 3
      (fun a b hab => Int.mul_le_mul_of_nonneg_right hab (by decide))).1, by decide⟩

/-! ## Integers, warnings and frames of a registration -/

theorem isInteger_add {a b : ℚ} (ha : isInteger a = true) (hb : isInteger b = true) :
    isInteger (a + b) = true := by
  simp only [isInteger, beq_iff_eq] at *
  rw [Rat.den_eq_one_iff] at ha hb
  rw [← ha, ← hb, ← Int.cast_add]
  exact Rat.den_intCast _

theorem isInteger_neg {a : ℚ} (ha : isInteger a = true) : isInteger (-a) = true := by
  simp only [isInteger, beq_iff_eq] at *
  simpa using ha

/-- C27, as amended. Whole stocks and quantities stay whole when whole values are
submitted: from a store in which every stock is an integer, a successful `createProduct`
whose `Number(stock)` is an integer and a successful `registerMovement` whose
`Number(quantity)` is an integer leave every stock an integer, and the quantity recorded
on the new movement is an integer. -/
theorem integers_preserved (h : Host) (f : Fresh) (s : Store)
    (hs : ∀ p ∈ s.products, isInteger p.stock = true) :
    (∀ pd q, (createProduct h f s pd).2.success = true → jsNumber h pd.stock = some q →
      isInteger q = true →
      ∀ p ∈ (createProduct h f s pd).1.products, isInteger p.stock = true) ∧
    (∀ md q r, (registerMovement h f s md).result? = some r → r.success = true →
      jsNumber h md.quantity = some q → isInteger q = true →
      (∀ p ∈ (registerMovement h f s md).store.products, isInteger p.stock = true) ∧
      ∃ m, r.movement = some m ∧ isInteger m.quantity = true) := by
  constructor
  · intro pd q hsucc hq hint
    by_cases hv : (validateProductData h pd).valid = true
    swap
    · rw [createProduct_invalid (by simpa using hv)] at hsucc
      simp at hsucc
    by_cases hdup : productCodeExists s pd.code none = true
    · rw [createProduct_duplicate hv hdup] at hsucc
      simp at hsucc
    rw [createProduct_fresh hv (by simpa using hdup)]
    intro x hx
    simp only [List.mem_append, List.mem_singleton] at hx
    rcases hx with hx | rfl
    · exact hs x hx
    · simpa [storedNumber_of_jsNumber hq] using hint
  · intro md q r hr hsucc hq hint
    obtain ⟨p, front, back, u, q₂, -, hp, hsplit, -, hq₂, -, -, -, hst, rfl⟩ :=
      registerMovement_success hr hsucc
    rw [hq] at hq₂
    cases hq₂
    have hsigned : isInteger (signedQuantity md q) = true := by
      unfold signedQuantity
      split
      · exact hint
      · exact isInteger_neg hint
    refine ⟨?_, _, rfl, ?_⟩
    · rw [hst]
      intro x hx
      simp only [List.mem_append, List.mem_cons] at hx
      rcases hx with hx | rfl | hx
      · exact hs x (by rw [hsplit]; simp [hx])
      · exact isInteger_add (hs p (by rw [hsplit]; simp)) hsigned
      · exact hs x (by rw [hsplit]; simp [hx])
    · simpa [addMovement, newMovementOf] using hsigned

/-- Witness for C27 as amended: the entry of 20 units on the scenario store. -/
theorem integers_preserved_witness :
    (∀ p ∈ (registerMovement decimalHost tick shop entry20).store.products,
        isInteger p.stock = true) ∧
      ∃ m, entry20Result.movement = some m ∧ isInteger m.quantity = true :=
  (integers_preserved decimalHost tick shop (by decide!)).2 entry20 20 entry20Result
    (by decide!) rfl (by decide!) (by decide!)

/-- Counterexample to C27 as stated: on the scenario store, whose stocks are integers, a
product created with a stock of 2.5 is persisted with that stock, and an entry of 2.5
units is registered with the quantity 2.5 and leaves a stock of 7.5. -/
theorem integers_preserved_counterexample :
    (∀ p ∈ shop.products, isInteger p.stock = true) ∧
    ((createProduct decimalHost tick shop halfData).2.success = true ∧
      (createProduct decimalHost tick shop halfData).1.products.map (fun p => p.stock) =
        [5, 5 / 2] ∧
      isInteger (5 / 2) = false) ∧
    ((registerMovement decimalHost tick shop entryHalf).result?.map (fun r => r.success) =
        some true ∧
      (registerMovement decimalHost tick shop entryHalf).store.products.map
        (fun p => p.stock) = [15 / 2] ∧
      (registerMovement decimalHost tick shop entryHalf).store.movements.map
        (fun m => m.quantity) = [5 / 2] ∧
      isInteger (15 / 2) = false) := by
  decide!

/-- The toast of a registration that passes validation. -/
theorem registerMovement_toast {h : Host} {f : Fresh} {s : Store} {md : MovementData}
    {p : Product} {q : ℚ} {u : User}
    (hv : (validateMovementData h s md).valid = true)
    (hp : getProductById s md.productId = some p)
    (hq : jsNumber h md.quantity = some q)
    (hnew : 0 ≤ p.stock + signedQuantity md q)
    (hu : s.currentUser = some u) :
    (registerMovement h f s md).toast? =
      if p.stock + signedQuantity md q ≤ p.minStock && md.type == some SALIDA then
        some
          { message := "Alerta: " ++ p.name ++ " ahora tiene stock bajo (" ++
              h.numberToString (p.stock + signedQuantity md q) ++ " unidades)"
            type := "warning" }
      else none := by
  rw [registerMovement_valid hv hp hq]
  simp only [not_lt.mpr hnew, if_false, hu, Outcome.toast?]

/-- A call that does not succeed shows no toast. -/
theorem registerMovement_toast_none {h : Host} {f : Fresh} {s : Store} {md : MovementData}
    (hno : ∀ r, (registerMovement h f s md).result? = some r → r.success = false) :
    (registerMovement h f s md).toast? = none := by
  by_cases hv : (validateMovementData h s md).valid = true
  swap
  · rw [registerMovement_invalid (by simpa using hv)]
    rfl
  obtain ⟨-, ⟨p, hp⟩, -, ⟨q, hq, -⟩, -, -⟩ := validateMovementData_valid hv
  by_cases hneg : p.stock + signedQuantity md q < 0
  · rw [registerMovement_valid hv hp hq]
    simp only [hneg, if_true, Outcome.toast?]
  cases hu : s.currentUser with
  | none =>
    rw [registerMovement_valid hv hp hq]
    simp only [hneg, if_false, hu, Outcome.toast?]
  | some u =>
    obtain ⟨front, back, -, -, -, hres⟩ :=
      registerMovement_ok (f := f) hv hp hq (not_lt.mp hneg) hu
    have := hno _ hres
    simp at this

/-- C28. Low-stock warning condition: `registerMovement` shows the warning toast exactly
when the call succeeds, the type is `salida` and the new stock recorded on the movement
is at most the product's minimum stock; a successful `entrada` shows none; and a call
that shows it returns the same success result and leaves the same store as any
successful exit: the returned movement appended and the product at the new stock. -/
theorem low_stock_warning (h : Host) (f : Fresh) (s : Store) (md : MovementData) :
    ((∃ t, (registerMovement h f s md).toast? = some t) ↔
      ∃ r m p, (registerMovement h f s md).result? = some r ∧ r.success = true ∧
        r.movement = some m ∧ getProductById s md.productId = some p ∧
        md.type = some SALIDA ∧ m.newStock ≤ p.minStock) ∧
    (∀ r, (registerMovement h f s md).result? = some r → r.success = true →
      md.type = some ENTRADA → (registerMovement h f s md).toast? = none) ∧
    (∀ t, (registerMovement h f s md).toast? = some t →
      t.type = "warning" ∧
      ∃ r m p', (registerMovement h f s md).result? = some r ∧ r.success = true ∧
        r.message = "Salida registrada exitosamente" ∧ r.movement = some m ∧
        (registerMovement h f s md).store.movements = s.movements ++ [m] ∧
        getProductById (registerMovement h f s md).store md.productId = some p' ∧
        p'.stock = m.newStock) := by
  have hsucc : ∀ r, (registerMovement h f s md).result? = some r → r.success = true →
      ∃ p front back u q, getProductById s md.productId = some p ∧
        s.products = front ++ p :: back ∧ (∀ a ∈ front, a.id ≠ p.id) ∧
        (registerMovement h f s md).store =
          { products :=
              front ++
                { p with stock := p.stock + signedQuantity md q, updatedAt := f.later } :: back
            movements := s.movements ++ [(addMovement f s (newMovementOf md p q u)).2]
            currentUser := s.currentUser } ∧
        r = { success := true
              movement := some (addMovement f s (newMovementOf md p q u)).2
              message := (if md.type == some ENTRADA then "Entrada" else "Salida") ++
                " registrada exitosamente" } ∧
        (registerMovement h f s md).toast? =
          if p.stock + signedQuantity md q ≤ p.minStock && md.type == some SALIDA then
            some
              { message := "Alerta: " ++ p.name ++ " ahora tiene stock bajo (" ++
                  h.numberToString (p.stock + signedQuantity md q) ++ " unidades)"
                type := "warning" }
          else none := by
    intro r hr hs
    obtain ⟨p, front, back, u, q, hv, hp, hsplit, hfront, hq, -, hu, hnew, hst, hreq⟩ :=
      registerMovement_success hr hs
    exact ⟨p, front, back, u, q, hp, hsplit, hfront, hst, hreq,
      registerMovement_toast hv hp hq hnew hu⟩
  have hne : ¬ (SALIDA = ENTRADA) := by decide
  have hne2 : ¬ (ENTRADA = SALIDA) := by decide
  have hshown : ∀ t, (registerMovement h f s md).toast? = some t →
      ∃ r, (registerMovement h f s md).result? = some r ∧ r.success = true := by
    intro t ht
    by_contra hc
    have hno : ∀ r, (registerMovement h f s md).result? = some r → r.success = false := by
      intro r hr
      cases hrs : r.success with
      | false => rfl
      | true => exact absurd ⟨r, hr, hrs⟩ hc
    rw [registerMovement_toast_none hno] at ht
    cases ht
  refine ⟨⟨?_, ?_⟩, ?_, ?_⟩
  · rintro ⟨t, ht⟩
    obtain ⟨r, hr, hs⟩ := hshown t ht
    obtain ⟨p, front, back, u, q, hp, -, -, -, rfl, htoast⟩ := hsucc r hr hs
    rw [htoast] at ht
    split at ht
    · rename_i hcond
      simp only [Bool.and_eq_true, decide_eq_true_eq, beq_iff_eq] at hcond
      exact ⟨_, _, p, hr, rfl, rfl, hp, hcond.2, hcond.1⟩
    · cases ht
  · rintro ⟨r, m, p, hr, hs, hm, hp, htype, hle⟩
    obtain ⟨p₂, front, back, u, q, hp₂, -, -, -, rfl, htoast⟩ := hsucc r hr hs
    rw [hp] at hp₂
    cases hp₂
    cases hm
    rw [htoast]
    have hle2 : p.stock + signedQuantity md q ≤ p.minStock := hle
    simp [hle2, htype]
  · intro r hr hs htype
    obtain ⟨p, front, back, u, q, -, -, -, -, -, htoast⟩ := hsucc r hr hs
    rw [htoast]
    simp [htype, hne2]
  · intro t ht
    obtain ⟨r, hr, hs⟩ := hshown t ht
    obtain ⟨p, front, back, u, q, hp, -, hfront, hst, rfl, htoast⟩ := hsucc r hr hs
    have hpid := getProductById_some_id hp
    rw [htoast] at ht
    split at ht
    · rename_i hcond
      simp only [Bool.and_eq_true, decide_eq_true_eq, beq_iff_eq] at hcond
      cases ht
      refine ⟨rfl, _, _,
        { p with stock := p.stock + signedQuantity md q, updatedAt := f.later },
        hr, rfl, ?_, rfl, ?_, ?_, rfl⟩
      · simp only [hcond.2, beq_iff_eq, Option.some.injEq, hne, if_false]
        decide
      · rw [hst]
      · rw [hst, hpid]
        exact getProductById_replaced hfront rfl
    · cases ht

/-- Witness for C28: the exit of 3 on a stock of 5 with minimum 10 shows the warning. -/
theorem low_stock_warning_witness :
    ∃ t, (registerMovement decimalHost tick shop exit3).toast? = some t :=
  (low_stock_warning decimalHost tick shop exit3).1.mpr
    ⟨exit3Result, exit3Movement, widget, by decide!, rfl, rfl, by decide!, by decide,
      by decide!⟩

/-- On stocks at least zero a valid request never trips the negative-stock guard. -/
theorem valid_newStock_nonneg {h : Host} {s : Store} {md : MovementData} {p : Product}
    {q : ℚ} (hs : ∀ x ∈ s.products, 0 ≤ x.stock)
    (hv : (validateMovementData h s md).valid = true)
    (hp : getProductById s md.productId = some p)
    (hq : jsNumber h md.quantity = some q) :
    0 ≤ p.stock + signedQuantity md q := by
  obtain ⟨-, -, htype, ⟨q₂, hq₂, hpos⟩, -, hstock⟩ := validateMovementData_valid hv
  rw [hq] at hq₂
  cases hq₂
  have hp0 := hs p (getProductById_mem hp)
  rcases htype with ht | ht
  · have hsq : signedQuantity md q = q := by simp [signedQuantity, ht]
    rw [hsq]
    linarith
  · have hne : ¬ (SALIDA = ENTRADA) := by decide
    have hsq : signedQuantity md q = -q := by simp [signedQuantity, ht, hne]
    have hgt := hstock ht p hp
    have hle : q ≤ p.stock := by
      by_contra hc
      have : numberGt h md.quantity p.stock = true :=
        (numberGt_iff _ _ _).mpr ⟨q, hq, not_le.mp hc⟩
      rw [hgt] at this
      cases this
    rw [hsq]
    linarith

/-- C29. Every rejection is a validation rejection: on a store whose stocks are all at
least zero, a `registerMovement` that returns `success = false` was rejected by
`validateMovementData` and returns its joined errors; a request that passes validation
succeeds or, without a current user, raises, so the guards `Producto no encontrado` and
`La operación resultaría en stock negativo` are never reached. -/
theorem rejection_is_validation (h : Host) (f : Fresh) (s : Store) (md : MovementData)
    (hs : ∀ p ∈ s.products, 0 ≤ p.stock) :
    (∀ r, (registerMovement h f s md).result? = some r → r.success = false →
      (validateMovementData h s md).valid = false ∧
      r = { success := false, movement := none,
            message := joinErrors (validateMovementData h s md).errors }) ∧
    ((validateMovementData h s md).valid = true →
      (∃ r, (registerMovement h f s md).result? = some r ∧ r.success = true) ∨
      (s.currentUser = none ∧ registerMovement h f s md = .threw s)) := by
  have hvalid : (validateMovementData h s md).valid = true →
      (∃ r, (registerMovement h f s md).result? = some r ∧ r.success = true) ∨
      (s.currentUser = none ∧ registerMovement h f s md = .threw s) := by
    intro hv
    obtain ⟨-, ⟨p, hp⟩, -, ⟨q, hq, -⟩, -, -⟩ := validateMovementData_valid hv
    have hnew := valid_newStock_nonneg hs hv hp hq
    cases hu : s.currentUser with
    | none =>
      right
      refine ⟨rfl, ?_⟩
      rw [registerMovement_valid hv hp hq]
      simp only [not_lt.mpr hnew, if_false, hu]
    | some u =>
      left
      obtain ⟨front, back, -, -, -, hres⟩ := registerMovement_ok (f := f) hv hp hq hnew hu
      exact ⟨_, hres, rfl⟩
  refine ⟨?_, hvalid⟩
  intro r hr hfail
  cases hv : (validateMovementData h s md).valid with
  | false =>
    rw [registerMovement_invalid hv] at hr
    simp only [Outcome.result?, Option.some.injEq] at hr
    exact ⟨rfl, hr.symm⟩
  | true =>
    rcases hvalid hv with ⟨r₂, hr₂, hs₂⟩ | ⟨-, hthrew⟩
    · rw [hr] at hr₂
      cases hr₂
      rw [hfail] at hs₂
      cases hs₂
    · rw [hthrew] at hr
      cases hr

/-- Witness for C29: the rejected exit of 10 on a stock of 5 is a validation rejection. -/
theorem rejection_is_validation_witness :
    (validateMovementData decimalHost shop exit10).valid = false ∧
    ({ success := false, movement := none,
       message := "Stock insuficiente. Disponible: 5 unidades" } : MovementResult) =
      { success := false, movement := none,
        message := joinErrors (validateMovementData decimalHost shop exit10).errors } :=
  (rejection_is_validation decimalHost tick shop exit10 (by decide!)).1
    { success := false, movement := none,
      message := "Stock insuficiente. Disponible: 5 unidades" }
    (by decide!) rfl

/-- C30. Registration touches only the target's stock: on a store with pairwise distinct
product ids, a successful `registerMovement` resolves its id to a product `p`, the only
one of that id; the products collection keeps its order and every product other than `p`;
in the place of `p` stands a product with the id, code, name, description, category,
price, minimum stock and `createdAt` of `p`; and the new movement's `productCode` and
`productName` are the code and name of `p`. -/
theorem registration_frame (h : Host) (f : Fresh) (s : Store) (md : MovementData)
    (r : MovementResult)
    (hids : (s.products.map (fun p => p.id)).Nodup)
    (hr : (registerMovement h f s md).result? = some r) (hsucc : r.success = true) :
    ∃ p front back p' m,
      getProductById s md.productId = some p ∧
      s.products = front ++ p :: back ∧
      (∀ x ∈ front ++ back, x.id ≠ p.id) ∧
      (registerMovement h f s md).store.products = front ++ p' :: back ∧
      p'.id = p.id ∧ p'.code = p.code ∧ p'.name = p.name ∧
      p'.description = p.description ∧ p'.category = p.category ∧ p'.price = p.price ∧
      p'.minStock = p.minStock ∧ p'.createdAt = p.createdAt ∧
      r.movement = some m ∧ m.productId = p.id ∧
      m.productCode = p.code ∧ m.productName = p.name := by
  obtain ⟨p, front, back, u, q, -, hp, hsplit, hfront, -, -, -, -, hst, rfl⟩ :=
    registerMovement_success hr hsucc
  refine ⟨p, front, back,
    { p with stock := p.stock + signedQuantity md q, updatedAt := f.later }, _,
    hp, hsplit, ?_, by rw [hst], rfl, rfl, rfl, rfl, rfl, rfl, rfl, rfl, rfl, rfl, rfl, rfl⟩
  intro x hx
  rw [hsplit] at hids
  simp only [List.map_append, List.map_cons, List.nodup_append, List.nodup_cons,
    List.mem_map, not_exists, not_and, List.disjoint_cons_right] at hids
  rcases List.mem_append.mp hx with hx | hx
  · exact hfront x hx
  · exact fun heq => hids.2.1.1 x hx heq

/-- Witness for C30: the entry of 20 on the store with three products. -/
theorem registration_frame_witness :
    ∃ p front back p' m,
      getProductById warehouse entry20.productId = some p ∧
      warehouse.products = front ++ p :: back ∧
      (∀ x ∈ front ++ back, x.id ≠ p.id) ∧
      (registerMovement decimalHost tick warehouse entry20).store.products =
        front ++ p' :: back ∧
      p'.id = p.id ∧ p'.code = p.code ∧ p'.name = p.name ∧
      p'.description = p.description ∧ p'.category = p.category ∧ p'.price = p.price ∧
      p'.minStock = p.minStock ∧ p'.createdAt = p.createdAt ∧
      entry20Result.movement = some m ∧ m.productId = p.id ∧
      m.productCode = p.code ∧ m.productName = p.name :=
  registration_frame decimalHost tick warehouse entry20 entry20Result (by decide)
    (by decide!) rfl

/-! ## Sorting -/

theorem jsSort_perm {α : Type} (compare : α → α → ℚ) (items : List α) :
    (jsSort compare items).Perm items :=
  List.perm_insertionSort _ items

theorem jsSort_mem {α : Type} (compare : α → α → ℚ) (items : List α) (a : α) :
    a ∈ jsSort compare items ↔ a ∈ items :=
  (jsSort_perm compare items).mem_iff

/-- Sorting by a difference of keys orders the keys. -/
theorem jsSort_ascending {α : Type} (key : α → ℚ) (items : List α) :
    (jsSort (fun a b => key a - key b) items).Sorted (fun a b => key a ≤ key b) := by
  have htotal : IsTotal α (fun a b => key a - key b ≤ 0) :=
    ⟨fun a b => by
      rcases le_total (key a) (key b) with hle | hle
      · left; linarith
      · right; linarith⟩
  have htrans : IsTrans α (fun a b => key a - key b ≤ 0) :=
    ⟨fun a b c hab hbc => by
      have h1 : key a - key b ≤ 0 := hab
      have h2 : key b - key c ≤ 0 := hbc
      show key a - key c ≤ 0
      linarith⟩
  have hsorted := List.sorted_insertionSort (fun a b => key a - key b ≤ 0) items
  refine List.Pairwise.imp ?_ hsorted
  intro a b hab
  have h1 : key a - key b ≤ 0 := hab
  linarith

theorem jsSort_descending {α : Type} (key : α → ℚ) (items : List α) :
    (jsSort (fun a b => key b - key a) items).Sorted (fun a b => key b ≤ key a) := by
  have hsorted := jsSort_ascending (fun a => -key a) items
  have heq : (fun a b : α => -key a - -key b) = (fun a b => key b - key a) := by
    funext a b
    ring
  rw [heq] at hsorted
  refine List.Pairwise.imp ?_ hsorted
  intro a b hab
  linarith

theorem jsSort_byDate (items : List Movement) :
    (jsSort byDateDescending items).Sorted (fun a b => b.createdAt ≤ a.createdAt) := by
  have heq : byDateDescending =
      (fun a b : Movement => (b.createdAt : ℚ) - (a.createdAt : ℚ)) := by
    funext a b
    simp [byDateDescending]
  rw [heq]
  refine List.Pairwise.imp ?_ (jsSort_descending (fun m : Movement => (m.createdAt : ℚ)) items)
  intro a b hab
  exact_mod_cast hab

theorem foldl_add_eq_sum {α : Type} (f : α → ℚ) (items : List α) (start : ℚ) :
    items.foldl (fun sum a => sum + f a) start = start + (items.map f).sum := by
  induction items generalizing start with
  | nil => simp
  | cons a rest ih =>
    simp only [List.foldl_cons, List.map_cons, List.sum_cons]
    rw [ih]
    ring

/-! ## Aggregations -/

/-- C22. Low-stock list: `getLowStockProducts()` returns exactly the products with
`stock ≤ minStock`, each as many times as it is stored and no other, arranged in
non-decreasing order of stock. -/
theorem low_stock_list (s : Store) :
    (getLowStockProducts s).Perm (s.products.filter (fun p => p.stock ≤ p.minStock)) ∧
    (∀ p, p ∈ getLowStockProducts s ↔ p ∈ s.products ∧ p.stock ≤ p.minStock) ∧
    (getLowStockProducts s).Sorted (fun a b => a.stock ≤ b.stock) := by
  refine ⟨jsSort_perm _ _, ?_, jsSort_ascending (fun p : Product => p.stock) _⟩
  intro p
  unfold getLowStockProducts
  rw [jsSort_mem]
  simp

/-- C24. Inventory totals: `getInventoryStats()` returns the number of products, the sum
of the stocks, the sum of `stock * price`, the number of products with
`stock ≤ minStock`, which is the length of `getLowStockProducts()`, the number of
products with `stock = 0`, the number of movements created on the current local day, and
the number of movements; two local days being different when they start at different
instants. -/
theorem inventory_totals (cal : Calendar) (now : Int) (s : Store)
    (hdays : Function.Injective cal.startOfDay) :
    (getInventoryStats cal now s).totalProducts = s.products.length ∧
    (getInventoryStats cal now s).totalStock = (s.products.map (fun p => p.stock)).sum ∧
    (getInventoryStats cal now s).totalValue =
      (s.products.map (fun p => p.stock * p.price)).sum ∧
    (getInventoryStats cal now s).lowStockProducts =
      s.products.countP (fun p => p.stock ≤ p.minStock) ∧
    (getInventoryStats cal now s).lowStockProducts = (getLowStockProducts s).length ∧
    (getInventoryStats cal now s).outOfStockProducts =
      s.products.countP (fun p => p.stock = 0) ∧
    (getInventoryStats cal now s).movementsToday =
      s.movements.countP (fun m => cal.dayOf m.createdAt = cal.dayOf now) ∧
    (getInventoryStats cal now s).totalMovements = s.movements.length := by
  refine ⟨rfl, ?_, ?_, ?_, ?_, ?_, ?_, rfl⟩
  · simp [getInventoryStats, foldl_add_eq_sum]
  · simp [getInventoryStats, foldl_add_eq_sum]
  · simp [getInventoryStats, List.countP_eq_length_filter]
  · simp only [getInventoryStats]
    exact ((jsSort_perm _ _).length_eq).symm
  · simp only [getInventoryStats, List.countP_eq_length_filter]
    congr 1
  · simp only [getInventoryStats, List.countP_eq_length_filter]
    congr 1
    apply List.filter_congr
    intro m _
    by_cases hd : cal.dayOf m.createdAt = cal.dayOf now
    · simp [hd]
    · have : cal.startOfDay (cal.dayOf m.createdAt) ≠ cal.startOfDay (cal.dayOf now) :=
        fun heq => hd (hdays heq)
      simp [hd, this]

/-- Witness for C24: the totals of the store with three products and two movements, at
noon of the day of the later movement. -/
theorem inventory_totals_witness :
    getInventoryStats utc noonOfDay10 busyShop =
        { totalProducts := 3, totalStock := 42, totalValue := 16000, lowStockProducts := 1,
          outOfStockProducts := 0, movementsToday := 1, totalMovements := 2 } ∧
      (getInventoryStats utc noonOfDay10 busyShop).lowStockProducts =
        (getLowStockProducts busyShop).length :=
  ⟨by decide!,
    (inventory_totals utc noonOfDay10 busyShop
      (fun a b hab => Int.eq_of_mul_eq_mul_right (by decide) hab)).2.2.2.2.1⟩

/-- C26. Movement query: for filters on type, product and user, each supplied as a
non-empty text or left out, `getFilteredMovements(filters)` returns exactly the stored
movements that match every supplied filter, each as many times as it is stored (all of
them when no filter is supplied), ordered by `createdAt` non-increasing. -/
theorem movement_query (h : Host) (cal : Calendar) (s : Store) (filters : MovementFilters)
    (hfrom : filters.dateFrom = none) (hto : filters.dateTo = none)
    (hsearch : filters.search = none) :
    (getFilteredMovements h cal s filters).Perm
      (s.movements.filter (matchesFilters filters)) ∧
    (∀ m, m ∈ getFilteredMovements h cal s filters ↔
      m ∈ s.movements ∧
      (truthy filters.type = true → some m.type = filters.type) ∧
      (truthy filters.productId = true → some m.productId = filters.productId) ∧
      (truthy filters.userId = true → some m.userId = filters.userId)) ∧
    (truthy filters.type = false → truthy filters.productId = false →
      truthy filters.userId = false →
      (getFilteredMovements h cal s filters).Perm s.movements) ∧
    (getFilteredMovements h cal s filters).Sorted (fun a b => b.createdAt ≤ a.createdAt) := by
  have hnone : truthy (none : Option String) = false := rfl
  have hlist : getFilteredMovements h cal s filters =
      jsSort byDateDescending (s.movements.filter (matchesFilters filters)) := by
    simp only [getFilteredMovements, hfrom, hto, hsearch, hnone, Bool.or_self,
      Bool.false_eq_true, if_false]
    congr 1
    have hcongr : ∀ p : Movement → Bool, (∀ m, p m = matchesFilters filters m) →
        s.movements.filter p = s.movements.filter (matchesFilters filters) :=
      fun p hp => List.filter_congr (fun m _ => hp m)
    cases ht : truthy filters.type <;> cases hp : truthy filters.productId <;>
      cases hu : truthy filters.userId <;>
      simp only [Bool.false_eq_true, if_false, if_true, List.filter_filter]
    · rw [← hcongr (fun _ => true) (by intro m; simp [matchesFilters, ht, hp, hu])]
      simp
    all_goals
      apply hcongr
      intro m
      simp [matchesFilters, ht, hp, hu, Bool.and_comm, Bool.and_left_comm]
  have hperm := jsSort_perm byDateDescending (s.movements.filter (matchesFilters filters))
  refine ⟨?_, ?_, ?_, ?_⟩
  · rw [hlist]
    exact hperm
  · intro m
    rw [hlist, jsSort_mem]
    simp only [List.mem_filter, matchesFilters, Bool.and_eq_true, Bool.or_eq_true,
      Bool.not_eq_true', beq_iff_eq]
    constructor
    · rintro ⟨hm, ⟨h1, h2⟩, h3⟩
      refine ⟨hm, ?_, ?_, ?_⟩
      · intro ht
        rcases h1 with h1 | h1
        · rw [ht] at h1; cases h1
        · exact h1
      · intro ht
        rcases h2 with h2 | h2
        · rw [ht] at h2; cases h2
        · exact h2
      · intro ht
        rcases h3 with h3 | h3
        · rw [ht] at h3; cases h3
        · exact h3
    · rintro ⟨hm, h1, h2, h3⟩
      refine ⟨hm, ⟨?_, ?_⟩, ?_⟩
      · cases ht : truthy filters.type with
        | false => exact Or.inl rfl
        | true => exact Or.inr (h1 ht)
      · cases ht : truthy filters.productId with
        | false => exact Or.inl rfl
        | true => exact Or.inr (h2 ht)
      · cases ht : truthy filters.userId with
        | false => exact Or.inl rfl
        | true => exact Or.inr (h3 ht)
  · intro h1 h2 h3
    rw [hlist]
    have hall : s.movements.filter (matchesFilters filters) = s.movements := by
      rw [List.filter_eq_self]
      intro m _
      simp [matchesFilters, h1, h2, h3]
    rw [hall]
    exact jsSort_perm _ _
  · rw [hlist]
    exact jsSort_byDate _

/-- Witness for C26: the movements of the widget made by the employee, and all the
movements, the more recent one first. -/
theorem movement_query_witness :
    (getFilteredMovements decimalHost utc busyShop
        { productId := some "p1", userId := some "2" }).Perm
      (busyShop.movements.filter
        (matchesFilters { productId := some "p1", userId := some "2" })) ∧
    getFilteredMovements decimalHost utc busyShop { productId := some "p1", userId := some "2" }
      = [laterMovement] ∧
    getFilteredMovements decimalHost utc busyShop { } = [laterMovement, widgetMovement] :=
  ⟨(movement_query decimalHost utc busyShop { productId := some "p1", userId := some "2" }
      rfl rfl rfl).1, by decide!, by decide!⟩

/-! ## Objects used as tallies -/

theorem objectGet_update {β : Type} (obj : List (String × β)) (key : String) (init : β)
    (f : β → β) (k : String) :
    objectGet (objectUpdate obj key init f) k =
      if key = k then some (f ((objectGet obj key).getD init)) else objectGet obj k := by
  induction obj with
  | nil =>
    by_cases hk : key = k <;> simp [objectUpdate, objectGet, hk]
  | cons e rest ih =>
    obtain ⟨k₀, v⟩ := e
    by_cases h0 : k₀ = key
    · subst h0
      by_cases hk : k₀ = k <;> simp [objectUpdate, objectGet, hk]
    · by_cases hk : key = k
      · subst hk
        simp [objectUpdate, objectGet, h0, ih]
      · by_cases hk0 : k₀ = k
        · subst hk0
          simp [objectUpdate, objectGet, h0, hk]
        · simp [objectUpdate, objectGet, h0, hk, hk0, ih]

theorem objectUpdate_keys {β : Type} (obj : List (String × β)) (key : String) (init : β)
    (f : β → β) :
    (objectUpdate obj key init f).map Prod.fst =
      if key ∈ obj.map Prod.fst then obj.map Prod.fst else obj.map Prod.fst ++ [key] := by
  induction obj with
  | nil => simp [objectUpdate]
  | cons e rest ih =>
    obtain ⟨k₀, v⟩ := e
    by_cases h0 : k₀ = key
    · subst h0
      simp [objectUpdate]
    · have h0' : ¬ key = k₀ := fun hc => h0 hc.symm
      simp only [objectUpdate, h0, if_false, List.map_cons, ih, List.mem_cons, h0', false_or]
      split <;> simp

theorem objectUpdate_nodup {β : Type} (obj : List (String × β)) (key : String) (init : β)
    (f : β → β) (hobj : (obj.map Prod.fst).Nodup) :
    ((objectUpdate obj key init f).map Prod.fst).Nodup := by
  rw [objectUpdate_keys]
  split
  · exact hobj
  · rename_i hmem
    exact List.Nodup.append hobj (List.nodup_singleton _)
      (by simpa [List.disjoint_singleton] using hmem)

theorem mem_iff_objectGet {β : Type} (obj : List (String × β))
    (hobj : (obj.map Prod.fst).Nodup) (k : String) (v : β) :
    (k, v) ∈ obj ↔ objectGet obj k = some v := by
  induction obj with
  | nil => simp [objectGet]
  | cons e rest ih =>
    obtain ⟨k₀, v₀⟩ := e
    simp only [List.map_cons, List.nodup_cons, List.mem_map, not_exists, not_and] at hobj
    by_cases h0 : k₀ = k
    · subst h0
      simp only [List.mem_cons, Prod.mk.injEq, true_and, objectGet, if_true,
        Option.some.injEq]
      constructor
      · rintro (hv | hmem)
        · exact hv.symm
        · exact absurd rfl (hobj.1 (k₀, v) hmem)
      · intro hv
        exact Or.inl hv.symm
    · have h0' : ¬ k = k₀ := fun hc => h0 hc.symm
      simp only [List.mem_cons, Prod.mk.injEq, h0', false_and, false_or, objectGet, h0,
        if_false]
      exact ih hobj.2

/-- The properties of an object built by one `objectUpdate` per item. -/
theorem fold_keys_nodup {μ β : Type} (key : μ → String) (init : μ → β) (step : μ → β → β)
    (items : List μ) (acc : List (String × β)) (hacc : (acc.map Prod.fst).Nodup) :
    ((items.foldl (fun obj m => objectUpdate obj (key m) (init m) (step m)) acc).map
      Prod.fst).Nodup := by
  induction items generalizing acc with
  | nil => exact hacc
  | cons m rest ih =>
    simp only [List.foldl_cons]
    exact ih _ (objectUpdate_nodup acc _ _ _ hacc)

theorem fold_objectGet {μ β : Type} (key : μ → String) (init : μ → β) (step : μ → β → β)
    (items : List μ) (acc : List (String × β)) (k : String) :
    objectGet (items.foldl (fun obj m => objectUpdate obj (key m) (init m) (step m)) acc) k =
      match items.filter (fun m => key m == k) with
      | [] => objectGet acc k
      | m₀ :: rest =>
        some ((m₀ :: rest).foldl (fun v m => step m v) ((objectGet acc k).getD (init m₀))) := by
  induction items generalizing acc with
  | nil => simp
  | cons m rest ih =>
    simp only [List.foldl_cons]
    rw [ih]
    by_cases hk : key m = k
    · subst hk
      simp only [List.filter_cons, beq_self_eq_true, if_true, objectGet_update, List.foldl_cons,
        Option.getD_some]
      cases hfilter : rest.filter (fun m' => key m' == key m) with
      | nil => simp
      | cons m₁ rest₁ => simp
    · have hk' : (key m == k) = false := by simpa using hk
      simp only [List.filter_cons, hk', Bool.false_eq_true, if_false, objectGet_update, hk]
      cases rest.filter (fun m' => key m' == k) <;> simp

theorem ownEntries_perm {β : Type} (inserted : List (String × β)) :
    (ownEntries inserted).Perm inserted := by
  unfold ownEntries
  refine ((List.perm_insertionSort _ _).append_right _).trans ?_
  exact List.filter_append_perm _ _

/-- A fold that skips the items of a kind that does not occur is the plain fold. -/
theorem foldl_skip {μ β : Type} (skip : μ → Bool) (step : β → μ → β) (items : List μ)
    (acc : β) (hskip : ∀ m ∈ items, skip m = false) :
    items.foldl (fun obj m => if skip m then obj else step obj m) acc =
      items.foldl step acc := by
  induction items generalizing acc with
  | nil => rfl
  | cons m rest ih =>
    simp only [List.foldl_cons, hskip m (List.mem_cons_self _ _), Bool.false_eq_true,
      if_false]
    exact ih _ (fun x hx => hskip x (List.mem_cons_of_mem _ hx))

/-! ## Ranking of the most moved products -/

theorem productMovements_plain (s : Store)
    (hkeys : ∀ m ∈ s.movements, isInherited m.productId = false) :
    productMovements s =
      s.movements.foldl
        (fun obj m => objectUpdate obj m.productId 0 (fun total => total + |m.quantity|)) [] :=
  foldl_skip (fun m : Movement => isInherited m.productId)
    (fun obj m => objectUpdate obj m.productId 0 (fun total => total + |m.quantity|))
    s.movements [] hkeys

theorem productMovements_nodup (s : Store)
    (hkeys : ∀ m ∈ s.movements, isInherited m.productId = false) :
    ((productMovements s).map Prod.fst).Nodup := by
  rw [productMovements_plain s hkeys]
  exact fold_keys_nodup (fun m : Movement => m.productId) (fun _ => (0 : ℚ))
    (fun m total => total + |m.quantity|) s.movements [] (by simp)

theorem mem_productMovements (s : Store)
    (hkeys : ∀ m ∈ s.movements, isInherited m.productId = false) (k : String) (t : ℚ) :
    (k, t) ∈ productMovements s ↔ (∃ m ∈ s.movements, m.productId = k) ∧ t = movedTotal s k := by
  rw [mem_iff_objectGet _ (productMovements_nodup s hkeys), productMovements_plain s hkeys]
  have hget := fold_objectGet (fun m : Movement => m.productId) (fun _ => (0 : ℚ))
    (fun m total => total + |m.quantity|) s.movements [] k
  rw [hget]
  unfold movedTotal
  cases hfilter : s.movements.filter (fun m => m.productId == k) with
  | nil =>
    simp only [objectGet]
    refine iff_of_false (fun hc => by cases hc) ?_
    rintro ⟨⟨m, hm, hk⟩, -⟩
    have : m ∈ s.movements.filter (fun m => m.productId == k) := by
      simp [List.mem_filter, hm, hk]
    rw [hfilter] at this
    cases this
  | cons m₀ rest =>
    have hm₀ : m₀ ∈ s.movements.filter (fun m => m.productId == k) := by
      rw [hfilter]
      simp
    have hex : ∃ m ∈ s.movements, m.productId = k :=
      ⟨m₀, (List.mem_filter.mp hm₀).1, by simpa using (List.mem_filter.mp hm₀).2⟩
    simp only [objectGet, Option.getD_none, Option.some.injEq]
    rw [foldl_add_eq_sum (fun m : Movement => |m.quantity|) (m₀ :: rest) 0]
    constructor
    · intro ht
      exact ⟨hex, by rw [← ht]; simp⟩
    · rintro ⟨-, ht⟩
      rw [ht]
      simp

theorem find_id_of_mem {products : List Product} {p : Product}
    (hids : (products.map (fun p => p.id)).Nodup) (hp : p ∈ products) :
    products.find? (fun x => x.id == p.id) = some p := by
  induction products with
  | nil => cases hp
  | cons a rest ih =>
    simp only [List.map_cons, List.nodup_cons, List.mem_map, not_exists, not_and] at hids
    rcases List.mem_cons.mp hp with rfl | hmem
    · simp
    · have hne : (a.id == p.id) = false := by
        simpa using fun heq : a.id = p.id => hids.1 p hmem heq.symm
      rw [List.find?_cons, hne]
      exact ih hids.2 hmem

/-- The entries before sorting: one for each tallied id that a stored product carries. -/
theorem mem_topMoved_entries (s : Store)
    (hkeys : ∀ m ∈ s.movements, isInherited m.productId = false) (e : TopMoved) :
    e ∈ (ownEntries (productMovements s)).filterMap (fun entry =>
        match s.products.find? (fun p => p.id == entry.1) with
        | some product => some { product := product, totalMovements := entry.2 }
        | none => none) ↔
      s.products.find? (fun p => p.id == e.product.id) = some e.product ∧
      (∃ m ∈ s.movements, m.productId = e.product.id) ∧
      e.totalMovements = movedTotal s e.product.id := by
  simp only [List.mem_filterMap, (ownEntries_perm (productMovements s)).mem_iff, Prod.exists,
    mem_productMovements s hkeys]
  constructor
  · rintro ⟨k, t, ⟨hex, ht⟩, hg⟩
    cases hfind : s.products.find? (fun p => p.id == k) with
    | none => simp [hfind] at hg
    | some p =>
      simp only [hfind, Option.some.injEq] at hg
      have hpk : p.id = k := by simpa using List.find?_some hfind
      subst hg
      subst hpk
      exact ⟨hfind, hex, ht⟩
  · rintro ⟨hfind, hex, ht⟩
    refine ⟨e.product.id, e.totalMovements, ⟨hex, ht⟩, ?_⟩
    simp [hfind]

theorem topMoved_entries_ids_sublist (products : List Product) (entries : List (String × ℚ)) :
    ((entries.filterMap (fun entry =>
        match products.find? (fun p => p.id == entry.1) with
        | some product => some ({ product := product, totalMovements := entry.2 } : TopMoved)
        | none => none)).map (fun e => e.product.id)).Sublist (entries.map Prod.fst) := by
  induction entries with
  | nil => simp
  | cons entry rest ih =>
    cases hfind : products.find? (fun p => p.id == entry.1) with
    | none =>
      simp only [List.filterMap_cons, hfind, List.map_cons]
      exact ih.cons _
    | some p =>
      have hpk : p.id = entry.1 := by simpa using List.find?_some hfind
      simp only [List.filterMap_cons, hfind, List.map_cons, hpk]
      exact ih.cons₂ _

/-- C21. Top-moved ranking: on a store whose product ids are pairwise distinct and whose
movements carry product ids that name no inherited property, as in every store written
through `addProduct` and `registerMovement` with generated ids,
`getTopMovedProducts(n)` returns at most `n` entries; each entry is a stored product with
movements, extended with the sum of `|quantity|` over all stored movements of its id; no
product occurs twice; a movement whose product id no stored product carries yields no
entry; the entries are in non-increasing order of `totalMovements`; a stored product with
movements that is left out has a total not greater than that of any returned entry; and
the number of entries is the minimum of `n` and the number of stored products having
movements. -/
theorem top_moved_ranking (s : Store) (n : Nat)
    (hids : (s.products.map (fun p => p.id)).Nodup)
    (hgenerated : ∀ m ∈ s.movements, isInherited m.productId = false) :
    (getTopMovedProducts s n).length ≤ n ∧
    (∀ e ∈ getTopMovedProducts s n,
      e.product ∈ s.products ∧ hasMovements s e.product = true ∧
      e.totalMovements = movedTotal s e.product.id) ∧
    ((getTopMovedProducts s n).map (fun e => e.product)).Nodup ∧
    (∀ m ∈ s.movements, (∀ p ∈ s.products, p.id ≠ m.productId) →
      ∀ e ∈ getTopMovedProducts s n, e.product.id ≠ m.productId) ∧
    (getTopMovedProducts s n).Sorted (fun a b => b.totalMovements ≤ a.totalMovements) ∧
    (∀ p ∈ s.products, hasMovements s p = true →
      p ∉ (getTopMovedProducts s n).map (fun e => e.product) →
      ∀ e ∈ getTopMovedProducts s n, movedTotal s p.id ≤ e.totalMovements) ∧
    (getTopMovedProducts s n).length =
      min n (s.products.filter (hasMovements s)).length := by
  -- the entries before sorting, the sorted entries and the returned ones
  obtain ⟨unsorted, hunsorted⟩ : ∃ l, l = (ownEntries (productMovements s)).filterMap
      (fun entry =>
        match s.products.find? (fun p => p.id == entry.1) with
        | some product => some ({ product := product, totalMovements := entry.2 } : TopMoved)
        | none => none) := ⟨_, rfl⟩
  obtain ⟨sorted, hsorted⟩ : ∃ l, l =
      jsSort (fun a b : TopMoved => b.totalMovements - a.totalMovements) unsorted := ⟨_, rfl⟩
  have hresult : getTopMovedProducts s n = sorted.take n := by
    rw [hsorted, hunsorted]
    rfl
  have hperm : sorted.Perm unsorted := by
    rw [hsorted]
    exact jsSort_perm _ _
  have hmem : ∀ e, e ∈ unsorted ↔
      s.products.find? (fun p => p.id == e.product.id) = some e.product ∧
      (∃ m ∈ s.movements, m.productId = e.product.id) ∧
      e.totalMovements = movedTotal s e.product.id := by
    intro e
    rw [hunsorted]
    exact mem_topMoved_entries s hgenerated e
  have hmov : ∀ p : Product, hasMovements s p = true ↔ ∃ m ∈ s.movements, m.productId = p.id := by
    intro p
    simp [hasMovements]
  have hordered : sorted.Sorted (fun a b => b.totalMovements ≤ a.totalMovements) := by
    rw [hsorted]
    exact jsSort_descending (fun e : TopMoved => e.totalMovements) unsorted
  have hidsNodup : (unsorted.map (fun e => e.product.id)).Nodup := by
    rw [hunsorted]
    refine List.Nodup.sublist (topMoved_entries_ids_sublist s.products _) ?_
    exact ((ownEntries_perm (productMovements s)).map Prod.fst).nodup_iff.mpr
      (productMovements_nodup s hgenerated)
  have hproductsNodup : (unsorted.map (fun e => e.product)).Nodup := by
    have : (unsorted.map (fun e => e.product)).map (fun p => p.id) =
        unsorted.map (fun e => e.product.id) := by
      simp [List.map_map]
    exact List.Nodup.of_map (fun p : Product => p.id) (by rw [this]; exact hidsNodup)
  have hsortedNodup : (sorted.map (fun e => e.product)).Nodup :=
    (hperm.map _).nodup_iff.mpr hproductsNodup
  have htakeMem : ∀ e, e ∈ sorted.take n → e ∈ unsorted :=
    fun e he => hperm.mem_iff.mp (List.mem_of_mem_take he)
  refine ⟨?_, ?_, ?_, ?_, ?_, ?_, ?_⟩
  · rw [hresult]
    exact List.length_take_le _ _
  · intro e he
    rw [hresult] at he
    obtain ⟨hfind, hex, htotal⟩ := (hmem e).mp (htakeMem e he)
    exact ⟨List.mem_of_find?_eq_some hfind, (hmov _).mpr hex, htotal⟩
  · rw [hresult]
    exact List.Nodup.sublist ((List.take_sublist n sorted).map _) hsortedNodup
  · intro m _ hdead e he heq
    rw [hresult] at he
    obtain ⟨hfind, -, -⟩ := (hmem e).mp (htakeMem e he)
    exact hdead e.product (List.mem_of_find?_eq_some hfind) heq
  · rw [hresult]
    exact List.Pairwise.sublist (List.take_sublist n sorted) hordered
  · intro p hp hhas hout e he
    rw [hresult] at hout he
    have hentry : ({ product := p, totalMovements := movedTotal s p.id } : TopMoved) ∈ sorted :=
      hperm.mem_iff.mpr ((hmem _).mpr ⟨find_id_of_mem hids hp, (hmov p).mp hhas, rfl⟩)
    rw [← List.take_append_drop n sorted] at hentry hordered
    rcases List.mem_append.mp hentry with hin | hin
    · exact absurd (List.mem_map.mpr ⟨_, hin, rfl⟩) hout
    · exact (List.pairwise_append.mp hordered).2.2 e he _ hin
  · rw [hresult, List.length_take, hperm.length_eq]
    congr 1
    have hlen : unsorted.length = (unsorted.map (fun e => e.product)).length := by simp
    rw [hlen]
    apply List.Perm.length_eq
    have hstored : s.products.Nodup := List.Nodup.of_map (fun p : Product => p.id) hids
    refine (List.perm_ext_iff_of_nodup hproductsNodup (hstored.filter _)).mpr ?_
    intro p
    simp only [List.mem_map, List.mem_filter]
    constructor
    · rintro ⟨e, he, rfl⟩
      obtain ⟨hfind, hex, -⟩ := (hmem e).mp he
      exact ⟨List.mem_of_find?_eq_some hfind, (hmov _).mpr hex⟩
    · rintro ⟨hp, hhas⟩
      exact ⟨{ product := p, totalMovements := movedTotal s p.id },
        (hmem _).mpr ⟨find_id_of_mem hids hp, (hmov p).mp hhas, rfl⟩, rfl⟩

/-- Witness for C21: of the widget (7 units moved), the gizmo (1) and a removed product
(4), the first place goes to the widget, and two entries are all. -/
theorem top_moved_ranking_witness :
    (getTopMovedProducts rankedShop 1).length =
        min 1 (rankedShop.products.filter (hasMovements rankedShop)).length ∧
      getTopMovedProducts rankedShop 1 = [{ product := widget, totalMovements := 7 }] ∧
      getTopMovedProducts rankedShop 5 =
        [{ product := widget, totalMovements := 7 }, { product := gizmo, totalMovements := 1 }] :=
  ⟨(top_moved_ranking rankedShop 1 (by decide) (by decide)).2.2.2.2.2.2, by decide!,
    by decide!⟩

/-! ## The tallies per user -/

/-- The counters after the updates of a list of movements of one user. -/
theorem userTally_fold (items : List Movement) (u : UserActivity) :
    (items.foldl (fun (v : UserActivity) m =>
        if m.type == ENTRADA then
          { v with totalMovements := v.totalMovements + 1, entradas := v.entradas + 1 }
        else
          { v with totalMovements := v.totalMovements + 1, salidas := v.salidas + 1 }) u) =
      { userId := u.userId
        userName := u.userName
        totalMovements := u.totalMovements + items.length
        entradas := u.entradas + items.countP (fun m => m.type == ENTRADA)
        salidas := u.salidas + items.countP (fun m => m.type != ENTRADA) } := by
  induction items generalizing u with
  | nil => simp
  | cons m rest ih =>
    simp only [List.foldl_cons]
    rw [ih]
    by_cases ht : m.type = ENTRADA
    · simp [ht, List.countP_cons]
      omega
    · simp [ht, List.countP_cons]
      omega

theorem userTallies_plain (s : Store)
    (hkeys : ∀ m ∈ s.movements, isInherited m.userId = false) :
    userTallies s =
      s.movements.foldl
        (fun obj m =>
          objectUpdate obj m.userId
            { userId := m.userId, userName := m.userName, totalMovements := 0, entradas := 0,
              salidas := 0 }
            (fun u =>
              if m.type == ENTRADA then
                { u with totalMovements := u.totalMovements + 1, entradas := u.entradas + 1 }
              else
                { u with totalMovements := u.totalMovements + 1, salidas := u.salidas + 1 }))
        [] :=
  foldl_skip (fun m : Movement => isInherited m.userId) _ s.movements [] hkeys

theorem userTallies_nodup (s : Store)
    (hkeys : ∀ m ∈ s.movements, isInherited m.userId = false) :
    ((userTallies s).map Prod.fst).Nodup := by
  rw [userTallies_plain s hkeys]
  exact fold_keys_nodup (fun m : Movement => m.userId) _ _ s.movements [] (by simp)

theorem userTallies_get (s : Store)
    (hkeys : ∀ m ∈ s.movements, isInherited m.userId = false) (k : String) :
    objectGet (userTallies s) k =
      match s.movements.filter (fun m => m.userId == k) with
      | [] => none
      | m₀ :: rest =>
        some
          { userId := m₀.userId
            userName := m₀.userName
            totalMovements := (m₀ :: rest).length
            entradas := (m₀ :: rest).countP (fun m => m.type == ENTRADA)
            salidas := (m₀ :: rest).countP (fun m => m.type != ENTRADA) } := by
  rw [userTallies_plain s hkeys, fold_objectGet (fun m : Movement => m.userId)]
  cases s.movements.filter (fun m => m.userId == k) with
  | nil => rfl
  | cons m₀ rest =>
    simp only [objectGet, Option.getD_none]
    rw [userTally_fold]
    simp

theorem mem_userTallies (s : Store)
    (hkeys : ∀ m ∈ s.movements, isInherited m.userId = false) (k : String) (u : UserActivity)
    (hu : (k, u) ∈ userTallies s) :
    (∃ m ∈ s.movements, m.userId = k) ∧ u.userId = k ∧
      u.totalMovements = s.movements.countP (fun m => m.userId == k) ∧
      u.entradas = s.movements.countP (fun m => m.userId == k && m.type == ENTRADA) ∧
      u.salidas = s.movements.countP (fun m => m.userId == k && m.type != ENTRADA) ∧
      u.entradas + u.salidas = u.totalMovements := by
  rw [mem_iff_objectGet _ (userTallies_nodup s hkeys), userTallies_get s hkeys] at hu
  cases hfilter : s.movements.filter (fun m => m.userId == k) with
  | nil =>
    rw [hfilter] at hu
    cases hu
  | cons m₀ rest =>
    rw [hfilter] at hu
    simp only [Option.some.injEq] at hu
    have hm₀ : m₀ ∈ s.movements.filter (fun m => m.userId == k) := by
      rw [hfilter]
      simp
    obtain ⟨hmem, hkey⟩ := List.mem_filter.mp hm₀
    have hkey' : m₀.userId = k := by simpa using hkey
    subst hu
    refine ⟨⟨m₀, hmem, hkey'⟩, hkey', ?_, ?_, ?_, ?_⟩
    · simp only [List.countP_eq_length_filter, hfilter]
    · show List.countP (fun m => m.type == ENTRADA) (m₀ :: rest) = _
      rw [← hfilter, List.countP_filter]
      apply List.countP_congr
      intro m _
      simp [Bool.and_comm]
    · show List.countP (fun m => m.type != ENTRADA) (m₀ :: rest) = _
      rw [← hfilter, List.countP_filter]
      apply List.countP_congr
      intro m _
      simp [Bool.and_comm]
    · show List.countP (fun m => m.type == ENTRADA) (m₀ :: rest) +
        List.countP (fun m => m.type != ENTRADA) (m₀ :: rest) = (m₀ :: rest).length
      generalize m₀ :: rest = items
      induction items with
      | nil => rfl
      | cons m items ih =>
        by_cases ht : m.type = ENTRADA <;> simp [List.countP_cons, ht] <;> omega

theorem userTallies_key (s : Store)
    (hkeys : ∀ m ∈ s.movements, isInherited m.userId = false) (k : String) :
    k ∈ (userTallies s).map Prod.fst ↔ ∃ m ∈ s.movements, m.userId = k := by
  constructor
  · intro hk
    obtain ⟨e, he, hfst⟩ := List.mem_map.mp hk
    obtain ⟨k₀, u⟩ := e
    simp only at hfst
    subst hfst
    exact (mem_userTallies s hkeys k₀ u he).1
  · rintro ⟨m, hm, hk⟩
    have hfil : m ∈ s.movements.filter (fun m => m.userId == k) := by
      simp [List.mem_filter, hm, hk]
    have hget := userTallies_get s hkeys k
    cases hfilter : s.movements.filter (fun m => m.userId == k) with
    | nil =>
      rw [hfilter] at hfil
      cases hfil
    | cons m₀ rest =>
      rw [hfilter] at hget
      exact List.mem_map.mpr
        ⟨(k, _), (mem_iff_objectGet _ (userTallies_nodup s hkeys) k _).mpr hget, rfl⟩

/-- Each item is counted under exactly one of a list of distinct keys that covers it. -/
theorem sum_counts_eq_length {μ : Type} (key : μ → String) (items : List μ)
    (keys : List String) (hkeys : keys.Nodup) (hcover : ∀ m ∈ items, key m ∈ keys) :
    (keys.map (fun k => items.countP (fun m => key m == k))).sum = items.length := by
  induction items with
  | nil => simp
  | cons m rest ih =>
    have hone : ∀ (l : List String), l.Nodup → key m ∈ l →
        (l.map (fun k => if key m = k then 1 else 0)).sum = 1 := by
      intro l
      induction l with
      | nil => intro _ hmem; cases hmem
      | cons a l ihl =>
        intro hnodup hmem
        simp only [List.nodup_cons] at hnodup
        by_cases ha : key m = a
        · subst ha
          have hzero : (l.map (fun k => if key m = k then 1 else 0)).sum = 0 := by
            apply List.sum_eq_zero
            intro x hx
            obtain ⟨k, hk, rfl⟩ := List.mem_map.mp hx
            have : ¬ key m = k := fun heq => hnodup.1 (by rw [heq]; exact hk)
            simp [this]
          simp [hzero]
        · rcases List.mem_cons.mp hmem with heq | hmem'
          · exact absurd heq ha
          · simp [ha, ihl hnodup.2 hmem']
    have hrest := ih (fun x hx => hcover x (List.mem_cons_of_mem _ hx))
    have hsplit : (keys.map (fun k => (m :: rest).countP (fun m' => key m' == k))) =
        keys.map (fun k => rest.countP (fun m' => key m' == k) +
          (if key m = k then 1 else 0)) := by
      apply List.map_congr_left
      intro k _
      by_cases hk : key m = k <;> simp [List.countP_cons, hk]
    rw [hsplit, List.sum_map_add, hrest, hone keys hkeys (hcover m (List.mem_cons_self _ _))]
    simp

/-! ## The rollup per user -/

/-- C23. Per-user rollup: on a movements collection whose types are `entrada` or `salida`
and whose user ids name no inherited property, as in every collection written by
`registerMovement` for the stored users, `getUserActivity()` returns exactly one entry
per distinct `userId` occurring in the movements; in each entry `totalMovements` is the
number of that user's movements, `entradas` the number of them of type `entrada` and
`salidas` the number of them of type `salida`, so `entradas + salidas = totalMovements`;
the totals add up to the number of movements and the entries are in non-increasing order
of `totalMovements`. -/
theorem user_activity (s : Store)
    (htypes : ∀ m ∈ s.movements, m.type = ENTRADA ∨ m.type = SALIDA)
    (husers : ∀ m ∈ s.movements, isInherited m.userId = false) :
    ((getUserActivity s).map (fun u => u.userId)).Nodup ∧
    (∀ id, id ∈ (getUserActivity s).map (fun u => u.userId) ↔
      ∃ m ∈ s.movements, m.userId = id) ∧
    (∀ u ∈ getUserActivity s,
      u.totalMovements = s.movements.countP (fun m => m.userId == u.userId) ∧
      u.entradas =
        s.movements.countP (fun m => m.userId == u.userId && m.type == ENTRADA) ∧
      u.salidas =
        s.movements.countP (fun m => m.userId == u.userId && m.type == SALIDA) ∧
      u.entradas + u.salidas = u.totalMovements) ∧
    ((getUserActivity s).map (fun u => u.totalMovements)).sum = s.movements.length ∧
    (getUserActivity s).Sorted (fun a b => b.totalMovements ≤ a.totalMovements) := by
  have hperm : (getUserActivity s).Perm ((userTallies s).map Prod.snd) :=
    (jsSort_perm _ _).trans ((ownEntries_perm (userTallies s)).map _)
  have hids : (userTallies s).map (fun e => e.2.userId) = (userTallies s).map Prod.fst := by
    apply List.map_congr_left
    rintro ⟨k, u⟩ he
    exact (mem_userTallies s husers k u he).2.1
  have hpermIds : ((getUserActivity s).map (fun u => u.userId)).Perm
      ((userTallies s).map Prod.fst) := by
    have := hperm.map (fun u => u.userId)
    rwa [List.map_map, show ((fun u : UserActivity => u.userId) ∘ Prod.snd) =
      (fun e : String × UserActivity => e.2.userId) from rfl, hids] at this
  have hentry : ∀ u ∈ getUserActivity s, (u.userId, u) ∈ userTallies s := by
    intro u hu
    obtain ⟨e, he, hsnd⟩ := List.mem_map.mp (hperm.mem_iff.mp hu)
    obtain ⟨k, v⟩ := e
    simp only at hsnd
    subst hsnd
    have hk := (mem_userTallies s husers k v he).2.1
    rw [hk]
    exact he
  refine ⟨hpermIds.nodup_iff.mpr (userTallies_nodup s husers), ?_, ?_, ?_, ?_⟩
  · intro id
    rw [hpermIds.mem_iff]
    exact userTallies_key s husers id
  · intro u hu
    obtain ⟨-, -, htotal, hentradas, hsalidas, hsplit⟩ :=
      mem_userTallies s husers u.userId u (hentry u hu)
    refine ⟨htotal, hentradas, ?_, hsplit⟩
    rw [hsalidas]
    apply List.countP_congr
    intro m hm
    rcases htypes m hm with ht | ht <;> simp [ht, ENTRADA, SALIDA]
  · rw [(hperm.map (fun u => u.totalMovements)).sum_eq, List.map_map]
    have hcount : (userTallies s).map ((fun u : UserActivity => u.totalMovements) ∘ Prod.snd) =
        ((userTallies s).map Prod.fst).map
          (fun k => s.movements.countP (fun m => m.userId == k)) := by
      rw [List.map_map]
      apply List.map_congr_left
      rintro ⟨k, u⟩ he
      exact (mem_userTallies s husers k u he).2.2.1
    rw [hcount]
    exact sum_counts_eq_length (fun m : Movement => m.userId) s.movements _
      (userTallies_nodup s husers)
      (fun m hm => (userTallies_key s husers m.userId).mpr ⟨m, hm, rfl⟩)
  · have hsorted := jsSort_descending (fun u : UserActivity => (u.totalMovements : ℚ))
      ((ownEntries (userTallies s)).map (fun entry => entry.2))
    refine List.Pairwise.imp ?_ hsorted
    intro a b hab
    exact_mod_cast hab

/-- Witness for C23: the administrator's entry and the employee's exit give one entry
each. -/
theorem user_activity_witness :
    ((getUserActivity busyShop).map (fun u => u.totalMovements)).sum =
        busyShop.movements.length ∧
      getUserActivity busyShop =
        [{ userId := "1", userName := "Administrador del Sistema", totalMovements := 1,
           entradas := 1, salidas := 0 },
         { userId := "2", userName := "Usuario Empleado", totalMovements := 1,
           entradas := 0, salidas := 1 }] :=
  ⟨(user_activity busyShop (by decide) (by decide)).2.2.2.1, by decide!⟩

/-- A movement under a user id that names an inherited property leaves `users` without
own properties, so it gets no entry. -/
theorem user_activity_inherited_key :
    getUserActivity
        { products := [widget], movements := [{ widgetMovement with userId := "constructor" }],
          currentUser := some admin } = [] := by
  decide!

/-! ## The rounding of the engine -/

theorem log2Aux_spec (fuel n : Nat) (hfuel : n ≤ fuel) (hn : n ≠ 0) :
    2 ^ log2Aux fuel n ≤ n ∧ n < 2 ^ (log2Aux fuel n + 1) := by
  induction fuel generalizing n with
  | zero => omega
  | succ fuel ih =>
    unfold log2Aux
    by_cases h2 : n < 2
    · simp only [h2, if_true]
      omega
    · simp only [h2, if_false]
      have hhalf : n / 2 ≤ fuel := by omega
      have hne : n / 2 ≠ 0 := by omega
      obtain ⟨hlow, hhigh⟩ := ih (n / 2) hhalf hne
      constructor
      · rw [pow_succ]
        omega
      · rw [pow_succ]
        omega

theorem log2Floor_spec (n : Nat) (hn : n ≠ 0) :
    2 ^ log2Floor n ≤ n ∧ n < 2 ^ (log2Floor n + 1) :=
  log2Aux_spec n n le_rfl hn

theorem scaleBy_pos (n d : Nat) (k : Int) (hd : 0 < d) : 0 < (scaleBy n d k).2 := by
  unfold scaleBy
  split
  · exact Nat.mul_pos hd (pow_pos (by decide) _)
  · exact hd

theorem scaleBy_spec (n d : Nat) (k : Int) (hd : 0 < d) :
    ((scaleBy n d k).1 : ℚ) / ((scaleBy n d k).2 : ℚ) = (n : ℚ) / (d : ℚ) / (2 : ℚ) ^ k := by
  have hd' : (d : ℚ) ≠ 0 := by exact_mod_cast hd.ne'
  unfold scaleBy
  split
  · rename_i hk
    obtain ⟨j, rfl⟩ := Int.eq_ofNat_of_zero_le hk
    simp only [Int.toNat_ofNat, Nat.cast_mul, Nat.cast_pow, Nat.cast_ofNat, zpow_natCast]
    rw [div_div]
  · rename_i hk
    obtain ⟨j, hj⟩ := Int.eq_ofNat_of_zero_le (show 0 ≤ -k by omega)
    have hkj : k = -(j : Int) := by omega
    subst hkj
    simp only [neg_neg, Int.toNat_ofNat, Nat.cast_mul, Nat.cast_pow, Nat.cast_ofNat, zpow_neg,
      zpow_natCast]
    field_simp

theorem binaryExponent_le (n d : Nat) (hn : 0 < n) (hd : 0 < d) :
    (2 : ℚ) ^ binaryExponent n d ≤ (n : ℚ) / (d : ℚ) := by
  have hd' : (0 : ℚ) < d := by exact_mod_cast hd
  obtain ⟨hnlow, -⟩ := log2Floor_spec n hn.ne'
  obtain ⟨-, hdhigh⟩ := log2Floor_spec d hd.ne'
  unfold binaryExponent
  simp only
  split
  · -- the quotient is at least half of the first guess
    have h1 : ((2 : ℚ) ^ log2Floor n) ≤ n := by exact_mod_cast hnlow
    have h2 : (d : ℚ) < (2 : ℚ) ^ (log2Floor d + 1) := by exact_mod_cast hdhigh
    have hpow : (2 : ℚ) ^ ((log2Floor n : Int) - (log2Floor d : Int) - 1) =
        (2 : ℚ) ^ log2Floor n / (2 : ℚ) ^ (log2Floor d + 1) := by
      rw [show ((log2Floor n : Int) - (log2Floor d : Int) - 1) =
        (log2Floor n : Int) - ((log2Floor d + 1 : Nat) : Int) by push_cast; ring]
      rw [zpow_sub₀ (by norm_num), zpow_natCast, zpow_natCast]
    rw [hpow]
    have hpos : (0 : ℚ) < (2 : ℚ) ^ (log2Floor d + 1) := by positivity
    rw [div_le_div_iff₀ hpos hd']
    have h3 : (0 : ℚ) ≤ (2 : ℚ) ^ log2Floor n := by positivity
    nlinarith
  · rename_i hlt
    have hscale := scaleBy_spec n d ((log2Floor n : Int) - (log2Floor d : Int)) hd
    have hpos := scaleBy_pos n d ((log2Floor n : Int) - (log2Floor d : Int)) hd
    have hge : ((scaleBy n d ((log2Floor n : Int) - (log2Floor d : Int))).2 : ℚ) ≤
        (scaleBy n d ((log2Floor n : Int) - (log2Floor d : Int))).1 := by
      exact_mod_cast not_lt.mp hlt
    have hpos' : (0 : ℚ) < (scaleBy n d ((log2Floor n : Int) - (log2Floor d : Int))).2 := by
      exact_mod_cast hpos
    have hone : (1 : ℚ) ≤ (n : ℚ) / (d : ℚ) /
        (2 : ℚ) ^ ((log2Floor n : Int) - (log2Floor d : Int)) := by
      rw [← hscale, le_div_iff₀ hpos']
      simpa using hge
    have h2pos : (0 : ℚ) < (2 : ℚ) ^ ((log2Floor n : Int) - (log2Floor d : Int)) := by
      positivity
    rw [le_div_iff₀ h2pos] at hone
    simpa using hone

theorem roundHalfEven_exact (N b : Nat) (hb : 0 < b) : roundHalfEven (N * b) b = N := by
  unfold roundHalfEven
  simp [Nat.mul_div_cancel _ hb, Nat.mul_mod_left, hb]

theorem roundHalfEven_le (a b N : Nat) (hb : 0 < b) (hle : a ≤ N * b) :
    roundHalfEven a b ≤ N := by
  unfold roundHalfEven
  have hq : a / b ≤ N := Nat.div_le_of_le_mul (by rw [Nat.mul_comm]; exact hle)
  rcases Nat.eq_or_lt_of_le hle with heq | hlt
  · subst heq
    simp [Nat.mul_div_cancel _ hb, Nat.mul_mod_left, hb]
  · have hq' : a / b < N := (Nat.div_lt_iff_lt_mul hb).mpr hlt
    simp only
    split
    · exact hq
    · split
      · exact hq'
      · split
        · exact hq
        · exact hq'

theorem natAbs_div_den (x : ℚ) (hx : 0 < x) : ((x.num.natAbs : ℕ) : ℚ) / (x.den : ℚ) = x := by
  have hnum : 0 < x.num := Rat.num_pos.mpr hx
  have hcast : ((x.num.natAbs : ℕ) : ℚ) = ((x.num : ℤ) : ℚ) := by
    rw [← Int.cast_natCast, Int.natCast_natAbs, abs_of_pos hnum]
  rw [hcast]
  exact Rat.num_div_den x

theorem magnitude_eq (r : Nat) (k : Int) :
    (if 0 ≤ k then ((r * 2 ^ k.toNat : Nat) : ℚ) else (r : ℚ) / ((2 ^ (-k).toNat : Nat) : ℚ)) =
      (r : ℚ) * (2 : ℚ) ^ k := by
  split
  · rename_i hk
    obtain ⟨j, rfl⟩ := Int.eq_ofNat_of_zero_le hk
    simp
  · rename_i hk
    obtain ⟨j, hj⟩ := Int.eq_ofNat_of_zero_le (show 0 ≤ -k by omega)
    have hkj : k = -(j : Int) := by omega
    subst hkj
    simp [zpow_neg, div_eq_mul_inv]

theorem roundDouble_of_pos (x : ℚ) (hx : 0 < x) :
    roundDouble x =
      (roundHalfEven (scaleBy x.num.natAbs x.den (quantum x)).1
        (scaleBy x.num.natAbs x.den (quantum x)).2 : ℚ) * (2 : ℚ) ^ quantum x := by
  unfold roundDouble
  simp only [hx.ne', if_false, not_lt.mpr hx.le, magnitude_eq]

theorem scaled_eq (x : ℚ) (hx : 0 < x) (k : Int) :
    ((scaleBy x.num.natAbs x.den k).1 : ℚ) / ((scaleBy x.num.natAbs x.den k).2 : ℚ) =
      x / (2 : ℚ) ^ k := by
  rw [scaleBy_spec _ _ _ x.den_pos, natAbs_div_den x hx]

/-- A positive value is not rounded beyond a value of its own grid above it. -/
theorem roundDouble_le (x c : ℚ) (hx : 0 < x) (hxc : x ≤ c) (N : Nat)
    (hc : c = (N : ℚ) * (2 : ℚ) ^ quantum x) : roundDouble x ≤ c := by
  have hpow : (0 : ℚ) < (2 : ℚ) ^ quantum x := by positivity
  have hb := scaleBy_pos x.num.natAbs x.den (quantum x) x.den_pos
  have hb' : (0 : ℚ) < (scaleBy x.num.natAbs x.den (quantum x)).2 := by exact_mod_cast hb
  have hle : (scaleBy x.num.natAbs x.den (quantum x)).1 ≤
      N * (scaleBy x.num.natAbs x.den (quantum x)).2 := by
    have h1 : ((scaleBy x.num.natAbs x.den (quantum x)).1 : ℚ) /
        ((scaleBy x.num.natAbs x.den (quantum x)).2 : ℚ) ≤ N := by
      rw [scaled_eq x hx, div_le_iff₀ hpow, ← hc]
      exact hxc
    rw [div_le_iff₀ hb'] at h1
    exact_mod_cast h1
  rw [roundDouble_of_pos x hx, hc]
  have := roundHalfEven_le _ _ N hb hle
  have hcast : ((roundHalfEven (scaleBy x.num.natAbs x.den (quantum x)).1
      (scaleBy x.num.natAbs x.den (quantum x)).2 : ℕ) : ℚ) ≤ N := by exact_mod_cast this
  exact mul_le_mul_of_nonneg_right hcast hpow.le

/-- A positive value of its own grid is kept. -/
theorem roundDouble_exact (x : ℚ) (hx : 0 < x) (N : Nat)
    (hN : x = (N : ℚ) * (2 : ℚ) ^ quantum x) : roundDouble x = x := by
  have hpow : (0 : ℚ) < (2 : ℚ) ^ quantum x := by positivity
  have hb := scaleBy_pos x.num.natAbs x.den (quantum x) x.den_pos
  have hb' : (0 : ℚ) < (scaleBy x.num.natAbs x.den (quantum x)).2 := by exact_mod_cast hb
  have heq : (scaleBy x.num.natAbs x.den (quantum x)).1 =
      N * (scaleBy x.num.natAbs x.den (quantum x)).2 := by
    have h1 : ((scaleBy x.num.natAbs x.den (quantum x)).1 : ℚ) /
        ((scaleBy x.num.natAbs x.den (quantum x)).2 : ℚ) = N := by
      rw [scaled_eq x hx, div_eq_iff hpow.ne']
      exact hN
    rw [div_eq_iff hb'.ne'] at h1
    exact_mod_cast h1
  rw [roundDouble_of_pos x hx, heq, roundHalfEven_exact N _ hb]
  exact hN.symm

theorem quantum_le (x : ℚ) (hx : 0 < x) (e : Int) (hlt : x < (2 : ℚ) ^ e) (he : -1022 < e) :
    quantum x + 53 ≤ e := by
  have hnum : 0 < x.num.natAbs := Int.natAbs_pos.mpr (Rat.num_pos.mpr hx).ne'
  have hlow := binaryExponent_le x.num.natAbs x.den hnum x.den_pos
  rw [natAbs_div_den x hx] at hlow
  have hpow : (2 : ℚ) ^ binaryExponent x.num.natAbs x.den < (2 : ℚ) ^ e := lt_of_le_of_lt hlow hlt
  have hexp : binaryExponent x.num.natAbs x.den < e :=
    (zpow_lt_zpow_iff_right₀ (by norm_num : (1 : ℚ) < 2)).mp hpow
  unfold quantum
  rcases max_cases (binaryExponent x.num.natAbs x.den) (-1022) with ⟨hmax, -⟩ | ⟨hmax, -⟩ <;>
    rw [hmax] <;> omega

theorem roundDouble_neg (x : ℚ) : roundDouble (-x) = -roundDouble x := by
  rcases lt_trichotomy x 0 with hx | hx | hx
  · have hneg : ¬ (-x < 0) := by linarith
    have hq : quantum (-x) = quantum x := by simp [quantum]
    simp only [roundDouble, neg_eq_zero, hx.ne, if_false, hneg, hx, if_true, hq, Rat.neg_num,
      Int.natAbs_neg, Rat.neg_den, neg_neg]
  · subst hx
    simp [roundDouble]
  · have hneg : -x < 0 := by linarith
    have hq : quantum (-x) = quantum x := by simp [quantum]
    simp only [roundDouble, neg_eq_zero, hx.ne', if_false, hneg, not_lt.mpr hx.le, if_true, hq,
      Rat.neg_num, Int.natAbs_neg, Rat.neg_den]

/-- The whole numbers up to `2 ^ 53` are doubles. -/
theorem roundDouble_natCast (n : Nat) (hn : n ≤ 2 ^ 53) : roundDouble (n : ℚ) = n := by
  rcases Nat.eq_zero_or_pos n with rfl | hpos
  · simp [roundDouble]
  have hx : (0 : ℚ) < n := by exact_mod_cast hpos
  have hlt : (n : ℚ) < (2 : ℚ) ^ (54 : Int) := by
    have : n < 2 ^ 54 := lt_of_le_of_lt hn (by norm_num)
    exact_mod_cast this
  have hk := quantum_le (n : ℚ) hx 54 hlt (by norm_num)
  rcases le_or_lt (quantum (n : ℚ)) 0 with hk0 | hk0
  · obtain ⟨j, hj⟩ := Int.eq_ofNat_of_zero_le (show 0 ≤ -quantum (n : ℚ) by omega)
    have hkj : quantum (n : ℚ) = -(j : Int) := by omega
    refine roundDouble_exact (n : ℚ) hx (n * 2 ^ j) ?_
    rw [hkj, zpow_neg, zpow_natCast]
    push_cast
    field_simp
  · have hk1 : quantum (n : ℚ) = 1 := by omega
    -- the exponent is 53, so the number is `2 ^ 53`
    have hnum : 0 < (n : ℚ).num.natAbs := Int.natAbs_pos.mpr (Rat.num_pos.mpr hx).ne'
    have hlow := binaryExponent_le (n : ℚ).num.natAbs (n : ℚ).den hnum (n : ℚ).den_pos
    rw [natAbs_div_den (n : ℚ) hx] at hlow
    have hbe : binaryExponent (n : ℚ).num.natAbs (n : ℚ).den = 53 := by
      unfold quantum at hk1
      rcases max_cases (binaryExponent (n : ℚ).num.natAbs (n : ℚ).den) (-1022) with
        ⟨hmax, -⟩ | ⟨hmax, -⟩ <;> rw [hmax] at hk1 <;> omega
    rw [hbe] at hlow
    have hge : 2 ^ 53 ≤ n := by exact_mod_cast hlow
    have heq : n = 2 ^ 53 := le_antisymm hn hge
    refine roundDouble_exact (n : ℚ) hx (2 ^ 52) ?_
    rw [hk1, heq]
    norm_num

theorem roundDouble_intCast (z : Int) (hz : |z| ≤ 2 ^ 53) : roundDouble (z : ℚ) = z := by
  rcases le_or_lt 0 z with h0 | h0
  · obtain ⟨n, rfl⟩ := Int.eq_ofNat_of_zero_le h0
    have hn : n ≤ 2 ^ 53 := by
      rw [abs_of_nonneg h0] at hz
      exact_mod_cast hz
    simpa using roundDouble_natCast n hn
  · obtain ⟨n, hn⟩ := Int.eq_ofNat_of_zero_le (show 0 ≤ -z by omega)
    have hzn : z = -(n : Int) := by omega
    subst hzn
    have hn' : n ≤ 2 ^ 53 := by
      rw [abs_neg, abs_of_nonneg (by omega : (0 : Int) ≤ n)] at hz
      exact_mod_cast hz
    have := roundDouble_natCast n hn'
    simp only [Int.cast_neg, Int.cast_natCast, roundDouble_neg, this]

/-- A positive value below `2 ^ 52` is not rounded beyond a half-integer above it. -/
theorem roundDouble_le_half (x c : ℚ) (hx : 0 < x) (hxc : x ≤ c) (hsmall : x < (2 : ℚ) ^ (52 : Int))
    (N : Nat) (hc : 2 * c = N) : roundDouble x ≤ c := by
  have hk := quantum_le x hx 52 hsmall (by norm_num)
  obtain ⟨j, hj⟩ := Int.eq_ofNat_of_zero_le (show 0 ≤ -quantum x - 1 by omega)
  have hkj : quantum x = -((j + 1 : Nat) : Int) := by push_cast; omega
  refine roundDouble_le x c hx hxc (N * 2 ^ j) ?_
  rw [hkj, zpow_neg, zpow_natCast]
  have hc' : c = (N : ℚ) / 2 := by linarith
  rw [hc', pow_succ]
  push_cast
  field_simp
  ring

theorem roundDouble_nonneg (x : ℚ) (hx : 0 ≤ x) : 0 ≤ roundDouble x := by
  rcases eq_or_lt_of_le hx with h0 | hpos
  · rw [← h0]
    simp [roundDouble]
  · rw [roundDouble_of_pos x hpos]
    positivity

/-! ## Registration in the arithmetic of the engine -/

theorem ieee_updateProductStock_exact (fl : ℚ → ℚ) (now : Int) (s : Store) (pid : String)
    (q : ℚ) (hex : ∀ p, getProductById s (some pid) = some p → fl (p.stock + q) = p.stock + q) :
    IEEE.updateProductStock fl now s pid q = updateProductStock now s pid q := by
  unfold IEEE.updateProductStock updateProductStock
  cases hp : getProductById s (some pid) with
  | none => rfl
  | some p => simp only [hex p hp]

/-- A call whose sum is exact does what the exact registration does. -/
theorem ieee_registerMovement_exact (fl : ℚ → ℚ) (h : Host) (f : Fresh) (s : Store)
    (md : MovementData)
    (hex : ∀ p, getProductById s md.productId = some p →
      fl (p.stock + signedQuantity md (storedNumber h md.quantity)) =
        p.stock + signedQuantity md (storedNumber h md.quantity)) :
    IEEE.registerMovement fl h f s md = registerMovement h f s md := by
  unfold IEEE.registerMovement registerMovement
  simp only
  split
  · rfl
  cases hp : getProductById s md.productId with
  | none => rfl
  | some p =>
    have hsum := hex p hp
    simp only [signedQuantity] at hsum
    simp only [hsum]
    by_cases hneg : p.stock +
        (if md.type == some ENTRADA then storedNumber h md.quantity
          else -storedNumber h md.quantity) < 0
    · simp only [hneg, if_true]
    · simp only [hneg, if_false]
      cases hu : getCurrentUser s with
      | none => rfl
      | some u =>
        simp only
        rw [ieee_updateProductStock_exact]
        intro p' hp'
        have hp'' : getProductById s (some p.id) = some p' := hp'
        rw [← getProductById_some_id hp, hp] at hp''
        cases hp''
        exact hsum

theorem ieee_registerAll_exact (fl : ℚ → ℚ) (h : Host) (calls : List (Fresh × MovementData))
    (s : Store) (hex : IEEE.Exact fl h s calls) :
    IEEE.registerAll fl h s calls = registerAll h s calls ∧
    IEEE.registerTrace fl h s calls = registerTrace h s calls := by
  induction calls generalizing s with
  | nil => exact ⟨rfl, rfl⟩
  | cons c rest ih =>
    obtain ⟨f, md⟩ := c
    obtain ⟨hstep, hrest⟩ := hex
    have heq := ieee_registerMovement_exact fl h f s md hstep
    rw [heq] at hrest
    obtain ⟨hall, htrace⟩ := ih _ hrest
    simp only [IEEE.registerAll, registerAll, IEEE.registerTrace, registerTrace, heq, hall,
      htrace, and_self]

theorem ieee_exact_append (fl : ℚ → ℚ) (h : Host) (before after : List (Fresh × MovementData))
    (s : Store) (hex : IEEE.Exact fl h s (before ++ after)) :
    IEEE.Exact fl h s before ∧ IEEE.Exact fl h (IEEE.registerAll fl h s before) after := by
  induction before generalizing s with
  | nil => exact ⟨trivial, hex⟩
  | cons c rest ih =>
    obtain ⟨f, md⟩ := c
    obtain ⟨hstep, hrest⟩ := hex
    obtain ⟨h1, h2⟩ := ih _ hrest
    exact ⟨⟨hstep, h1⟩, h2⟩

theorem ieee_exact_skip (fl : ℚ → ℚ) (h : Host) (f : Fresh) (md : MovementData)
    (after : List (Fresh × MovementData)) (s : Store)
    (hex : IEEE.Exact fl h s ((f, md) :: after))
    (hsame : (IEEE.registerMovement fl h f s md).store = s) : IEEE.Exact fl h s after := by
  obtain ⟨-, hrest⟩ := hex
  rwa [hsame] at hrest

/-- The stocks after a registration: those before, and the sum that the call formed. -/
theorem registerMovement_stocks (h : Host) (f : Fresh) (s : Store) (md : MovementData)
    (x : Product) (hx : x ∈ (registerMovement h f s md).store.products) :
    x ∈ s.products ∨
      ∃ p ∈ s.products,
        x.stock = p.stock + signedQuantity md (storedNumber h md.quantity) ∧ 0 ≤ x.stock := by
  rcases registerMovement_cases h f s md with ⟨hst, -⟩ |
    ⟨p, front, back, u, q, -, hp, hsplit, -, hq, -, -, hnew, hst, -⟩
  · rw [hst] at hx
    exact Or.inl hx
  · rw [hst] at hx
    simp only [List.mem_append, List.mem_cons] at hx
    rcases hx with hx | rfl | hx
    · exact Or.inl (by rw [hsplit]; simp [hx])
    · right
      refine ⟨p, getProductById_mem hp, ?_, hnew⟩
      rw [storedNumber_of_jsNumber hq]
    · exact Or.inl (by rw [hsplit]; simp [hx])

/-- The integers up to `2 ^ 53` in magnitude are doubles. -/
theorem roundDouble_integer (q : ℚ) (hint : isInteger q = true) (hq : |q| ≤ 2 ^ 53) :
    roundDouble q = q := by
  simp only [isInteger, beq_iff_eq] at hint
  have hnum : ((q.num : ℤ) : ℚ) = q := (Rat.den_eq_one_iff q).mp hint
  rw [← hnum] at hq ⊢
  apply roundDouble_intCast
  have : ((|q.num| : ℤ) : ℚ) ≤ ((2 ^ 53 : ℤ) : ℚ) := by
    push_cast
    exact hq
  exact_mod_cast this

theorem isInteger_signedQuantity (md : MovementData) (q : ℚ) (hq : isInteger q = true) :
    isInteger (signedQuantity md q) = true := by
  unfold signedQuantity
  split
  · exact hq
  · exact isInteger_neg hq

theorem abs_signedQuantity (md : MovementData) (q : ℚ) : |signedQuantity md q| = |q| := by
  unfold signedQuantity
  split
  · rfl
  · exact abs_neg q

/-- Integer stocks and quantities that stay within `2 ^ 53` make every sum exact. -/
theorem ieee_exact_of_integers (h : Host) (calls : List (Fresh × MovementData)) (s : Store)
    (B : ℚ)
    (hint : ∀ p ∈ s.products, isInteger p.stock = true)
    (hlow : ∀ p ∈ s.products, 0 ≤ p.stock)
    (hB : ∀ p ∈ s.products, p.stock ≤ B)
    (hq : ∀ c ∈ calls, isInteger (storedNumber h c.2.quantity) = true)
    (hbound : B + (calls.map (fun c => |storedNumber h c.2.quantity|)).sum ≤ 2 ^ 53) :
    IEEE.Exact roundDouble h s calls := by
  induction calls generalizing s B with
  | nil => trivial
  | cons c rest ih =>
    obtain ⟨f, md⟩ := c
    simp only [List.map_cons, List.sum_cons] at hbound
    have hrestNonneg : 0 ≤ (rest.map (fun c => |storedNumber h c.2.quantity|)).sum :=
      List.sum_nonneg (by
        intro x hx
        obtain ⟨c, -, rfl⟩ := List.mem_map.mp hx
        exact abs_nonneg _)
    have hQ := hq (f, md) (List.mem_cons_self _ _)
    simp only at hQ
    have hsumInt : ∀ p ∈ s.products,
        isInteger (p.stock + signedQuantity md (storedNumber h md.quantity)) = true :=
      fun p hp => isInteger_add (hint p hp) (isInteger_signedQuantity md _ hQ)
    have hsumAbs : ∀ p ∈ s.products,
        |p.stock + signedQuantity md (storedNumber h md.quantity)| ≤
          B + |storedNumber h md.quantity| := by
      intro p hp
      calc |p.stock + signedQuantity md (storedNumber h md.quantity)|
          ≤ |p.stock| + |signedQuantity md (storedNumber h md.quantity)| := abs_add _ _
        _ = p.stock + |storedNumber h md.quantity| := by
            rw [abs_of_nonneg (hlow p hp), abs_signedQuantity]
        _ ≤ B + |storedNumber h md.quantity| := by linarith [hB p hp]
    have hstep : ∀ p, getProductById s md.productId = some p →
        roundDouble (p.stock + signedQuantity md (storedNumber h md.quantity)) =
          p.stock + signedQuantity md (storedNumber h md.quantity) := by
      intro p hp
      have hmem := getProductById_mem hp
      exact roundDouble_integer _ (hsumInt p hmem) (by linarith [hsumAbs p hmem])
    refine ⟨hstep, ?_⟩
    rw [ieee_registerMovement_exact roundDouble h f s md hstep]
    apply ih _ (B + |storedNumber h md.quantity|)
    · intro x hx
      rcases registerMovement_stocks h f s md x hx with hold | ⟨p, hp, hstock, -⟩
      · exact hint x hold
      · rw [hstock]
        exact hsumInt p hp
    · intro x hx
      rcases registerMovement_stocks h f s md x hx with hold | ⟨p, hp, -, hnonneg⟩
      · exact hlow x hold
      · exact hnonneg
    · intro x hx
      rcases registerMovement_stocks h f s md x hx with hold | ⟨p, hp, hstock, -⟩
      · linarith [hB x hold, abs_nonneg (storedNumber h md.quantity)]
      · rw [hstock]
        exact le_trans (le_abs_self _) (hsumAbs p hp)
    · exact fun c hc => hq c (List.mem_cons_of_mem _ hc)
    · linarith

/-- With exact sums the registration in the arithmetic of the engine is the registration
of the sections above. -/
theorem ieee_registerMovement_id (h : Host) (f : Fresh) (s : Store) (md : MovementData) :
    IEEE.registerMovement id h f s md = registerMovement h f s md :=
  ieee_registerMovement_exact id h f s md (fun _ _ => rfl)

/-- With the exact quotient and product, and a minimum other than zero, the status in the
arithmetic of the engine is the status of the sections above. -/
theorem ieee_getStockStatus_id (stock minStock : ℚ) (hmin : minStock ≠ 0) :
    IEEE.getStockStatus id stock minStock = getStockStatus stock minStock := by
  simp [IEEE.getStockStatus, getStockStatus, IEEE.percentage, hmin]

/-! ## Conservation -/

/-- C7, as amended. Conservation in the arithmetic of the engine: on a store whose stocks
are integers between 0 and `B`, for any finite sequence of `registerMovement` calls whose
quantities are integers, `B` plus the sum of their magnitudes being at most `2 ^ 53`, the
movements appended are exactly those returned by the calls that succeeded, and the final
stock of a product of initial stock `S0` is `S0` plus the sum of the signed `quantity`
fields of the appended movements of that product; a rejected call contributes nothing,
the final store being the same with the call left out. -/
theorem conservation (h : Host) (calls : List (Fresh × MovementData)) (s : Store)
    (pid : String) (p : Product) (B : ℚ)
    (hp : getProductById s (some pid) = some p)
    (hint : ∀ x ∈ s.products, isInteger x.stock = true)
    (hlow : ∀ x ∈ s.products, 0 ≤ x.stock)
    (hB : ∀ x ∈ s.products, x.stock ≤ B)
    (hq : ∀ c ∈ calls, isInteger (storedNumber h c.2.quantity) = true)
    (hbound : B + (calls.map (fun c => |storedNumber h c.2.quantity|)).sum ≤ 2 ^ 53) :
    (IEEE.registerAll roundDouble h s calls).movements =
      s.movements ++ (IEEE.registerTrace roundDouble h s calls).flatMap Outcome.appended ∧
    (∃ p', getProductById (IEEE.registerAll roundDouble h s calls) (some pid) = some p' ∧
      p'.stock = p.stock +
        ((((IEEE.registerTrace roundDouble h s calls).flatMap Outcome.appended).filter
          (fun m => m.productId == pid)).map (fun m => m.quantity)).sum) ∧
    (∀ before f md after, calls = before ++ (f, md) :: after →
      (∀ r, (IEEE.registerMovement roundDouble h f
          (IEEE.registerAll roundDouble h s before) md).result? = some r →
        r.success = false) →
      IEEE.registerAll roundDouble h s calls =
        IEEE.registerAll roundDouble h s (before ++ after)) := by
  have hex := ieee_exact_of_integers h calls s B hint hlow hB hq hbound
  obtain ⟨hall, htrace⟩ := ieee_registerAll_exact roundDouble h calls s hex
  obtain ⟨hmovements, hstock, hrejected⟩ := conservation_exact h calls s pid p hp
  rw [hall, htrace]
  refine ⟨hmovements, hstock, ?_⟩
  intro before f md after hcalls hrej
  subst hcalls
  obtain ⟨hexBefore, hexStep, -⟩ := ieee_exact_append roundDouble h before ((f, md) :: after) s hex
  have hbefore := (ieee_registerAll_exact roundDouble h before s hexBefore).1
  rw [ieee_registerMovement_exact roundDouble h f _ md hexStep, hbefore] at hrej
  have hexShort : IEEE.Exact roundDouble h s (before ++ after) := by
    refine ieee_exact_of_integers h (before ++ after) s B hint hlow hB ?_ ?_
    · intro c hc
      rcases List.mem_append.mp hc with hc | hc
      · exact hq c (List.mem_append_left _ hc)
      · exact hq c (List.mem_append_right _ (List.mem_cons_of_mem _ hc))
    · simp only [List.map_append, List.sum_append, List.map_cons, List.sum_cons] at hbound ⊢
      linarith [abs_nonneg (storedNumber h md.quantity)]
  rw [(ieee_registerAll_exact roundDouble h (before ++ after) s hexShort).1]
  exact hrejected before f md after rfl hrej

/-- Witness for C7 as amended: a rejected exit of 10, an entry of 20 and an exit of 3 on a
stock of 5 leave 5 + 20 - 3. -/
theorem conservation_witness :
    ∃ p', getProductById
        (IEEE.registerAll roundDouble decimalHost shop
          [(tick, exit10), (tick, entry20), (tock, exit3)])
        (some "p1") = some p' ∧
      p'.stock = widget.stock +
        ((((IEEE.registerTrace roundDouble decimalHost shop
            [(tick, exit10), (tick, entry20), (tock, exit3)]).flatMap Outcome.appended).filter
          (fun m => m.productId == "p1")).map (fun m => m.quantity)).sum :=
  (conservation decimalHost [(tick, exit10), (tick, entry20), (tock, exit3)] shop "p1" widget 5
    (by decide!) (by decide!) (by decide!) (by decide!) (by decide!) (by decide!)).2.1

/-- Counterexample to C7 as stated. On a stock of `2 ^ 53`, two entries of one unit each
succeed and are appended with the quantity 1, and the stock stays `2 ^ 53`, the double
nearest to `2 ^ 53 + 1`, not `2 ^ 53 + 2`. On a stock of `0.1`, an entry of `0.2` and one of
`0.3` succeed and leave the double `0.6000000000000001`, which is not the sum of the
initial stock and the two quantities. -/
theorem conservation_counterexample :
    ((0 : ℚ) ≤ bigWidget.stock ∧
      (IEEE.registerTrace roundDouble decimalHost bigShop [(tick, entry1), (tock, entry1)]).map
        (fun o => o.result?.map (fun r => r.success)) = [some true, some true] ∧
      ((IEEE.registerTrace roundDouble decimalHost bigShop
          [(tick, entry1), (tock, entry1)]).flatMap Outcome.appended).map
        (fun m => m.quantity) = [1, 1] ∧
      (IEEE.registerAll roundDouble decimalHost bigShop
          [(tick, entry1), (tock, entry1)]).products.map (fun p => p.stock) =
        [9007199254740992] ∧
      bigWidget.stock + (1 + 1) ≠ 9007199254740992) ∧
    ((0 : ℚ) ≤ tenth ∧
      (IEEE.registerTrace roundDouble decimalHost tenthShop
          [(tick, entryFifth), (tock, entryThreeTenths)]).map
        (fun o => o.result?.map (fun r => r.success)) = [some true, some true] ∧
      ((IEEE.registerTrace roundDouble decimalHost tenthShop
          [(tick, entryFifth), (tock, entryThreeTenths)]).flatMap Outcome.appended).map
        (fun m => m.quantity) = [fifth, threeTenths] ∧
      (IEEE.registerAll roundDouble decimalHost tenthShop
          [(tick, entryFifth), (tock, entryThreeTenths)]).products.map (fun p => p.stock) =
        [5404319552844596 / 9007199254740992] ∧
      tenth + (fifth + threeTenths) ≠ 5404319552844596 / 9007199254740992) := by
  decide!

/-! ## Stock levels in the arithmetic of the engine -/

/-- The computed percentage does not exceed 150 when the exact one does not. -/
theorem ieee_percentage_le (stock minStock : ℚ) (hmin : 0 < minStock) (hlt : minStock < stock)
    (hle : 100 * stock ≤ 150 * minStock) : IEEE.percentage roundDouble stock minStock ≤ 150 := by
  unfold IEEE.percentage
  have hratioPos : 0 < stock / minStock := div_pos (lt_trans hmin hlt) hmin
  have hratio : stock / minStock ≤ 3 / 2 := by
    rw [div_le_iff₀ hmin]
    linarith
  have hquotient : roundDouble (stock / minStock) ≤ 3 / 2 :=
    roundDouble_le_half _ _ hratioPos hratio
      (lt_of_le_of_lt hratio (by norm_num)) 3 (by norm_num)
  have hnonneg := roundDouble_nonneg (stock / minStock) hratioPos.le
  rcases eq_or_lt_of_le hnonneg with h0 | hpos
  · rw [← h0]
    simp [roundDouble]
  · have hproduct : roundDouble (stock / minStock) * 100 ≤ 150 := by linarith
    exact roundDouble_le_half _ _ (by positivity) hproduct
      (lt_of_le_of_lt hproduct (by norm_num)) 300 (by norm_num)

/-- The four answers of `getStockStatus` in the arithmetic of the engine. -/
theorem ieee_getStockStatus_cases (fl : ℚ → ℚ) {stock minStock : ℚ} (hstock : 0 ≤ stock)
    (hmin : 0 < minStock) :
    (stock = 0 ∧ IEEE.getStockStatus fl stock minStock =
      { text := "Sin Stock", className := "danger", badge := "badge-stock-bajo" }) ∨
    (0 < stock ∧ stock ≤ minStock ∧ IEEE.getStockStatus fl stock minStock =
      { text := "Stock Bajo", className := "warning", badge := "badge-stock-bajo" }) ∨
    (minStock < stock ∧ IEEE.percentage fl stock minStock ≤ 150 ∧
      IEEE.getStockStatus fl stock minStock =
        { text := "Stock Normal", className := "success", badge := "badge-stock-normal" }) ∨
    (minStock < stock ∧ 150 < IEEE.percentage fl stock minStock ∧
      IEEE.getStockStatus fl stock minStock =
        { text := "Stock Alto", className := "info", badge := "badge-stock-alto" }) := by
  unfold IEEE.getStockStatus
  simp only [hmin.ne', if_false]
  by_cases h0 : stock = 0
  · exact Or.inl ⟨h0, by simp [h0]⟩
  have hpos : 0 < stock := lt_of_le_of_ne hstock (Ne.symm h0)
  by_cases hle : stock ≤ minStock
  · exact Or.inr (Or.inl ⟨hpos, hle, by simp [h0, hle]⟩)
  have hlt : minStock < stock := not_le.mp hle
  by_cases hpct : IEEE.percentage fl stock minStock ≤ 150
  · exact Or.inr (Or.inr (Or.inl ⟨hlt, hpct, by simp [h0, hle, hpct]⟩))
  · exact Or.inr (Or.inr (Or.inr ⟨hlt, not_le.mp hpct, by simp [h0, hle, hpct]⟩))

/-- C18, as amended. Stock-health classification in the arithmetic of the engine: for
`stock ≥ 0` and `minStock > 0`, `getStockStatus(stock, minStock)` answers `Sin Stock`
(class `danger`) exactly when `stock = 0`, `Stock Bajo` (`warning`) exactly when
`0 < stock ≤ minStock`, `Stock Normal` (`success`) exactly when `minStock < stock` and the
computed percentage, the double of `(stock / minStock) * 100`, is at most 150, and
`Stock Alto` (`info`) exactly when `minStock < stock` and the computed percentage is above
150. The computed percentage is at most 150 whenever `100 * stock ≤ 150 * minStock`, so a
stock above the minimum with `100 * stock ≤ 150 * minStock` is `Stock Normal`, and
`Stock Alto` is answered only when `100 * stock > 150 * minStock`. -/
theorem stock_status_classification (stock minStock : ℚ) (hstock : 0 ≤ stock)
    (hmin : 0 < minStock) :
    ((IEEE.getStockStatus roundDouble stock minStock).text = "Sin Stock" ↔ stock = 0) ∧
    ((IEEE.getStockStatus roundDouble stock minStock).text = "Stock Bajo" ↔
      0 < stock ∧ stock ≤ minStock) ∧
    ((IEEE.getStockStatus roundDouble stock minStock).text = "Stock Normal" ↔
      minStock < stock ∧ IEEE.percentage roundDouble stock minStock ≤ 150) ∧
    ((IEEE.getStockStatus roundDouble stock minStock).text = "Stock Alto" ↔
      minStock < stock ∧ 150 < IEEE.percentage roundDouble stock minStock) ∧
    (minStock < stock → 100 * stock ≤ 150 * minStock →
      (IEEE.getStockStatus roundDouble stock minStock).text = "Stock Normal") ∧
    ((IEEE.getStockStatus roundDouble stock minStock).text = "Stock Alto" →
      100 * stock > 150 * minStock) ∧
    ((IEEE.getStockStatus roundDouble stock minStock).text = "Sin Stock" →
      (IEEE.getStockStatus roundDouble stock minStock).className = "danger") ∧
    ((IEEE.getStockStatus roundDouble stock minStock).text = "Stock Bajo" →
      (IEEE.getStockStatus roundDouble stock minStock).className = "warning") ∧
    ((IEEE.getStockStatus roundDouble stock minStock).text = "Stock Normal" →
      (IEEE.getStockStatus roundDouble stock minStock).className = "success") ∧
    ((IEEE.getStockStatus roundDouble stock minStock).text = "Stock Alto" →
      (IEEE.getStockStatus roundDouble stock minStock).className = "info") := by
  rcases ieee_getStockStatus_cases roundDouble hstock hmin with ⟨h0, hst⟩ | ⟨hpos, hle, hst⟩ |
    ⟨hlt, hpct, hst⟩ | ⟨hlt, hpct, hst⟩
  · rw [hst]
    subst h0
    refine ⟨by simp, ?_, ?_, ?_, ?_, ?_, by simp, by simp, by simp, by simp⟩
    · simp
    · refine iff_of_false (by decide) ?_
      rintro ⟨hlt, -⟩
      linarith
    · refine iff_of_false (by decide) ?_
      rintro ⟨hlt, -⟩
      linarith
    · intro hlt
      linarith
    · intro hc
      exact absurd hc (by decide)
  · rw [hst]
    refine ⟨?_, ?_, ?_, ?_, ?_, ?_, by simp, by simp, by simp, by simp⟩
    · exact iff_of_false (by decide) (ne_of_gt hpos)
    · exact iff_of_true rfl ⟨hpos, hle⟩
    · refine iff_of_false (by decide) ?_
      rintro ⟨hlt, -⟩
      linarith
    · refine iff_of_false (by decide) ?_
      rintro ⟨hlt, -⟩
      linarith
    · intro hlt
      linarith
    · intro hc
      exact absurd hc (by decide)
  · rw [hst]
    have hpos : 0 < stock := lt_trans hmin hlt
    refine ⟨?_, ?_, ?_, ?_, ?_, ?_, by simp, by simp, by simp, by simp⟩
    · exact iff_of_false (by decide) (ne_of_gt hpos)
    · refine iff_of_false (by decide) ?_
      rintro ⟨-, hle⟩
      linarith
    · exact iff_of_true rfl ⟨hlt, hpct⟩
    · refine iff_of_false (by decide) ?_
      rintro ⟨-, hgt⟩
      linarith
    · intro _ _
      rfl
    · intro hc
      exact absurd hc (by decide)
  · rw [hst]
    have hpos : 0 < stock := lt_trans hmin hlt
    have hexact : 100 * stock > 150 * minStock := by
      by_contra hc
      have := ieee_percentage_le stock minStock hmin hlt (not_lt.mp hc)
      linarith
    refine ⟨?_, ?_, ?_, ?_, ?_, ?_, by simp, by simp, by simp, by simp⟩
    · exact iff_of_false (by decide) (ne_of_gt hpos)
    · refine iff_of_false (by decide) ?_
      rintro ⟨-, hle⟩
      linarith
    · refine iff_of_false (by decide) ?_
      rintro ⟨-, hle⟩
      linarith
    · exact iff_of_true rfl ⟨hlt, hpct⟩
    · intro _ hle
      linarith
    · intro _
      exact hexact

/-- Witness for C18 as amended, scenarios A and C: `(5, 5)` is `Stock Bajo`, `(25, 10)` is
`Stock Alto`. -/
theorem stock_status_classification_witness :
    (IEEE.getStockStatus roundDouble 5 5).text = "Stock Bajo" ∧
      (IEEE.getStockStatus roundDouble 25 10).text = "Stock Alto" :=
  ⟨(stock_status_classification 5 5 (by decide!) (by decide!)).2.1.mpr
      ⟨by decide!, by decide!⟩,
    (stock_status_classification 25 10 (by decide!) (by decide!)).2.2.2.1.mpr
      ⟨by decide!, by decide!⟩⟩

/-- Counterexample to C18 as stated: for the stock `6755399441055746` and the minimum
`4503599627370497`, `100 * stock` is above `150 * minStock`, the double of the quotient is
`1.5`, the computed percentage is 150, and the answer is `Stock Normal`, not
`Stock Alto`. -/
theorem stock_status_classification_counterexample :
    (0 : ℚ) ≤ 6755399441055746 ∧ (0 : ℚ) < 4503599627370497 ∧
    (100 : ℚ) * 6755399441055746 > 150 * 4503599627370497 ∧
    roundDouble (6755399441055746 / 4503599627370497) = 3 / 2 ∧
    IEEE.percentage roundDouble 6755399441055746 4503599627370497 = 150 ∧
    (IEEE.getStockStatus roundDouble 6755399441055746 4503599627370497).text =
      "Stock Normal" := by
  decide!

/-! ## Aggregations read and do not write -/

theorem script_run_bind {α β : Type} (p : Script α) (f : α → Script β) (ls : LocalStorage) :
    (p.bind f).run ls = (f (p.run ls).1).run (p.run ls).2 := by
  induction p generalizing ls with
  | done value => rfl
  | getItem key next ih => exact ih _ ls
  | setItem key text next ih => exact ih _

theorem script_readOnly_bind {α β : Type} (p : Script α) (f : α → Script β)
    (hp : p.ReadOnly) (hf : ∀ a, (f a).ReadOnly) : (p.bind f).ReadOnly := by
  induction p with
  | done value => exact hf value
  | getItem key next ih => exact fun data => ih data (hp data)
  | setItem key text next _ => exact hp.elim

/-- A script that writes no item leaves the storage as it found it. -/
theorem script_run_readOnly {α : Type} (p : Script α) (hp : p.ReadOnly) (ls : LocalStorage) :
    (p.run ls).2 = ls := by
  induction p with
  | done value => rfl
  | getItem key next ih => exact ih _ (hp _)
  | setItem key text next _ => exact hp.elim

/-- A script that writes an item is not read-only: `saveMovements` is none. -/
theorem saveMovements_not_readOnly (j : Json) (movements : List Movement) :
    ¬ (Script.saveMovements j movements).ReadOnly :=
  fun hc => hc

theorem getFromStorage_readOnly {α : Type} (parse : String → Option α) (key : String) :
    (Script.getFromStorage parse key).ReadOnly :=
  fun _ => trivial

theorem getProducts_readOnly (j : Json) : (Script.getProducts j).ReadOnly :=
  script_readOnly_bind _ _ (getFromStorage_readOnly _ _) (fun _ => trivial)

theorem getMovements_readOnly (j : Json) : (Script.getMovements j).ReadOnly :=
  script_readOnly_bind _ _ (getFromStorage_readOnly _ _) (fun _ => trivial)

/-- Each of the eight bodies writes no item. -/
theorem aggregation_script_readOnly (j : Json) (h : Host) (cal : Calendar) (now : Int)
    (a : Aggregation) : (a.script j h cal now).ReadOnly := by
  cases a
  case inventoryStats =>
    refine script_readOnly_bind _ _ ?_ (fun _ => trivial)
    refine script_readOnly_bind _ _ (getProducts_readOnly j) (fun _ => ?_)
    exact script_readOnly_bind _ _ (getMovements_readOnly j) (fun _ => trivial)
  case lowStockProducts =>
    refine script_readOnly_bind _ _ ?_ (fun _ => trivial)
    exact script_readOnly_bind _ _ (getProducts_readOnly j) (fun _ => trivial)
  case topMovedProducts limit =>
    refine script_readOnly_bind _ _ ?_ (fun _ => trivial)
    refine script_readOnly_bind _ _ (getMovements_readOnly j) (fun _ => ?_)
    exact script_readOnly_bind _ _ (getProducts_readOnly j) (fun _ => trivial)
  case userActivity =>
    refine script_readOnly_bind _ _ ?_ (fun _ => trivial)
    exact script_readOnly_bind _ _ (getMovements_readOnly j) (fun _ => trivial)
  case movementsByDay days =>
    refine script_readOnly_bind _ _ ?_ (fun _ => trivial)
    exact script_readOnly_bind _ _ (getMovements_readOnly j) (fun _ => trivial)
  case productStatistics productId =>
    refine script_readOnly_bind _ _ ?_ (fun _ => trivial)
    refine script_readOnly_bind _ _ (getProducts_readOnly j) (fun products => ?_)
    cases Inventarios.getProductById (parsed products []) (some productId) with
    | none => trivial
    | some _ => exact script_readOnly_bind _ _ (getMovements_readOnly j) (fun _ => trivial)
  case recentMovements limit =>
    refine script_readOnly_bind _ _ ?_ (fun _ => trivial)
    exact script_readOnly_bind _ _ (getMovements_readOnly j) (fun _ => trivial)
  case filteredMovements filters =>
    refine script_readOnly_bind _ _ ?_ (fun _ => trivial)
    exact script_readOnly_bind _ _ (getMovements_readOnly j) (fun _ => trivial)

theorem getProductStatistics_run (j : Json) (productId : String) (ls : LocalStorage) :
    ((Script.getProductStatistics j productId).run ls).1 =
      getProductStatistics (ls.store j) productId := by
  have hrun : (Script.getProductStatistics j productId).run ls =
      (match getProductById (parsed ((Script.getProducts j).run ls).1 []) (some productId) with
        | none => Script.done none
        | some _ =>
          (Script.getMovements j).bind (fun movements =>
            Script.done (getProductStatistics
              (parsed ((Script.getProducts j).run ls).1 movements) productId))).run ls := by
    show ((Script.getProducts j).bind _).run ls = _
    rw [script_run_bind, script_run_readOnly _ (getProducts_readOnly j)]
    rfl
  rw [hrun]
  cases hfind : getProductById (parsed ((Script.getProducts j).run ls).1 []) (some productId) with
  | none =>
    have hpure : getProductById (ls.store j) (some productId) = none := hfind
    simp only [getProductStatistics, hpure, Script.run]
  | some p =>
    simp only [script_run_bind, Script.run]
    rfl

/-- The value a body returns is the value of the function on the parsed collections. -/
theorem aggregation_call_value (j : Json) (h : Host) (cal : Calendar) (now : Int)
    (a : Aggregation) (ls : LocalStorage) :
    (a.call j h cal now ls).1 = a.value h cal now (ls.store j) := by
  cases a
  case productStatistics productId =>
    show (((Script.getProductStatistics j productId).bind _).run ls).1 = _
    rw [script_run_bind]
    exact congrArg Aggregate.statistics (getProductStatistics_run j productId ls)
  all_goals rfl

/-- C25. Aggregation is read-only and repeatable: the body of each of the eight
aggregation functions, as the sequence of its calls on `localStorage`, contains no write;
a call at a fixed clock value therefore leaves the storage as it found it, so the
products and the movements parsed from it afterwards are those parsed before, in the same
order; the value returned is the value of the function on the parsed collections; and a
second call, directly after the first or after a call of any other aggregation function,
returns the same value. -/
theorem aggregation_read_only (j : Json) (h : Host) (cal : Calendar) (now : Int)
    (a : Aggregation) (ls : LocalStorage) :
    (a.script j h cal now).ReadOnly ∧
    (a.call j h cal now ls).2 = ls ∧
    ((a.call j h cal now ls).2.store j).products = (ls.store j).products ∧
    ((a.call j h cal now ls).2.store j).movements = (ls.store j).movements ∧
    (a.call j h cal now ls).1 = a.value h cal now (ls.store j) ∧
    (a.call j h cal now (a.call j h cal now ls).2).1 = (a.call j h cal now ls).1 ∧
    (∀ b : Aggregation,
      (a.call j h cal now (b.call j h cal now ls).2).1 = (a.call j h cal now ls).1) := by
  have hstorage : ∀ (b : Aggregation) (t : LocalStorage), (b.call j h cal now t).2 = t :=
    fun b t => script_run_readOnly _ (aggregation_script_readOnly j h cal now b) t
  refine ⟨aggregation_script_readOnly j h cal now a, hstorage a ls, by rw [hstorage],
    by rw [hstorage], aggregation_call_value j h cal now a ls, by rw [hstorage], ?_⟩
  intro b
  rw [hstorage b ls]

/-- A storage whose movements text parses to the widget's two movements, the older one
first: the recent movements come back newest first, the storage is left as it was, and
the movements parsed from it afterwards are in the stored order. -/
theorem recent_movements_keeps_order (j : Json)
    (hparse : j.parseMovements "[m0,m9]" = some [widgetMovement, laterMovement]) :
    (Aggregation.call j decimalHost utc noonOfDay10 (.recentMovements 10)
        { items := [("inventory_movements", "[m0,m9]")] }).1 =
      .movements [laterMovement, widgetMovement] ∧
    ((Script.getMovements j).run
        (Aggregation.call j decimalHost utc noonOfDay10 (.recentMovements 10)
          { items := [("inventory_movements", "[m0,m9]")] }).2).1 =
      [widgetMovement, laterMovement] := by
  have hread : ((Script.getMovements j).run
      { items := [("inventory_movements", "[m0,m9]")] }).1 =
      [widgetMovement, laterMovement] := by
    show ((if truthy (LocalStorage.getItem { items := [("inventory_movements", "[m0,m9]")] }
        "inventory_movements") then
          j.parseMovements ((LocalStorage.getItem
            { items := [("inventory_movements", "[m0,m9]")] } "inventory_movements").getD "")
        else none).getD []) = _
    have hitem : LocalStorage.getItem { items := [("inventory_movements", "[m0,m9]")] }
        "inventory_movements" = some "[m0,m9]" := by decide
    rw [hitem, show truthy (some "[m0,m9]") = true by decide, if_pos rfl]
    simp [hparse]
  have hsorted : getRecentMovements (parsed [] [widgetMovement, laterMovement]) 10 =
      [laterMovement, widgetMovement] := by decide!
  constructor
  · rw [aggregation_call_value]
    show Aggregate.movements (getRecentMovements (LocalStorage.store j _) 10) = _
    have hstore : (LocalStorage.store j { items := [("inventory_movements", "[m0,m9]")] }) =
        parsed ((Script.getProducts j).run
          { items := [("inventory_movements", "[m0,m9]")] }).1
          [widgetMovement, laterMovement] := by
      unfold LocalStorage.store
      rw [hread]
    rw [hstore]
    exact congrArg Aggregate.movements hsorted
  · rw [show (Aggregation.call j decimalHost utc noonOfDay10 (.recentMovements 10)
        { items := [("inventory_movements", "[m0,m9]")] }).2 =
        { items := [("inventory_movements", "[m0,m9]")] } from
      script_run_readOnly _ (aggregation_script_readOnly j decimalHost utc noonOfDay10 _) _]
    exact hread

/-! ## Soundness of the reachable stores -/

/-- Every store that the application reaches is sound: the hypotheses on stocks, ids and
movement types of the statements above hold on it. -/
theorem reachable_sound (h : Host) (s : Store) (hr : Reachable h s) : s.Sound := by
  induction hr with
  | seeded s hs _ => exact hs
  | session s user _ huser ih =>
    exact ⟨ih.stocks, ih.ids, ih.distinct, ih.types, ih.productIds, ih.userIds, huser⟩
  | create s f pd _ hne hinh hfresh ih =>
    by_cases hv : (validateProductData h pd).valid = true
    swap
    · rw [createProduct_invalid (by simpa using hv)]
      exact ih
    by_cases hdup : productCodeExists s pd.code none = true
    · rw [createProduct_duplicate hv hdup]
      exact ih
    rw [createProduct_fresh hv (by simpa using hdup)]
    obtain ⟨-, -, -, -, ⟨q, hq, hq0⟩, -⟩ := validateProductData_valid hv
    refine ⟨?_, ?_, ?_, ih.types, ih.productIds, ih.userIds, ih.user⟩
    · intro x hx
      simp only [List.mem_append, List.mem_singleton] at hx
      rcases hx with hx | rfl
      · exact ih.stocks x hx
      · simpa [storedNumber_of_jsNumber hq] using hq0
    · intro x hx
      simp only [List.mem_append, List.mem_singleton] at hx
      rcases hx with hx | rfl
      · exact ih.ids x hx
      · exact ⟨hne, hinh⟩
    · simp only [List.map_append, List.map_cons, List.map_nil]
      refine List.Nodup.append ih.distinct (List.nodup_singleton _) ?_
      simp only [List.disjoint_singleton, List.mem_map, not_exists, not_and]
      exact fun x hx => hfresh x hx
  | edit s f id pd _ ih =>
    rcases editProduct_cases h f s id pd with hst | ⟨p, front, back, p', hsplit, -, -, hid,
      hstock, -, -, -, hst⟩
    · rw [hst]
      exact ih
    · rw [hst]
      have hp : p ∈ s.products := by rw [hsplit]; simp
      refine ⟨?_, ?_, ?_, ih.types, ih.productIds, ih.userIds, ih.user⟩
      · intro x hx
        simp only [List.mem_append, List.mem_cons] at hx
        rcases hx with hx | rfl | hx
        · exact ih.stocks x (by rw [hsplit]; simp [hx])
        · rw [hstock]
          exact ih.stocks p hp
        · exact ih.stocks x (by rw [hsplit]; simp [hx])
      · intro x hx
        simp only [List.mem_append, List.mem_cons] at hx
        rcases hx with hx | rfl | hx
        · exact ih.ids x (by rw [hsplit]; simp [hx])
        · rw [hid]
          exact ih.ids p hp
        · exact ih.ids x (by rw [hsplit]; simp [hx])
      · have := ih.distinct
        rw [hsplit] at this
        simpa [List.map_append, List.map_cons, hid] using this
  | remove s id _ ih =>
    rcases removeProduct_products s id with hst | hst
    · rw [hst]
      exact ih
    · rw [hst]
      refine ⟨?_, ?_, ?_, ih.types, ih.productIds, ih.userIds, ih.user⟩
      · exact fun x hx => ih.stocks x (List.mem_filter.mp hx).1
      · exact fun x hx => ih.ids x (List.mem_filter.mp hx).1
      · exact List.Nodup.sublist ((List.filter_sublist _).map _) ih.distinct
  | register s f md _ ih =>
    rcases registerMovement_cases h f s md with ⟨hst, -⟩ |
      ⟨p, front, back, u, q, hv, hp, hsplit, -, hq, -, hu, hnew, hst, -⟩
    · rw [hst]
      exact ih
    · rw [hst]
      have hpmem : p ∈ s.products := getProductById_mem hp
      obtain ⟨-, -, htype, -, -, -⟩ := validateMovementData_valid hv
      refine ⟨?_, ?_, ?_, ?_, ?_, ?_, ih.user⟩
      · intro x hx
        simp only [List.mem_append, List.mem_cons] at hx
        rcases hx with hx | rfl | hx
        · exact ih.stocks x (by rw [hsplit]; simp [hx])
        · exact hnew
        · exact ih.stocks x (by rw [hsplit]; simp [hx])
      · intro x hx
        simp only [List.mem_append, List.mem_cons] at hx
        rcases hx with hx | rfl | hx
        · exact ih.ids x (by rw [hsplit]; simp [hx])
        · exact ih.ids p hpmem
        · exact ih.ids x (by rw [hsplit]; simp [hx])
      · have := ih.distinct
        rw [hsplit] at this
        simpa [List.map_append, List.map_cons] using this
      · intro m hm
        simp only [List.mem_append, List.mem_singleton] at hm
        rcases hm with hm | rfl
        · exact ih.types m hm
        · rcases htype with ht | ht <;> simp [addMovement, newMovementOf, ht]
      · intro m hm
        simp only [List.mem_append, List.mem_singleton] at hm
        rcases hm with hm | rfl
        · exact ih.productIds m hm
        · exact (ih.ids p hpmem).2
      · intro m hm
        simp only [List.mem_append, List.mem_singleton] at hm
        rcases hm with hm | rfl
        · exact ih.userIds m hm
        · exact ih.user u hu

/-! ## The host of the scenarios -/

/-- The conversions of the host of the scenarios on sample values: `Number` of the empty
text, of a padded text and of a decimal, which is the double nearest to it, and of texts
that are no numbers; the text of whole numbers, of `2.5` and of the doubles `0.1` and
`0.1 + 0.2`. -/
theorem decimalHost_samples :
    decimalHost.stringToNumber "" = some 0 ∧
    decimalHost.stringToNumber " 5 " = some 5 ∧
    decimalHost.stringToNumber "19.90" = some (2800676018271027 / 140737488355328) ∧
    decimalHost.stringToNumber "-2.5" = some (-5 / 2) ∧
    decimalHost.stringToNumber "abc" = none ∧
    decimalHost.stringToNumber "1.2.3" = none ∧
    decimalHost.numberToString 5 = "5" ∧
    decimalHost.numberToString (-7) = "-7" ∧
    decimalHost.numberToString (5 / 2) = "2.5" ∧
    decimalHost.numberToString tenth = "0.1" ∧
    decimalHost.numberToString (roundDouble (tenth + fifth)) = "0.30000000000000004" := by
  decide!

/-! ## The postcondition of a registration -/

theorem ieee_updateProductStock_split (fl : ℚ → ℚ) (now : Int) (s : Store) (c : ℚ)
    {front back : List Product} {p : Product}
    (hsplit : s.products = front ++ p :: back) (hfront : ∀ a ∈ front, a.id ≠ p.id) :
    IEEE.updateProductStock fl now s p.id c =
      ({ s with products :=
          front ++ { p with stock := fl (p.stock + c), updatedAt := now } :: back },
        some { p with stock := fl (p.stock + c), updatedAt := now }) := by
  have hfind : getProductById s (some p.id) = some p := by
    unfold getProductById
    rw [hsplit]
    exact find_split hfront
  unfold IEEE.updateProductStock
  simp only [hfind]
  rw [updateProduct_split now s _ hsplit hfront]
  simp [ProductPatch.apply]

/-- The result and the store of a registration in the arithmetic of the engine that
passes every guard. -/
theorem ieee_registerMovement_ok (fl : ℚ → ℚ) {h : Host} {f : Fresh} {s : Store}
    {md : MovementData} {p : Product} {q : ℚ} {u : User}
    (hv : (validateMovementData h s md).valid = true)
    (hp : getProductById s md.productId = some p)
    (hq : jsNumber h md.quantity = some q)
    (hnew : 0 ≤ fl (p.stock + signedQuantity md q))
    (hu : s.currentUser = some u) :
    ∃ r p', (IEEE.registerMovement fl h f s md).result? = some r ∧ r.success = true ∧
      r.message = (if md.type == some ENTRADA then "Entrada" else "Salida") ++
        " registrada exitosamente" ∧
      getProductById (IEEE.registerMovement fl h f s md).store md.productId = some p' ∧
      p'.stock = fl (p.stock + signedQuantity md q) := by
  obtain ⟨front, back, hsplit, hfront⟩ := getProductById_split hp
  have hneg : ¬ fl (p.stock + signedQuantity md q) < 0 := not_lt.mpr hnew
  have hpid := getProductById_some_id hp
  have hrun : IEEE.registerMovement fl h f s md =
      .returned
        (IEEE.updateProductStock fl f.later
          (addMovement f s
            { productId := p.id, productCode := p.code, productName := p.name,
              type := md.type.getD "", quantity := signedQuantity md q,
              reason := md.reason.getD "", notes := orEmpty md.notes,
              previousStock := p.stock, newStock := fl (p.stock + signedQuantity md q),
              userId := u.id,
              userName := if truthy u.fullName then u.fullName.getD "" else u.username }).1
          p.id (signedQuantity md q)).1
        { success := true
          movement := some (addMovement f s
            { productId := p.id, productCode := p.code, productName := p.name,
              type := md.type.getD "", quantity := signedQuantity md q,
              reason := md.reason.getD "", notes := orEmpty md.notes,
              previousStock := p.stock, newStock := fl (p.stock + signedQuantity md q),
              userId := u.id,
              userName := if truthy u.fullName then u.fullName.getD "" else u.username }).2
          message := (if md.type == some ENTRADA then "Entrada" else "Salida") ++
            " registrada exitosamente" }
        (if fl (p.stock + signedQuantity md q) ≤ p.minStock && md.type == some SALIDA then
          some
            { message := "Alerta: " ++ p.name ++ " ahora tiene stock bajo (" ++
                h.numberToString (fl (p.stock + signedQuantity md q)) ++ " unidades)"
              type := "warning" }
        else none) := by
    unfold IEEE.registerMovement
    simp only [signedQuantity] at hneg
    simp only [hv, hp, storedNumber_of_jsNumber hq, Bool.not_true, Bool.false_eq_true,
      if_false, getCurrentUser, signedQuantity, hneg, hu]
  rw [hrun]
  have hs1 : (addMovement f s
      { productId := p.id, productCode := p.code, productName := p.name,
        type := md.type.getD "", quantity := signedQuantity md q,
        reason := md.reason.getD "", notes := orEmpty md.notes,
        previousStock := p.stock, newStock := fl (p.stock + signedQuantity md q),
        userId := u.id,
        userName := if truthy u.fullName then u.fullName.getD "" else u.username }).1.products =
      front ++ p :: back := by
    simp [addMovement, hsplit]
  rw [ieee_updateProductStock_split fl f.later _ _ hs1 hfront]
  refine ⟨_, { p with stock := fl (p.stock + signedQuantity md q), updatedAt := f.later },
    rfl, rfl, rfl, ?_, rfl⟩
  simp only [Outcome.store]
  rw [hpid]
  exact getProductById_replaced hfront rfl

/-- C4. Successful registration postcondition: on a store whose stocks are at least zero
and whose product ids are not empty, as in every store written by the operations, with a
current user, a request whose id resolves to an existing product `p`, a positive quantity
`q` and a non-blank reason, `registerMovement` of type `entrada` returns `success = true`
with the message `Entrada registrada exitosamente` and leaves the product with the stock
`p.stock + q`; of type `salida` with `q ≤ p.stock` it returns `success = true` with
`Salida registrada exitosamente` and leaves the stock `p.stock - q`. The sum is the one of
`previousStock + stockChange`: the exact sum in `registerMovement`, and in
`IEEE.registerMovement`, with the same result and message, the double nearest to it. -/
theorem registration_postcondition (h : Host) (f : Fresh) (s : Store) (md : MovementData)
    (p : Product) (q : ℚ) (u : User)
    (hstocks : ∀ x ∈ s.products, 0 ≤ x.stock)
    (hids : ∀ x ∈ s.products, x.id ≠ "")
    (hu : s.currentUser = some u)
    (hp : getProductById s md.productId = some p)
    (hq : jsNumber h md.quantity = some q) (hpos : 0 < q)
    (hreason : isEmpty md.reason = false) :
    (md.type = some ENTRADA →
      (∃ r p', (registerMovement h f s md).result? = some r ∧ r.success = true ∧
        r.message = "Entrada registrada exitosamente" ∧
        getProductById (registerMovement h f s md).store md.productId = some p' ∧
        p'.stock = p.stock + q) ∧
      (∃ r p', (IEEE.registerMovement roundDouble h f s md).result? = some r ∧
        r.success = true ∧ r.message = "Entrada registrada exitosamente" ∧
        getProductById (IEEE.registerMovement roundDouble h f s md).store md.productId =
          some p' ∧
        p'.stock = roundDouble (p.stock + q))) ∧
    (md.type = some SALIDA → q ≤ p.stock →
      (∃ r p', (registerMovement h f s md).result? = some r ∧ r.success = true ∧
        r.message = "Salida registrada exitosamente" ∧
        getProductById (registerMovement h f s md).store md.productId = some p' ∧
        p'.stock = p.stock - q) ∧
      (∃ r p', (IEEE.registerMovement roundDouble h f s md).result? = some r ∧
        r.success = true ∧ r.message = "Salida registrada exitosamente" ∧
        getProductById (IEEE.registerMovement roundDouble h f s md).store md.productId =
          some p' ∧
        p'.stock = roundDouble (p.stock - q))) := by
  have hmem := getProductById_mem hp
  have hid : truthy md.productId = true := by
    rw [getProductById_some_id hp]
    simpa [truthy] using hids p hmem
  obtain ⟨hentrada, hsalida⟩ :=
    registerMovement_postcondition h f s md p q u hu hid hp hq hpos hreason
  constructor
  · intro ht
    refine ⟨hentrada ht (add_nonneg (hstocks p hmem) hpos.le), ?_⟩
    have hv : (validateMovementData h s md).valid = true :=
      (validateMovementData_valid_iff h s md).mpr
        ⟨hid, ⟨p, hp⟩, Or.inl ht, ⟨q, hq, hpos⟩, hreason, by
          intro hsal
          rw [ht] at hsal
          exact absurd hsal (by decide)⟩
    have hsq : signedQuantity md q = q := by simp [signedQuantity, ht]
    obtain ⟨r, p', hr, hsucc, hmsg, hfind, hstock⟩ :=
      ieee_registerMovement_ok roundDouble (f := f) hv hp hq
        (roundDouble_nonneg _ (by rw [hsq]; exact add_nonneg (hstocks p hmem) hpos.le)) hu
    refine ⟨r, p', hr, hsucc, ?_, hfind, by rw [hstock, hsq]⟩
    rw [hmsg, ht]
    decide
  · intro ht hle
    refine ⟨hsalida ht hle, ?_⟩
    have hv : (validateMovementData h s md).valid = true :=
      (validateMovementData_valid_iff h s md).mpr
        ⟨hid, ⟨p, hp⟩, Or.inr ht, ⟨q, hq, hpos⟩, hreason, by
          intro _ p₂ hp₂
          rw [hp] at hp₂
          cases hp₂
          cases hgt : numberGt h md.quantity p.stock with
          | false => rfl
          | true =>
            obtain ⟨q₂, hq₂, hlt⟩ := (numberGt_iff _ _ _).mp hgt
            rw [hq] at hq₂
            cases hq₂
            exact absurd hlt (not_lt.mpr hle)⟩
    have hsq : signedQuantity md q = -q := by
      have hne : ¬ (SALIDA = ENTRADA) := by decide
      simp [signedQuantity, ht, hne]
    obtain ⟨r, p', hr, hsucc, hmsg, hfind, hstock⟩ :=
      ieee_registerMovement_ok roundDouble (f := f) hv hp hq
        (roundDouble_nonneg _ (by rw [hsq]; linarith)) hu
    refine ⟨r, p', hr, hsucc, ?_, hfind, by rw [hstock, hsq, sub_eq_add_neg]⟩
    rw [hmsg, ht]
    decide

/-- Witness for C4, scenario C: an entry of 20 on a stock of 5 gives 25. -/
theorem registration_postcondition_witness :
    ∃ r p', (registerMovement decimalHost tick shop entry20).result? = some r ∧
      r.success = true ∧ r.message = "Entrada registrada exitosamente" ∧
      getProductById (registerMovement decimalHost tick shop entry20).store (some "p1") =
        some p' ∧
      p'.stock = 5 + 20 :=
  ((registration_postcondition decimalHost tick shop entry20 widget 20 admin (by decide!)
    (by decide) rfl (by decide!) (by decide!) (by decide) (by decide)).1 (by decide)).1

end Inventarios
